import Mathlib

/-! SkillSwap: a shallow embedding of `chatController.js`, of the save hook of
`models/Chat.js`, of the relay of `config/socket.js`, of the message handlers of
`pages/Messages.jsx`, of `swapController.js` and of `getRecommendations` of
`aiController.js`.

The handlers of `src/server/src/controllers/chatController.js` are embedded as pure
functions over an explicit `Store` (the User, Chat and Message collections). The relay of
`src/server/src/config/socket.js` is embedded as a function from the connected sockets and
a client event to the sockets afterwards and the events handed out.

Conventions of the embedding:

* identities (`ObjectId`s) are natural numbers; a request carries well-formed identities,
  but for the field `to` of `createSwapRequest`, which the handler compares as a string
  before it is cast and which is therefore kept as the string written;
* a JavaScript string is the list of its UTF-16 code units, so `substring(0, 100)` is
  `List.take 100` and `length` is `List.length`; a string written to the store is kept as
  UTF-8, so a surrogate code unit without its partner is stored as U+FFFD;
* `Date.now()` is a parameter `now` of the handler that reads the clock;
* a handler returns the HTTP status, the success payload and the store it leaves behind;
* the collections are lists in insertion (natural) order; `findOne`/`findById` return the
  first matching document;
* a room of the relay is keyed by an identity (a user id or a chat id), and a JSON object
  is the list of its fields;
* the client is embedded as functions on the page state, an awaited call being a parameter
  that gives its outcome; timers are kept in an explicit list of pending timers and time
  is counted in milliseconds.
-/

namespace SkillSwap

/-- An `ObjectId`: the number its 12 bytes spell (below `16 ^ 24`). -/
abbrev Id := Nat

/-- A JavaScript string: its UTF-16 code units (each below 65536). -/
abbrev JsString := List Nat

/-- UTF-16 encoding of one Unicode scalar value. -/
def utf16 (c : Char) : List Nat :=
  if c.toNat < 65536 then [c.toNat]
  else [55296 + (c.toNat - 65536) / 1024, 56320 + (c.toNat - 65536) % 1024]

/-- The JavaScript string denoted by a literal. -/
def JsString.ofString (s : String) : JsString :=
  s.toList.flatMap utf16

/-- Code units removed by `String.prototype.trim`: ECMAScript WhiteSpace (TAB, VT, FF, SP,
NBSP, ZWNBSP and the Unicode space separators) and LineTerminator (LF, CR, LS, PS). -/
def jsWhiteSpace : List Nat :=
  [9, 10, 11, 12, 13, 32, 160, 5760,
   8192, 8193, 8194, 8195, 8196, 8197, 8198, 8199, 8200, 8201, 8202,
   8232, 8233, 8239, 8287, 12288, 65279]

/-- Whether a code unit is stripped by `trim`. -/
def isWhiteSpace (c : Nat) : Bool :=
  jsWhiteSpace.contains c

/-- Embedding of `String.prototype.trim`: strips leading and trailing white space. -/
def jsTrim (s : JsString) : JsString :=
  (s.dropWhile isWhiteSpace).rdropWhile isWhiteSpace

/-- Embedding of `String.prototype.substring(0, n)`. -/
def substring0 (s : JsString) (n : Nat) : JsString :=
  s.take n

/-- Whether a code unit is a high (leading) surrogate, U+D800 to U+DBFF. -/
def isHighSurrogate (c : Nat) : Bool :=
  55296 ≤ c && c ≤ 56319

/-- Whether a code unit is a low (trailing) surrogate, U+DC00 to U+DFFF. -/
def isLowSurrogate (c : Nat) : Bool :=
  56320 ≤ c && c ≤ 57343

/-- The rest of a string as the store keeps it; `held` is a high surrogate that has been
read and is written once the code unit after it is known. A high surrogate followed by a
low one is kept as the pair; any other surrogate is written as U+FFFD (65533). -/
def wellFormedFrom : Option Nat → JsString → JsString
  | none, [] => []
  | some _, [] => [65533]
  | none, c :: rest =>
    if isHighSurrogate c then wellFormedFrom (some c) rest
    else if isLowSurrogate c then 65533 :: wellFormedFrom none rest
    else c :: wellFormedFrom none rest
  | some h, c :: rest =>
    if isLowSurrogate c then h :: c :: wellFormedFrom none rest
    else if isHighSurrogate c then 65533 :: wellFormedFrom (some c) rest
    else 65533 :: c :: wellFormedFrom none rest

/-- A string as a document of the store holds it. The driver writes a string field as UTF-8
(BSON), which cannot encode a surrogate code unit that is not half of a pair: U+FFFD is
written in its place, so what is read back is `String.prototype.toWellFormed` of what was
assigned. -/
def toWellFormed (s : JsString) : JsString :=
  wellFormedFrom none s

/-- A User document, as far as the chat code looks at it. -/
structure User where
  id : Id
  name : JsString
  deriving DecidableEq, Repr

/-- A Chat document (`models/Chat.js`). -/
structure Chat where
  id : Id
  participants : List Id
  swapRequest : Option Id
  lastMessage : JsString
  lastMessageTime : Nat
  lastMessageSender : Option Id
  deriving DecidableEq, Repr

/-- Modelled from the spec: the Message schema (`models/Message.js` is not among the
sources). Spec section 3: identity, owning Chat reference, sender reference, text content,
read flag, nullable read timestamp, creation timestamp. -/
structure Message where
  id : Id
  chat : Id
  sender : Id
  content : JsString
  read : Bool
  readAt : Option Nat
  createdAt : Nat
  deriving DecidableEq, Repr

/-- The persistent store: the three collections and the next fresh `ObjectId`. -/
structure Store where
  users : List User
  chats : List Chat
  messages : List Message
  nextId : Id
  deriving DecidableEq, Repr

/-- What a handler leaves behind: HTTP status, success payload, resulting store. -/
structure Response (α : Type) where
  status : Nat
  body : Option α
  store : Store

/-! ## Persistence primitives -/

/-- Embedding of `User.findById`. -/
def User.findById (s : Store) (userId : Id) : Option User :=
  s.users.find? (fun u => u.id == userId)

/-- Embedding of `Chat.findById`. -/
def Chat.findById (s : Store) (chatId : Id) : Option Chat :=
  s.chats.find? (fun c => c.id == chatId)

/-- Embedding of `chat.participants.includes(id)`. -/
def Chat.includes (c : Chat) (userId : Id) : Bool :=
  c.participants.contains userId

/-- One invocation of the continuation `next` of a save hook. -/
inductive NextCall where
  | ok
  | error (msg : String)
  deriving DecidableEq, Repr

/-- Embedding of `chatSchema.pre('save', ...)` of `models/Chat.js`: the invocations of
`next`, in order. -/
def chatPreSave (participants : List Id) : List NextCall :=
  (if participants.length ≠ 2 then
      [NextCall.error "A chat must have exactly 2 participants"]
    else []) ++ [NextCall.ok]

/-- The save is rejected when the first invocation of `next` carries an error (the hook
runner honours only the first invocation). -/
def saveRejected (participants : List Id) : Bool :=
  match (chatPreSave participants).head? with
  | some (NextCall.error _) => true
  | _ => false

/-- Replace the first document satisfying `p` (a write addressed by `_id`). -/
def replaceFirst {α : Type} (p : α → Bool) (new : α) : List α → List α
  | [] => []
  | x :: xs => if p x then new :: xs else x :: replaceFirst p new xs

/-- Embedding of `chat.save()` once the hooks let it through: the stored document with the
chat's `_id` is overwritten. -/
def Chat.save (s : Store) (c : Chat) : Store :=
  { s with chats := replaceFirst (fun d => d.id == c.id) c s.chats }

/-- Embedding of `chat.deleteOne()`. -/
def Chat.deleteOne (s : Store) (c : Chat) : Store :=
  { s with chats := s.chats.eraseP (fun d => d.id == c.id) }

/-- Embedding of `Message.deleteMany({ chat: chatId })`. -/
def Message.deleteMany (s : Store) (chatId : Id) : Store :=
  { s with messages := s.messages.filter (fun m => !(m.chat == chatId)) }

/-- The filter `{ chat, sender: { $ne: reader }, read: false }` of `markMessagesAsRead`. -/
def unreadFromOthers (chatId reader : Id) (m : Message) : Bool :=
  m.chat == chatId && m.sender != reader && m.read == false

/-- The update `{ read: true, readAt: Date.now() }` applied to a message the filter
selects; any other message is left alone. -/
def markIfUnread (chatId reader : Id) (now : Nat) (m : Message) : Message :=
  if unreadFromOthers chatId reader m then { m with read := true, readAt := some now }
  else m

/-- Embedding of `Message.updateMany(filter, { read: true, readAt: Date.now() })`. -/
def Message.updateMany (s : Store) (chatId reader : Id) (now : Nat) : Store :=
  { s with messages := s.messages.map (markIfUnread chatId reader now) }

/-! ## The Message query builder -/

/-- A Mongoose query on the Message collection: the filter `{ chat }` and the options set
by the chained calls. -/
structure MessageQuery where
  chat : Id
  sortCreatedAt : Option Int
  limit : Option Nat
  skip : Option Nat

/-- Embedding of `Message.find({ chat: chatId })`. -/
def Message.find (chatId : Id) : MessageQuery :=
  { chat := chatId, sortCreatedAt := none, limit := none, skip := none }

/-- Embedding of `.sort({ createdAt: dir })`. -/
def MessageQuery.sort (q : MessageQuery) (dir : Int) : MessageQuery :=
  { q with sortCreatedAt := some dir }

/-- Embedding of `.limit(n)`: sets the limit option. -/
def MessageQuery.setLimit (q : MessageQuery) (n : Nat) : MessageQuery :=
  { q with limit := some n }

/-- Embedding of `.skip(n)`: sets the skip option. -/
def MessageQuery.setSkip (q : MessageQuery) (n : Nat) : MessageQuery :=
  { q with skip := some n }

/-- Newest-first order on messages. -/
def newerOrEq (a b : Message) : Prop := b.createdAt ≤ a.createdAt

instance : DecidableRel newerOrEq := fun a b => inferInstanceAs (Decidable (b.createdAt ≤ a.createdAt))

/-- Oldest-first order on messages. -/
def olderOrEq (a b : Message) : Prop := a.createdAt ≤ b.createdAt

instance : DecidableRel olderOrEq := fun a b => inferInstanceAs (Decidable (a.createdAt ≤ b.createdAt))

/-- Executing a query: the database filters, then sorts, then skips, then limits, whatever
the order in which the options were chained; a limit of `0` means no limit. Messages with
equal creation time keep their insertion order. -/
def MessageQuery.exec (q : MessageQuery) (s : Store) : List Message :=
  let matched := s.messages.filter (fun m => m.chat == q.chat)
  let sorted :=
    match q.sortCreatedAt with
    | none => matched
    | some dir =>
      if dir < 0 then matched.insertionSort newerOrEq
      else matched.insertionSort olderOrEq
  let skipped := sorted.drop (q.skip.getD 0)
  match q.limit with
  | none => skipped
  | some 0 => skipped
  | some n => skipped.take n

/-! ## The handlers -/

/-- Embedding of `exports.accessChat`; `userId` is `req.body.userId`, `requester` is
`req.user.id`. -/
def accessChat (s : Store) (requester : Id) (userId : Option Id) (now : Nat) :
    Response Chat :=
  match userId with
  | none => ⟨400, none, s⟩
  | some other =>
    match User.findById s other with
    | none => ⟨404, none, s⟩
    | some _ =>
      match s.chats.find? (fun c => [requester, other].all (fun p => c.participants.contains p)) with
      | some chat => ⟨200, some chat, s⟩
      | none =>
        let chat : Chat :=
          { id := s.nextId, participants := [requester, other], swapRequest := none,
            lastMessage := [], lastMessageTime := now, lastMessageSender := none }
        if saveRejected chat.participants then ⟨500, none, s⟩
        else
          let s1 : Store := { s with chats := s.chats ++ [chat], nextId := s.nextId + 1 }
          ⟨201, Chat.findById s1 chat.id, s1⟩

/-- Embedding of `exports.getMessages`; `limit` and `skip` are the parsed query
parameters, absent when the request omits them. -/
def getMessages (s : Store) (chatId requester : Id) (limit skip : Option Nat) :
    Response (List Message) :=
  let limit := limit.getD 50
  let skip := skip.getD 0
  match Chat.findById s chatId with
  | none => ⟨404, none, s⟩
  | some chat =>
    if !chat.includes requester then ⟨403, none, s⟩
    else
      let messages :=
        ((((Message.find chatId).sort (-1)).setLimit limit).setSkip skip).exec s
      ⟨200, some messages.reverse, s⟩

/-- Embedding of `exports.sendMessage`; `content` is `req.body.content` (absent or a
string). `Message.create` and `chat.save()` write their strings to the store, which keeps
them as `toWellFormed` gives them; the payload is read back by `Message.findById`. -/
def sendMessage (s : Store) (chatId requester : Id) (content : Option JsString)
    (now : Nat) : Response Message :=
  match content with
  | none => ⟨400, none, s⟩
  | some text =>
    if text.isEmpty || jsTrim text == [] then ⟨400, none, s⟩
    else
      match Chat.findById s chatId with
      | none => ⟨404, none, s⟩
      | some chat =>
        if !chat.includes requester then ⟨403, none, s⟩
        else
          let message : Message :=
            { id := s.nextId, chat := chatId, sender := requester,
              content := toWellFormed (jsTrim text),
              read := false, readAt := none, createdAt := now }
          let s1 : Store := { s with messages := s.messages ++ [message], nextId := s.nextId + 1 }
          let chat1 : Chat :=
            { chat with lastMessage := toWellFormed (substring0 (jsTrim text) 100),
                        lastMessageTime := now,
                        lastMessageSender := some requester }
          if saveRejected chat1.participants then ⟨500, none, s1⟩
          else
            let s2 := Chat.save s1 chat1
            ⟨201, s2.messages.find? (fun m => m.id == message.id), s2⟩

/-- Embedding of `exports.markMessagesAsRead`. -/
def markMessagesAsRead (s : Store) (chatId requester : Id) (now : Nat) : Response Unit :=
  match Chat.findById s chatId with
  | none => ⟨404, none, s⟩
  | some chat =>
    if !chat.includes requester then ⟨403, none, s⟩
    else ⟨200, some (), Message.updateMany s chatId requester now⟩

/-- Embedding of `exports.deleteChat`. -/
def deleteChat (s : Store) (chatId requester : Id) : Response Unit :=
  match Chat.findById s chatId with
  | none => ⟨404, none, s⟩
  | some chat =>
    if !chat.includes requester then ⟨403, none, s⟩
    else ⟨200, some (), Chat.deleteOne (Message.deleteMany s chatId) chat⟩

/-- Spec wording, "empty or consists only of whitespace": every code unit is white space. -/
def isBlank (text : JsString) : Bool :=
  text.all isWhiteSpace

/-- A small store used to instantiate the theorems: users 10, 11 and 12; chat 1 between
10 and 11 holding messages 100 (from 10) and 101 (from 11, already read); chat 2 between
11 and 12 holding message 102. -/
def demoStore : Store :=
  { users := [⟨10, [65]⟩, ⟨11, [66]⟩, ⟨12, [67]⟩]
    chats := [⟨1, [10, 11], none, [104, 105], 7, some 11⟩, ⟨2, [11, 12], none, [], 0, none⟩]
    messages := [⟨100, 1, 10, [104, 111], false, none, 5⟩,
                 ⟨101, 1, 11, [104, 105], true, some 8, 7⟩,
                 ⟨102, 2, 12, [121, 111], false, none, 6⟩]
    nextId := 103 }

/-- A text of 103 code units: 99 times "a", then U+1F600 (the surrogate pair 55357,
56832, at positions 99 and 100), then "bc". `substring(0, 100)` keeps the first half of
the pair only. -/
def splitPairText : JsString :=
  List.replicate 99 97 ++ [55357, 56832, 98, 99]

/-- A text of 120 code units with no surrogate: 120 times "a". -/
def longText : JsString :=
  List.replicate 120 97

/-- A store whose chat 1 (between 10 and 11) holds three messages inserted out of
creation order: message 100 created at 9, message 101 at 3, message 102 at 6; message 103
belongs to chat 2. -/
def unorderedStore : Store :=
  { users := [⟨10, [65]⟩, ⟨11, [66]⟩, ⟨12, [67]⟩]
    chats := [⟨1, [10, 11], none, [104, 105], 9, some 10⟩, ⟨2, [11, 12], none, [], 0, none⟩]
    messages := [⟨100, 1, 10, [99], false, none, 9⟩,
                 ⟨101, 1, 11, [97], true, some 4, 3⟩,
                 ⟨103, 2, 12, [122], false, none, 1⟩,
                 ⟨102, 1, 10, [98], false, none, 6⟩]
    nextId := 104 }

/-- Spec wording of listMessages (section 4.1): the chat's messages sorted newest-first,
the first `skip` dropped, then at most `limit` taken, and the page reversed. -/
def listMessagesSpec (s : Store) (chatId : Id) (limit skip : Nat) : List Message :=
  ((((s.messages.filter (fun m => m.chat == chatId)).insertionSort newerOrEq).drop skip).take
    limit).reverse

/-- Identities handed out so far lie below the next fresh one (`ObjectId`s are never
reused). -/
def Store.FreshIds (s : Store) : Prop :=
  (∀ c ∈ s.chats, c.id < s.nextId) ∧ (∀ m ∈ s.messages, m.id < s.nextId)

instance (s : Store) : Decidable s.FreshIds :=
  inferInstanceAs (Decidable ((∀ c ∈ s.chats, c.id < s.nextId) ∧ (∀ m ∈ s.messages, m.id < s.nextId)))

/-- The starting point of the scenario of spec section 8: users A = 10 and B = 11, no chat. -/
def scenarioUsers : Store :=
  { users := [⟨10, [65]⟩, ⟨11, [66]⟩], chats := [], messages := [], nextId := 1 }

/-- The scenario of spec section 8 from a store where A and B share the chat: A sends
`text` at `t1`, B marks the chat read at `t2`, then A lists the messages as the client
does (no `limit`, no `skip`). -/
def scenarioListing (s : Store) (chatId a b : Id) (text : JsString) (t1 t2 : Nat) :
    Response (List Message) :=
  getMessages
    (markMessagesAsRead (sendMessage s chatId a (some text) t1).store chatId b t2).store
    chatId a none none

/-! ## Listing chats, and sequences of requests -/

/-- The success body of `getChats`: `{ count, chats }`. -/
structure ChatList where
  count : Nat
  chats : List Chat
  deriving DecidableEq, Repr

/-- Most-recent-message-first order on chats (`sort({ lastMessageTime: -1 })`). -/
def laterOrEq (a b : Chat) : Prop := b.lastMessageTime ≤ a.lastMessageTime

instance : DecidableRel laterOrEq :=
  fun a b => inferInstanceAs (Decidable (b.lastMessageTime ≤ a.lastMessageTime))

/-- Embedding of `exports.getChats`: the query `{ participants: req.user.id }` selects the
chats whose participants array holds the requester; chats with equal `lastMessageTime`
keep their insertion order. -/
def getChats (s : Store) (requester : Id) : Response ChatList :=
  let chats :=
    (s.chats.filter (fun c => c.participants.contains requester)).insertionSort laterOrEq
  ⟨200, some ⟨chats.length, chats⟩, s⟩

/-- A request to the Chat Service (one route of `chatRoutes.js`) with its inputs. -/
inductive ChatOp where
  | accessChat (requester : Id) (userId : Option Id) (now : Nat)
  | getChats (requester : Id)
  | getMessages (chatId requester : Id) (limit skip : Option Nat)
  | sendMessage (chatId requester : Id) (content : Option JsString) (now : Nat)
  | markMessagesAsRead (chatId requester : Id) (now : Nat)
  | deleteChat (chatId requester : Id)
  deriving DecidableEq, Repr

/-- The store a request leaves behind. -/
def ChatOp.apply (s : Store) : ChatOp → Store
  | ChatOp.accessChat requester userId now => (SkillSwap.accessChat s requester userId now).store
  | ChatOp.getChats requester => (SkillSwap.getChats s requester).store
  | ChatOp.getMessages chatId requester limit skip =>
    (SkillSwap.getMessages s chatId requester limit skip).store
  | ChatOp.sendMessage chatId requester content now =>
    (SkillSwap.sendMessage s chatId requester content now).store
  | ChatOp.markMessagesAsRead chatId requester now =>
    (SkillSwap.markMessagesAsRead s chatId requester now).store
  | ChatOp.deleteChat chatId requester => (SkillSwap.deleteChat s chatId requester).store

/-- Requests served one after the other. -/
def runOps (s : Store) (ops : List ChatOp) : Store :=
  ops.foldl ChatOp.apply s

/-- Number of different users among the participants of a chat (the cardinality of its
participant set). -/
def Chat.participantSetCard (c : Chat) : Nat :=
  c.participants.dedup.length

/-- No two stored chats share an `_id` (the database keeps `_id` unique). -/
def Store.UniqueChatIds (s : Store) : Prop :=
  (s.chats.map (fun c => c.id)).Nodup

instance (s : Store) : Decidable s.UniqueChatIds :=
  inferInstanceAs (Decidable ((s.chats.map (fun c : Chat => c.id)).Nodup))

/-! ## The realtime relay (`config/socket.js`) -/

/-- A JSON value carried by a relay event; `oid` is the string form of an `ObjectId`. -/
inductive JsValue where
  | null
  | bool (b : Bool)
  | num (n : Int)
  | str (s : JsString)
  | oid (i : Id)
  | obj (fields : List (String × JsValue))

/-- A JSON object: its fields in order, each key at most once. -/
abbrev JsObject := List (String × JsValue)

/-- Reading a field, `o[key]`. -/
def JsObject.get (o : JsObject) (key : String) : Option JsValue :=
  (o.find? (fun kv => kv.1 == key)).map (fun kv => kv.2)

/-- Embedding of the object literal `{ ...o, key: v }`: the fields of `o` with `key`
overwritten in place, or added last when `o` has no such field. -/
def JsObject.spreadWith (o : JsObject) (key : String) (v : JsValue) : JsObject :=
  if o.any (fun kv => kv.1 == key) then
    o.map (fun kv => if kv.1 == key then (key, v) else kv)
  else o ++ [(key, v)]

/-- A connected socket: its connection identity, the identity the middleware stored on it
(`socket.userId`, `socket.userName`) and the rooms it has joined. -/
structure Socket where
  id : Nat
  userId : Id
  userName : JsString
  rooms : List Id
  deriving DecidableEq, Repr

/-- The relay: the sockets currently connected, in connection order. -/
structure Relay where
  sockets : List Socket
  deriving DecidableEq, Repr

/-- An event a client emits to the relay. -/
inductive ClientEvent where
  | join_chat (chatId : Id)
  | leave_chat (chatId : Id)
  | send_message (chatId : Id) (message : JsObject)
  | typing (chatId : Id)
  | stop_typing (chatId : Id)
  | swap_request_sent (recipientId : Id) (swapRequest : JsObject)
  | disconnect

/-- An event the relay emits to a client. -/
inductive ServerEvent where
  | receive_message (payload : JsObject)
  | user_typing (userId : Id) (userName : JsString) (chatId : Id)
  | user_stopped_typing (userId : Id) (chatId : Id)
  | swap_request_notification (swapRequest : JsObject)

/-- One event handed to one connected socket. -/
structure Delivery where
  socket : Nat
  event : ServerEvent

/-- Embedding of `io.to(room).emit(event)`: every connected socket in the room. -/
def ioToEmit (r : Relay) (room : Id) (event : ServerEvent) : List Delivery :=
  (r.sockets.filter (fun c => c.rooms.contains room)).map (fun c => ⟨c.id, event⟩)

/-- Embedding of `socket.to(room).emit(event)`: every connected socket in the room except
the emitting socket. -/
def socketToEmit (r : Relay) (sock : Nat) (room : Id) (event : ServerEvent) :
    List Delivery :=
  (r.sockets.filter (fun c => c.rooms.contains room && c.id != sock)).map
    (fun c => ⟨c.id, event⟩)

/-- Embedding of `socket.join(room)`. -/
def socketJoin (r : Relay) (sock : Nat) (room : Id) : Relay :=
  { sockets := r.sockets.map (fun c =>
      if c.id == sock && !c.rooms.contains room then { c with rooms := c.rooms ++ [room] }
      else c) }

/-- Embedding of `socket.leave(room)`. -/
def socketLeave (r : Relay) (sock : Nat) (room : Id) : Relay :=
  { sockets := r.sockets.map (fun c =>
      if c.id == sock then { c with rooms := c.rooms.filter (fun x => x != room) } else c) }

/-- The `sender` object the relay writes into a `receive_message` payload. -/
def senderOf (socket : Socket) : JsValue :=
  JsValue.obj [("_id", JsValue.oid socket.userId), ("name", JsValue.str socket.userName)]

/-- Embedding of the handlers registered in `io.on('connection', ...)`: the relay after
socket `sock` emits `event`, and the deliveries made. A socket that is not connected has
no handler. -/
def Relay.on (r : Relay) (sock : Nat) (event : ClientEvent) : Relay × List Delivery :=
  match r.sockets.find? (fun c => c.id == sock) with
  | none => (r, [])
  | some socket =>
    match event with
    | ClientEvent.join_chat chatId => (socketJoin r sock chatId, [])
    | ClientEvent.leave_chat chatId => (socketLeave r sock chatId, [])
    | ClientEvent.send_message chatId message =>
      (r, ioToEmit r chatId
        (ServerEvent.receive_message (message.spreadWith "sender" (senderOf socket))))
    | ClientEvent.typing chatId =>
      (r, socketToEmit r sock chatId
        (ServerEvent.user_typing socket.userId socket.userName chatId))
    | ClientEvent.stop_typing chatId =>
      (r, socketToEmit r sock chatId (ServerEvent.user_stopped_typing socket.userId chatId))
    | ClientEvent.swap_request_sent recipientId swapRequest =>
      (r, ioToEmit r recipientId (ServerEvent.swap_request_notification swapRequest))
    | ClientEvent.disconnect =>
      ({ sockets := r.sockets.filter (fun c => c.id != sock) }, [])

/-- What `verifyToken` of `config/jwt.js` (not among the sources) can do with a token:
return the decoded payload with its `id` field (possibly absent), return a falsy value,
or throw. -/
inductive VerifyResult where
  | decoded (id : Option Id)
  | null
  | throws
  deriving DecidableEq, Repr

/-- The part of `socket.handshake` the middleware reads: `auth.token`. -/
structure Handshake where
  token : Option JsString
  deriving DecidableEq, Repr

/-- Embedding of the middleware `io.use(async (socket, next) => ...)`: either the message
of the error passed to `next`, or the `userId` and `userName` stored on the socket before
`next()`. `verifyToken` is a parameter. -/
def authenticate (verifyToken : JsString → VerifyResult) (s : Store) (h : Handshake) :
    Except String (Id × JsString) :=
  match h.token with
  | none => Except.error "Authentication error"
  | some token =>
    if token.isEmpty then Except.error "Authentication error"
    else
      match verifyToken token with
      | VerifyResult.throws => Except.error "Authentication error"
      | VerifyResult.null => Except.error "Invalid token"
      | VerifyResult.decoded id =>
        match id.bind (User.findById s) with
        | none => Except.error "User not found"
        | some user => Except.ok (user.id, user.name)

/-- Outcome of a connection attempt: the error the client is refused with, if any, and the
relay afterwards. -/
structure ConnectResult where
  error : Option String
  relay : Relay
  deriving DecidableEq, Repr

/-- Embedding of a connection attempt: the middleware runs first; only when it calls
`next()` does `io.on('connection', ...)` run, which joins the personal room
`socket.userId` and registers the handlers. -/
def Relay.connect (verifyToken : JsString → VerifyResult) (s : Store) (r : Relay)
    (sock : Nat) (h : Handshake) : ConnectResult :=
  match authenticate verifyToken s h with
  | Except.error msg => ⟨some msg, r⟩
  | Except.ok (userId, userName) =>
    ⟨none, { sockets := r.sockets ++ [⟨sock, userId, userName, [userId]⟩] }⟩

/-- Two users connected and joined to chat room 1: socket 1 of user 10 ("A") and socket 2
of user 11 ("B"); socket 3 of user 12 has joined no chat room. -/
def demoRelay : Relay :=
  { sockets := [⟨1, 10, [65], [10, 1]⟩, ⟨2, 11, [66], [11, 1]⟩, ⟨3, 12, [67], [12]⟩] }

/-- A stored message as the client sends it over the relay, with a forged sender. -/
def demoMessage : JsObject :=
  [("_id", JsValue.oid 100), ("chat", JsValue.oid 1),
   ("sender", JsValue.obj [("_id", JsValue.oid 12), ("name", JsValue.str [67])]),
   ("content", JsValue.str [104, 111]), ("read", JsValue.bool false)]

/-- A token verifier for the examples: token "a" decodes to user 10, token "z" decodes to
the unknown user 99, token "t" makes verification throw, anything else is invalid. -/
def demoVerify (token : JsString) : VerifyResult :=
  if token = [97] then VerifyResult.decoded (some 10)
  else if token = [122] then VerifyResult.decoded (some 99)
  else if token = [116] then VerifyResult.throws
  else VerifyResult.null

/-! ## The chat client view (`pages/Messages.jsx`) -/

/-- Reading an identity-valued field of a message, such as `_id` or `chat`; `none` stands
for `undefined`. -/
def JsObject.oidAt (o : JsObject) (key : String) : Option Id :=
  match o.get key with
  | some (JsValue.oid i) => some i
  | _ => none

/-- Embedding of `handleReceiveMessage` for the active chat `selectedChat._id`: the
updater passed to `setMessages`, applied to the current list `prev`. -/
def handleReceiveMessage (selectedChat : Id) (prev : List JsObject) (message : JsObject) :
    List JsObject :=
  if message.oidAt "chat" == some selectedChat then
    if prev.any (fun m => m.oidAt "_id" == message.oidAt "_id") then prev
    else prev ++ [message]
  else prev

/-- The state of the Messages page that sending and receiving touch. `socket` tells
whether the socket handle is set; `emitted` lists the events emitted on it, oldest first;
`fetchChats` counts the calls of `fetchChats`. -/
structure ClientState where
  selectedChat : Option Id
  messages : List JsObject
  newMessage : JsString
  sending : Bool
  socket : Bool
  emitted : List ClientEvent
  alerts : List String
  fetchChats : Nat

/-- Embedding of `handleSendMessage` up to the `await`: `none` when the guard returns,
otherwise the state in which the POST is issued (`sending` set, input cleared) together
with the chat and the content posted. -/
def handleSendMessageStart (st : ClientState) : Option (ClientState × Id × JsString) :=
  match st.selectedChat with
  | none => none
  | some chatId =>
    if (jsTrim st.newMessage).isEmpty || st.sending then none
    else some ({ st with sending := true, newMessage := [] }, chatId, jsTrim st.newMessage)

/-- Embedding of `handleSendMessage` from the `await` on, in the state `st` the page is in
when the POST settles: `outcome` is `data.message`, or `none` when the call fails;
`chatId` and `socket` are the values the handler captured when it was called. -/
def handleSendMessageSettle (st : ClientState) (chatId : Id) (socket : Bool)
    (outcome : Option JsObject) : ClientState :=
  match outcome with
  | some message =>
    { st with
      messages := st.messages ++ [message]
      emitted :=
        if socket then
          st.emitted ++ [ClientEvent.send_message chatId message, ClientEvent.stop_typing chatId]
        else st.emitted
      fetchChats := st.fetchChats + 1
      sending := false }
  | none =>
    { st with alerts := st.alerts ++ ["Failed to send message"], sending := false }

/-- Embedding of `handleSendMessage` when nothing else happens while the POST is pending;
`post` is the REST call. -/
def handleSendMessage (st : ClientState) (post : Id → JsString → Option JsObject) :
    ClientState :=
  match handleSendMessageStart st with
  | none => st
  | some (st1, chatId, content) =>
    handleSendMessageSettle st1 chatId st.socket (post chatId content)

/-- A page with chat 1 selected, one message shown and the draft " yo ". -/
def demoClient : ClientState :=
  { selectedChat := some 1
    messages := [[("_id", JsValue.oid 101), ("chat", JsValue.oid 1),
                  ("content", JsValue.str [104, 105])]]
    newMessage := [32, 121, 111, 32]
    sending := false
    socket := true
    emitted := []
    alerts := []
    fetchChats := 0 }

/-! ## The typing indicator (`handleTyping` of `pages/Messages.jsx`) -/

/-- A timer of the browser's event loop set by `handleTyping`: its handle, the time at
which it is due (milliseconds) and the chat its callback emits `stop_typing` for. -/
structure PendingTimer where
  id : Nat
  due : Nat
  chatId : Id
  deriving DecidableEq, Repr

/-- The state the typing indicator works on: the handle kept in `typingTimeoutRef`, the
timers pending in the event loop, the next handle `setTimeout` returns (handles are
positive), and the events emitted on the socket, each with the time of emission. -/
structure TypingState where
  typingTimeoutRef : Option Nat
  timers : List PendingTimer
  nextTimerId : Nat
  emitted : List (Nat × ClientEvent)

/-- The page as mounted: no handle, no timer, nothing emitted. -/
def TypingState.init : TypingState :=
  { typingTimeoutRef := none, timers := [], nextTimerId := 1, emitted := [] }

/-- Embedding of `clearTimeout(handle)`. -/
def clearTimeout (timers : List PendingTimer) (handle : Nat) : List PendingTimer :=
  timers.filter (fun tm => tm.id != handle)

/-- Embedding of `handleTyping` called at time `now`; `socket` tells whether the socket
handle is set and `selectedChat` is `selectedChat._id`, if a chat is selected. -/
def handleTyping (st : TypingState) (now : Nat) (socket : Bool) (selectedChat : Option Id) :
    TypingState :=
  match socket, selectedChat with
  | true, some chatId =>
    let cleared :=
      match st.typingTimeoutRef with
      | some handle => if handle != 0 then clearTimeout st.timers handle else st.timers
      | none => st.timers
    { typingTimeoutRef := some st.nextTimerId
      timers := cleared ++ [⟨st.nextTimerId, now + 2000, chatId⟩]
      nextTimerId := st.nextTimerId + 1
      emitted := st.emitted ++ [(now, ClientEvent.typing chatId)] }
  | _, _ => st

/-- The event loop up to time `now`: every pending timer that is due runs its callback,
which emits `stop_typing`, at its due time, and is pending no more. -/
def runTimers (st : TypingState) (now : Nat) : TypingState :=
  { st with
    timers := st.timers.filter (fun tm => now < tm.due)
    emitted := st.emitted ++
      (st.timers.filter (fun tm => tm.due ≤ now)).map
        (fun tm => (tm.due, ClientEvent.stop_typing tm.chatId)) }

/-- What happens to the page: a keystroke at a given time, or time passing. -/
inductive TypingStep where
  | keystroke (now : Nat) (socket : Bool) (selectedChat : Option Id)
  | wait (now : Nat)

/-- One step: the timers due by then run first, then the keystroke is handled. -/
def TypingStep.apply (st : TypingState) : TypingStep → TypingState
  | TypingStep.keystroke now socket selectedChat =>
    handleTyping (runTimers st now) now socket selectedChat
  | TypingStep.wait now => runTimers st now

/-- Steps taken one after the other. -/
def runTyping (st : TypingState) (steps : List TypingStep) : TypingState :=
  steps.foldl TypingStep.apply st

/-- Keystrokes at the given times, with a socket and the chat `chatId` selected. -/
def keystrokesAt (chatId : Id) (times : List Nat) : List TypingStep :=
  times.map (fun t => TypingStep.keystroke t true (some chatId))

/-- The time of the last keystroke of a burst that starts at `t0` and goes on at the
times `rest`. -/
def lastKeystroke (t0 : Nat) : List Nat → Nat
  | [] => t0
  | t :: ts => lastKeystroke t ts

/-- The shape the typing state keeps: handles are positive, and a pending timer, if any,
is the only one and is the one whose handle `typingTimeoutRef` holds. -/
def TypingState.Tidy (st : TypingState) : Prop :=
  0 < st.nextTimerId ∧
  (st.timers = [] ∨
    ∃ tm, st.timers = [tm] ∧ st.typingTimeoutRef = some tm.id ∧ tm.id ≠ 0)

/-! ## Swap requests (`swapController.js`, `models/SwapRequest.js`) -/

/-- A SwapRequest document (`models/SwapRequest.js`); `fromUser` and `toUser` are the
schema's `from` and `to`. -/
structure SwapRequest where
  id : Id
  fromUser : Id
  toUser : Id
  fromSkill : JsString
  toSkill : JsString
  message : JsString
  status : String
  respondedAt : Option Nat
  completedAt : Option Nat
  createdAt : Nat
  deriving DecidableEq, Repr

/-- The User and SwapRequest collections and the next fresh `ObjectId`. -/
structure SwapStore where
  users : List User
  swapRequests : List SwapRequest
  nextId : Id
  deriving DecidableEq, Repr

/-- What a swap handler leaves behind: HTTP status, success payload, resulting store. -/
structure SwapResponse (α : Type) where
  status : Nat
  body : Option α
  store : SwapStore

/-- The `enum` of the schema's `status`. -/
def swapStatuses : List String :=
  ["pending", "accepted", "rejected", "completed"]

/-- Schema validation of a document about to be written: `fromSkill` and `toSkill` are
required (non-empty), `message` has at most 500 code units, `status` is in the enum. -/
def SwapRequest.validate (r : SwapRequest) : Bool :=
  !r.fromSkill.isEmpty && !r.toSkill.isEmpty && decide (r.message.length ≤ 500) &&
    swapStatuses.contains r.status

/-- Embedding of `User.findById` on the swap store. -/
def SwapStore.findUser (s : SwapStore) (userId : Id) : Option User :=
  s.users.find? (fun u => u.id == userId)

/-- Embedding of `SwapRequest.findById`. -/
def SwapRequest.findById (s : SwapStore) (id : Id) : Option SwapRequest :=
  s.swapRequests.find? (fun r => r.id == id)

/-- The filter `{ from, to, status: 'pending' }` of `createSwapRequest`. -/
def isPendingFor (fromUser toUser : Id) (r : SwapRequest) : Bool :=
  r.fromUser == fromUser && r.toUser == toUser && r.status == "pending"

/-- The lower-case hexadecimal digit of a value below 16, as a code unit. -/
def hexDigit (d : Nat) : Nat :=
  if d < 10 then 48 + d else 87 + d

/-- Embedding of `ObjectId.prototype.toString`, which `req.user.id` holds: the 24
lower-case hexadecimal digits of the 12-byte value, most significant first. -/
def toHexString (i : Id) : JsString :=
  (List.range 24).map (fun k => hexDigit (i / 16 ^ (23 - k) % 16))

/-- The value of a hexadecimal digit, written in either case. -/
def hexValue (c : Nat) : Option Nat :=
  if 48 ≤ c ∧ c ≤ 57 then some (c - 48)
  else if 97 ≤ c ∧ c ≤ 102 then some (c - 87)
  else if 65 ≤ c ∧ c ≤ 70 then some (c - 55)
  else none

/-- The number spelt by hexadecimal digits after the value `acc` read so far. -/
def hexNumber : JsString → Nat → Option Nat
  | [], acc => some acc
  | c :: rest, acc =>
    match hexValue c with
    | some d => hexNumber rest (acc * 16 + d)
    | none => none

/-- Embedding of the cast of a string to `ObjectId`, which a query and `create` apply to a
string given for an `ObjectId` path: 24 hexadecimal digits, in either case, give the
identity they spell; any other string is a cast error. -/
def castObjectId (s : JsString) : Option Id :=
  if s.length = 24 then hexNumber s 0 else none

/-- A swap request as the store keeps it: its strings are written as UTF-8. -/
def SwapRequest.persisted (r : SwapRequest) : SwapRequest :=
  { r with fromSkill := toWellFormed r.fromSkill, toSkill := toWellFormed r.toSkill,
           message := toWellFormed r.message }

/-- Embedding of `exports.createSwapRequest`; `toId` (the field `to`), `fromSkill`,
`toSkill` and `message` are the fields of `req.body`, absent or strings. The test
`req.user.id === to` compares the caller's identity, as `toHexString` writes it, with the
string given; `User.findById(to)`, the filter of `findOne` and `create` cast that string,
and a cast error is thrown to the `catch`, which answers 500. The schema trims the two
skills and gives `message` the default `''`; the payload is the document as created, the
store keeps it as `persisted` gives it. -/
def createSwapRequest (s : SwapStore) (requester : Id) (toId : Option JsString)
    (fromSkill toSkill message : Option JsString) (now : Nat) : SwapResponse SwapRequest :=
  match toId, fromSkill, toSkill with
  | some toStr, some fromSkill, some toSkill =>
    if toStr.isEmpty || fromSkill.isEmpty || toSkill.isEmpty then ⟨400, none, s⟩
    else if toHexString requester == toStr then ⟨400, none, s⟩
    else
      match castObjectId toStr with
      | none => ⟨500, none, s⟩
      | some recipient =>
        match s.findUser recipient with
        | none => ⟨404, none, s⟩
        | some _ =>
          match s.swapRequests.find? (isPendingFor requester recipient) with
          | some _ => ⟨400, none, s⟩
          | none =>
            let swapRequest : SwapRequest :=
              { id := s.nextId, fromUser := requester, toUser := recipient,
                fromSkill := jsTrim fromSkill, toSkill := jsTrim toSkill,
                message := message.getD [], status := "pending",
                respondedAt := none, completedAt := none, createdAt := now }
            if !swapRequest.validate then ⟨500, none, s⟩
            else
              ⟨201, some swapRequest,
                { s with swapRequests := s.swapRequests ++ [swapRequest.persisted],
                         nextId := s.nextId + 1 }⟩
  | _, _, _ => ⟨400, none, s⟩

/-- Embedding of `exports.getSwapRequests`; `type` and `status` are the query parameters.
Requests with equal creation time keep their insertion order. -/
def getSwapRequests (s : SwapStore) (requester : Id) (type status : Option String) :
    SwapResponse (List SwapRequest) :=
  let byType : SwapRequest → Bool :=
    if type = some "sent" then fun r => r.fromUser == requester
    else if type = some "received" then fun r => r.toUser == requester
    else fun r => r.fromUser == requester || r.toUser == requester
  let byStatus : SwapRequest → Bool :=
    match status with
    | some wanted => if wanted.isEmpty then fun _ => true else fun r => r.status == wanted
    | none => fun _ => true
  ⟨200,
    some ((s.swapRequests.filter (fun r => byType r && byStatus r)).insertionSort
      (fun a b => b.createdAt ≤ a.createdAt)),
    s⟩

/-- Embedding of `exports.getSwapRequestById`; reading `_id` of a populated `from` or `to`
whose user is gone throws, which the handler answers with 500. -/
def getSwapRequestById (s : SwapStore) (id requester : Id) : SwapResponse SwapRequest :=
  match SwapRequest.findById s id with
  | none => ⟨404, none, s⟩
  | some swapRequest =>
    match s.findUser swapRequest.fromUser with
    | none => ⟨500, none, s⟩
    | some _ =>
      if swapRequest.fromUser != requester then
        match s.findUser swapRequest.toUser with
        | none => ⟨500, none, s⟩
        | some _ =>
          if swapRequest.toUser != requester then ⟨403, none, s⟩
          else ⟨200, some swapRequest, s⟩
      else ⟨200, some swapRequest, s⟩

/-- The assignments of `updateSwapRequest` (lines 210-219): the new status, `respondedAt`
for accepted or rejected, `completedAt` for completed. -/
def SwapRequest.withStatus (swapRequest : SwapRequest) (status : String) (now : Nat) :
    SwapRequest :=
  { swapRequest with
    status := status
    respondedAt :=
      if status == "accepted" || status == "rejected" then some now
      else swapRequest.respondedAt
    completedAt :=
      if status == "completed" then some now else swapRequest.completedAt }

/-- Spec wording of who may set a status: the recipient for accepted and rejected, the
sender or the recipient for completed. -/
def authorisedFor (status : String) (requester : Id) (r : SwapRequest) : Bool :=
  if status == "completed" then r.fromUser == requester || r.toUser == requester
  else r.toUser == requester

/-- Embedding of `exports.updateSwapRequest`; `status` is `req.body.status`. -/
def updateSwapRequest (s : SwapStore) (id requester : Id) (status : Option String)
    (now : Nat) : SwapResponse SwapRequest :=
  match status with
  | none => ⟨400, none, s⟩
  | some status =>
    if status.isEmpty || !(["accepted", "rejected", "completed"].contains status) then
      ⟨400, none, s⟩
    else
      match SwapRequest.findById s id with
      | none => ⟨404, none, s⟩
      | some swapRequest =>
        if (status == "accepted" || status == "rejected") && swapRequest.toUser != requester then
          ⟨403, none, s⟩
        else if status == "completed" && swapRequest.fromUser != requester &&
            swapRequest.toUser != requester then
          ⟨403, none, s⟩
        else
          let updated : SwapRequest := swapRequest.withStatus status now
          if !updated.validate then ⟨500, none, s⟩
          else
            ⟨200, some updated,
              { s with swapRequests :=
                  replaceFirst (fun r => r.id == updated.id) updated s.swapRequests }⟩

/-- Embedding of `exports.deleteSwapRequest`. -/
def deleteSwapRequest (s : SwapStore) (id requester : Id) : SwapResponse Unit :=
  match SwapRequest.findById s id with
  | none => ⟨404, none, s⟩
  | some swapRequest =>
    if swapRequest.fromUser != requester then ⟨403, none, s⟩
    else
      ⟨200, some (),
        { s with swapRequests := s.swapRequests.eraseP (fun r => r.id == swapRequest.id) }⟩

/-- A request to the swap routes (`swapRoutes.js`) with its inputs. -/
inductive SwapOp where
  | create (requester : Id) (toId fromSkill toSkill message : Option JsString) (now : Nat)
  | list (requester : Id) (type status : Option String)
  | get (id requester : Id)
  | update (id requester : Id) (status : Option String) (now : Nat)
  | delete (id requester : Id)
  deriving DecidableEq, Repr

/-- The store a swap request leaves behind. -/
def SwapOp.apply (s : SwapStore) : SwapOp → SwapStore
  | SwapOp.create requester toId fromSkill toSkill message now =>
    (createSwapRequest s requester toId fromSkill toSkill message now).store
  | SwapOp.list requester type status => (getSwapRequests s requester type status).store
  | SwapOp.get id requester => (getSwapRequestById s id requester).store
  | SwapOp.update id requester status now => (updateSwapRequest s id requester status now).store
  | SwapOp.delete id requester => (deleteSwapRequest s id requester).store

/-- Swap requests served one after the other. -/
def runSwapOps (s : SwapStore) (ops : List SwapOp) : SwapStore :=
  ops.foldl SwapOp.apply s

/-- Users 10, 11 and 12; request 1 from 10 to 11 is pending, request 2 from 11 to 12 was
rejected, request 3 from 12 to 10 was completed. -/
def demoSwaps : SwapStore :=
  { users := [⟨10, [65]⟩, ⟨11, [66]⟩, ⟨12, [67]⟩]
    swapRequests :=
      [⟨1, 10, 11, [99], [106], [], "pending", none, none, 5⟩,
       ⟨2, 11, 12, [106], [99], [], "rejected", some 8, none, 6⟩,
       ⟨3, 12, 10, [99], [114], [], "completed", some 9, some 12, 7⟩]
    nextId := 4 }

/-- Users 10, 11 and 12 and no swap request. -/
def emptySwaps : SwapStore :=
  { users := [⟨10, [65]⟩, ⟨11, [66]⟩, ⟨12, [67]⟩], swapRequests := [], nextId := 1 }

/-- The string `'00000000000000000000000a'`, which `req.user.id` holds for the user 10. -/
def lowerTen : JsString :=
  JsString.ofString "00000000000000000000000a"

/-- The string `'00000000000000000000000A'`: the identity 10 written in upper case. -/
def upperTen : JsString :=
  JsString.ofString "00000000000000000000000A"

/-- The string `'00000000000000000000000b'`: the identity 11. -/
def lowerEleven : JsString :=
  JsString.ofString "00000000000000000000000b"

/-- What holds of every swap store reached from one without requests: each ordered pair
has at most one pending request, and the recipient of every stored request resolves to a
user. -/
def SwapStore.Sound (s : SwapStore) : Prop :=
  (∀ a b, s.swapRequests.countP (isPendingFor a b) ≤ 1) ∧
  (∀ r ∈ s.swapRequests, (s.findUser r.toUser).isSome = true)

/-! ## Recommendations (`aiController.js`) -/

/-- Modelled from the spec: the User document (`models/User.js` is not among the sources),
with the fields `aiController.js` reads. Spec section 1: users advertise skills they can
teach and skills they want to learn. `skillsToTeach` holds the `skill` of each entry. -/
structure Profile where
  id : Id
  name : JsString
  skillsToTeach : List JsString
  skillsToLearn : List JsString
  deriving DecidableEq, Repr

/-- Embedding of `Array.prototype.join(', ')`. -/
def joinComma (parts : List JsString) : JsString :=
  List.intercalate (JsString.ofString ", ") parts

/-- Embedding of `String.prototype.includes`. -/
def jsIncludes (s part : JsString) : Bool :=
  decide (List.IsInfix part s)

/-- Embedding of the filter computing `potentialMatches` (lines 48-56); `toLowerCase` is
`String.prototype.toLowerCase`. -/
def potentialMatches (toLowerCase : JsString → JsString) (currentUser : Profile)
    (allUsers : List Profile) : List Profile :=
  allUsers.filter (fun user =>
    !user.skillsToTeach.isEmpty &&
    user.skillsToTeach.any (fun skill =>
      currentUser.skillsToLearn.any (fun learnSkill =>
        jsIncludes (toLowerCase skill) (toLowerCase learnSkill) ||
        jsIncludes (toLowerCase learnSkill) (toLowerCase skill))))

/-- An element of `matchesData`. -/
structure MatchData where
  name : JsString
  teaches : JsString
  wantsToLearn : JsString
  deriving DecidableEq, Repr

/-- Embedding of `matchesData` (lines 69-73). -/
def matchesData (potential : List Profile) : List MatchData :=
  (potential.take 5).map (fun user =>
    ⟨user.name, joinComma user.skillsToTeach, joinComma user.skillsToLearn⟩)

/-- An element of `aiResponse.recommendations`. -/
structure AiRec where
  name : JsString
  score : Int
  reason : JsString
  deriving DecidableEq, Repr

/-- Embedding of `Array.prototype.map((x, i) => f(x, i))`, counting from `start`. -/
def mapWithIndex {α β : Type} (f : α → Nat → β) (start : Nat) : List α → List β
  | [] => []
  | x :: xs => f x start :: mapWithIndex f (start + 1) xs

/-- Embedding of the fallback of lines 116-122, used when `JSON.parse` throws. -/
def fallbackRecommendations (data : List MatchData) : List AiRec :=
  mapWithIndex (fun m i =>
    ⟨m.name, 90 - (i : Int) * 10,
      JsString.ofString "Can teach " ++ m.teaches ++
        JsString.ofString " which matches your learning goals"⟩) 0 data

/-- An element of the `recommendations` answered: `{ ...rec, user: fullUser }`. -/
structure Recommendation where
  name : JsString
  score : Int
  reason : JsString
  user : Profile
  deriving DecidableEq, Repr

/-- Embedding of lines 126-132: each recommendation is joined with the first potential
match of that name, and dropped when there is none. -/
def mergeRecommendations (potential : List Profile) (recs : List AiRec) :
    List Recommendation :=
  recs.filterMap (fun rec =>
    (potential.find? (fun u => u.name == rec.name)).map
      (fun fullUser => ⟨rec.name, rec.score, rec.reason, fullUser⟩))

/-- What the call of the generative model yields: a failure (it throws, or answers without
a response), or the text of its response. -/
inductive ModelOutcome where
  | failed
  | text (textResponse : JsString)
  deriving DecidableEq, Repr

/-- The answer of a recommendation handler. -/
structure RecResponse where
  status : Nat
  recommendations : Option (List Recommendation)
  deriving DecidableEq, Repr

/-- Embedding of `exports.getRecommendations`. `profiles` is the User collection,
`jsonParse` is `JSON.parse` followed by reading `recommendations` (`none` when it throws,
`some none` when the parsed value has no usable `recommendations`), and `simple` is the
answer of `getSimpleRecommendations`, to which the handler falls back. -/
def getRecommendations (toLowerCase : JsString → JsString)
    (jsonParse : JsString → Option (Option (List AiRec))) (simple : RecResponse)
    (profiles : List Profile) (requester : Id) (model : ModelOutcome) : RecResponse :=
  match profiles.find? (fun u => u.id == requester) with
  | none => ⟨500, none⟩
  | some currentUser =>
    if currentUser.skillsToLearn.isEmpty then ⟨400, none⟩
    else
      let allUsers := profiles.filter (fun u => u.id != requester)
      if allUsers.isEmpty then ⟨404, none⟩
      else
        let potential := potentialMatches toLowerCase currentUser allUsers
        if potential.isEmpty then ⟨404, none⟩
        else
          match model with
          | ModelOutcome.failed => simple
          | ModelOutcome.text textResponse =>
            let aiResponse :=
              match jsonParse textResponse with
              | none => some (fallbackRecommendations (matchesData potential))
              | some parsed => parsed
            match aiResponse with
            | none => simple
            | some recs => ⟨200, some (mergeRecommendations potential recs)⟩

/-- The recommendation the fallback builds for the potential match `user` at position
`i`. -/
def fallbackFor (user : Profile) (i : Nat) : Recommendation :=
  ⟨user.name, 90 - (i : Int) * 10,
    JsString.ofString "Can teach " ++ joinComma user.skillsToTeach ++
      JsString.ofString " which matches your learning goals", user⟩

/-- User 10 wants to learn "go"; users 11 to 17 teach "go", user 18 teaches "c". -/
def demoProfiles : List Profile :=
  [⟨10, [65], [[99]], [[103, 111]]⟩,
   ⟨11, [66], [[103, 111]], []⟩, ⟨12, [67], [[103, 111]], []⟩,
   ⟨13, [68], [[103, 111]], []⟩, ⟨14, [69], [[103, 111]], []⟩,
   ⟨15, [70], [[103, 111]], []⟩, ⟨16, [71], [[103, 111]], []⟩,
   ⟨17, [72], [[103, 111]], []⟩, ⟨18, [73], [[99]], []⟩]

/-! ## Lemmas on the primitives -/

theorem jsTrim_eq_nil_iff (text : JsString) : jsTrim text = [] ↔ isBlank text = true := by
  unfold jsTrim isBlank
  rw [List.rdropWhile_eq_nil_iff, List.all_eq_true]
  constructor
  · intro h
    have hnil : text.dropWhile isWhiteSpace = [] := by
      cases hd : text.dropWhile isWhiteSpace with
      | nil => rfl
      | cons x xs =>
        have hx : isWhiteSpace x = true := h x (by rw [hd]; exact List.mem_cons_self _ _)
        have hne : text.dropWhile isWhiteSpace ≠ [] := by rw [hd]; exact List.cons_ne_nil _ _
        have hhead := List.head_dropWhile_not isWhiteSpace text hne
        simp only [hd, List.head_cons] at hhead
        rw [hx] at hhead
        exact absurd hhead (by decide)
    exact List.dropWhile_eq_nil_iff.mp hnil
  · intro h
    have hnil : text.dropWhile isWhiteSpace = [] := List.dropWhile_eq_nil_iff.mpr h
    rw [hnil]
    intro x hx
    exact absurd hx (List.not_mem_nil x)

theorem sendMessage_guard_false (text : JsString) (h : isBlank text = false) :
    (text.isEmpty || jsTrim text == []) = false := by
  have h1 : jsTrim text ≠ [] := by
    intro hc
    rw [(jsTrim_eq_nil_iff text).mp hc] at h
    exact absurd h (by decide)
  have h2 : text ≠ [] := by
    intro hc
    subst hc
    exact absurd h (by decide)
  cases text with
  | nil => exact absurd rfl h2
  | cons x xs =>
    cases ht : jsTrim (x :: xs) with
    | nil => exact absurd ht h1
    | cons y ys => rfl

theorem findById_id {s : Store} {chatId : Id} {chat : Chat}
    (h : Chat.findById s chatId = some chat) : chat.id = chatId := by
  have := List.find?_some h
  simpa using this

theorem find?_replaceFirst {α : Type} (p : α → Bool) (new : α) (hnew : p new = true) :
    ∀ l : List α, (l.find? p).isSome = true → (replaceFirst p new l).find? p = some new
  | [], h => by simp at h
  | x :: xs, h => by
    by_cases hx : p x = true
    · simp [replaceFirst, hx, hnew]
    · have hx0 : p x = false := by simpa using hx
      have h1 : (xs.find? p).isSome = true := by simpa [List.find?, hx0] using h
      simp [replaceFirst, hx0, find?_replaceFirst p new hnew xs h1]

/-! ## Chat service: validation, lookup and authorisation failures -/

/-- C1: for every chat, requester and content that is absent, empty or made only of white
space, `sendMessage` answers 400 with no payload and leaves the store (hence the Message
collection and every chat summary) exactly as it was. -/
theorem sendMessage_blank_is_400 (s : Store) (chatId requester : Id)
    (content : Option JsString) (now : Nat)
    (hblank : ∀ text, content = some text → isBlank text = true) :
    (sendMessage s chatId requester content now).status = 400 ∧
    (sendMessage s chatId requester content now).body = none ∧
    (sendMessage s chatId requester content now).store = s ∧
    (sendMessage s chatId requester content now).store.messages = s.messages ∧
    Chat.findById (sendMessage s chatId requester content now).store chatId
      = Chat.findById s chatId := by
  cases content with
  | none => simp [sendMessage]
  | some text =>
    have h := (jsTrim_eq_nil_iff text).mpr (hblank text rfl)
    simp [sendMessage, h]

theorem sendMessage_blank_is_400_witness :
    (∀ text, some [32, 9, 10, 160] = some text → isBlank text = true) ∧
    (sendMessage demoStore 1 10 (some [32, 9, 10, 160]) 9).status = 400 ∧
    (sendMessage demoStore 1 10 (some [32, 9, 10, 160]) 9).body = none ∧
    (sendMessage demoStore 1 10 (some [32, 9, 10, 160]) 9).store = demoStore ∧
    (sendMessage demoStore 1 10 (some [32, 9, 10, 160]) 9).store.messages
      = demoStore.messages ∧
    Chat.findById (sendMessage demoStore 1 10 (some [32, 9, 10, 160]) 9).store 1
      = Chat.findById demoStore 1 :=
  have hb : ∀ text, some [32, 9, 10, 160] = some text → isBlank text = true := by
    intro text h
    cases h
    decide
  ⟨hb, sendMessage_blank_is_400 demoStore 1 10 (some [32, 9, 10, 160]) 9 hb⟩

/-- C2: for every stored chat and every caller who is not one of its participants,
`sendMessage` (with non-blank content), `markMessagesAsRead`, `deleteChat` and
`getMessages` all answer 403 and leave the store, hence the Chat and Message collections,
exactly as it was. -/
theorem non_participant_is_403 (s : Store) (chatId caller : Id) (chat : Chat)
    (text : JsString) (now : Nat) (limit skip : Option Nat)
    (hchat : Chat.findById s chatId = some chat)
    (hout : caller ∉ chat.participants)
    (htext : isBlank text = false) :
    ((sendMessage s chatId caller (some text) now).status = 403 ∧
      (sendMessage s chatId caller (some text) now).store = s) ∧
    ((markMessagesAsRead s chatId caller now).status = 403 ∧
      (markMessagesAsRead s chatId caller now).store = s) ∧
    ((deleteChat s chatId caller).status = 403 ∧
      (deleteChat s chatId caller).store = s) ∧
    ((getMessages s chatId caller limit skip).status = 403 ∧
      (getMessages s chatId caller limit skip).store = s) := by
  have hinc : chat.includes caller = false := by
    simp [Chat.includes, hout]
  have hg := sendMessage_guard_false text htext
  refine ⟨?_, ?_, ?_, ?_⟩
  · simp only [sendMessage, hg, hchat, hinc]
    simp
  · simp [markMessagesAsRead, hchat, hinc]
  · simp [deleteChat, hchat, hinc]
  · simp [getMessages, hchat, hinc]

theorem non_participant_is_403_witness :
    Chat.findById demoStore 1 = some ⟨1, [10, 11], none, [104, 105], 7, some 11⟩ ∧
    (12 ∉ [10, 11]) ∧ isBlank [104, 105] = false ∧
    ((sendMessage demoStore 1 12 (some [104, 105]) 9).status = 403 ∧
      (sendMessage demoStore 1 12 (some [104, 105]) 9).store = demoStore) ∧
    ((markMessagesAsRead demoStore 1 12 9).status = 403 ∧
      (markMessagesAsRead demoStore 1 12 9).store = demoStore) ∧
    ((deleteChat demoStore 1 12).status = 403 ∧
      (deleteChat demoStore 1 12).store = demoStore) ∧
    ((getMessages demoStore 1 12 none none).status = 403 ∧
      (getMessages demoStore 1 12 none none).store = demoStore) :=
  ⟨by decide, by decide, by decide,
    non_participant_is_403 demoStore 1 12 ⟨1, [10, 11], none, [104, 105], 7, some 11⟩
      [104, 105] 9 none none (by decide) (by decide) (by decide)⟩

/-- C6: for every chat identity that resolves to no stored chat, `getMessages`,
`sendMessage` (with non-blank content), `markMessagesAsRead` and `deleteChat` all answer
404 and leave the store exactly as it was. -/
theorem missing_chat_is_404 (s : Store) (chatId caller : Id)
    (text : JsString) (now : Nat) (limit skip : Option Nat)
    (hchat : Chat.findById s chatId = none)
    (htext : isBlank text = false) :
    ((getMessages s chatId caller limit skip).status = 404 ∧
      (getMessages s chatId caller limit skip).store = s) ∧
    ((sendMessage s chatId caller (some text) now).status = 404 ∧
      (sendMessage s chatId caller (some text) now).store = s) ∧
    ((markMessagesAsRead s chatId caller now).status = 404 ∧
      (markMessagesAsRead s chatId caller now).store = s) ∧
    ((deleteChat s chatId caller).status = 404 ∧
      (deleteChat s chatId caller).store = s) := by
  have hg := sendMessage_guard_false text htext
  refine ⟨?_, ?_, ?_, ?_⟩
  · simp [getMessages, hchat]
  · simp only [sendMessage, hg, hchat]
    simp
  · simp [markMessagesAsRead, hchat]
  · simp [deleteChat, hchat]

theorem missing_chat_is_404_witness :
    Chat.findById demoStore 7 = none ∧ isBlank [104, 105] = false ∧
    ((getMessages demoStore 7 10 none none).status = 404 ∧
      (getMessages demoStore 7 10 none none).store = demoStore) ∧
    ((sendMessage demoStore 7 10 (some [104, 105]) 9).status = 404 ∧
      (sendMessage demoStore 7 10 (some [104, 105]) 9).store = demoStore) ∧
    ((markMessagesAsRead demoStore 7 10 9).status = 404 ∧
      (markMessagesAsRead demoStore 7 10 9).store = demoStore) ∧
    ((deleteChat demoStore 7 10).status = 404 ∧
      (deleteChat demoStore 7 10).store = demoStore) :=
  ⟨by decide, by decide,
    missing_chat_is_404 demoStore 7 10 [104, 105] 9 none none (by decide) (by decide)⟩

/-! ## Sending a message -/

/-- The message `sendMessage` creates. -/
theorem sendMessage_cases (s : Store) (chatId senderId : Id) (content : Option JsString)
    (now : Nat) (hok : (sendMessage s chatId senderId content now).status = 201) :
    ∃ text chat, content = some text ∧ isBlank text = false ∧
      Chat.findById s chatId = some chat ∧ chat.includes senderId = true ∧
      saveRejected chat.participants = false ∧
      (sendMessage s chatId senderId content now).store =
        Chat.save
          { s with
            messages := s.messages ++
              [{ id := s.nextId, chat := chatId, sender := senderId, content := toWellFormed (jsTrim text),
                 read := false, readAt := none, createdAt := now }],
            nextId := s.nextId + 1 }
          { chat with lastMessage := toWellFormed (substring0 (jsTrim text) 100), lastMessageTime := now,
                      lastMessageSender := some senderId } := by
  cases content with
  | none => simp [sendMessage] at hok
  | some text =>
    cases hg : (text.isEmpty || jsTrim text == []) with
    | true =>
      simp only [sendMessage, hg] at hok
      simp at hok
    | false =>
      have hnb : isBlank text = false := by
        cases hb : isBlank text with
        | false => rfl
        | true =>
          have := (jsTrim_eq_nil_iff text).mpr hb
          simp [this] at hg
      cases hchat : Chat.findById s chatId with
      | none =>
        simp only [sendMessage, hg, hchat] at hok
        simp at hok
      | some chat =>
        cases hinc : chat.includes senderId with
        | false =>
          simp only [sendMessage, hg, hchat, hinc] at hok
          simp at hok
        | true =>
          cases hrej : saveRejected chat.participants with
          | true =>
            simp only [sendMessage, hg, hchat, hinc, hrej] at hok
            simp at hok
          | false =>
            refine ⟨text, chat, rfl, hnb, rfl, hinc, hrej, ?_⟩
            simp only [sendMessage, hg, hchat, hinc, hrej]
            simp

/-- Persisting keeps the number of code units. -/
theorem wellFormedFrom_length :
    ∀ (l : JsString) (held : Option Nat),
      (wellFormedFrom held l).length = held.toList.length + l.length
  | [], none => rfl
  | [], some _ => rfl
  | c :: rest, none => by
    unfold wellFormedFrom
    split
    · rw [wellFormedFrom_length rest (some c)]
      simp only [Option.toList, List.length_cons, List.length_nil]
      omega
    · split
      · rw [List.length_cons, wellFormedFrom_length rest none]
        simp only [Option.toList, List.length_cons, List.length_nil]
        omega
      · rw [List.length_cons, wellFormedFrom_length rest none]
        simp only [Option.toList, List.length_cons, List.length_nil]
        omega
  | c :: rest, some h => by
    unfold wellFormedFrom
    split
    · rw [List.length_cons, List.length_cons, wellFormedFrom_length rest none]
      simp only [Option.toList, List.length_cons, List.length_nil]
      omega
    · split
      · rw [List.length_cons, wellFormedFrom_length rest (some c)]
        simp only [Option.toList, List.length_cons, List.length_nil]
        omega
      · rw [List.length_cons, List.length_cons, wellFormedFrom_length rest none]
        simp only [Option.toList, List.length_cons, List.length_nil]
        omega

theorem toWellFormed_length (l : JsString) : (toWellFormed l).length = l.length := by
  unfold toWellFormed
  rw [wellFormedFrom_length l none]
  simp [Option.toList]

/-- A list that does not end in a high surrogate. -/
theorem getLast?_tail_not_high (a : Nat) (xs : JsString)
    (h : ∀ c, (a :: xs).getLast? = some c → isHighSurrogate c = false) :
    ∀ c, xs.getLast? = some c → isHighSurrogate c = false := by
  cases xs with
  | nil =>
    intro c hc
    simp at hc
  | cons x rest =>
    intro c hc
    apply h c
    rw [List.getLast?_cons_cons]
    exact hc

/-- A prefix of a well-formed string is well-formed when it does not end in the first half
of a surrogate pair. -/
theorem wellFormedFrom_take :
    ∀ (l : JsString) (held : Option Nat) (n : Nat),
      (∀ h, held = some h → isHighSurrogate h = true) →
      wellFormedFrom held l = held.toList ++ l →
      (∀ c, (held.toList ++ l.take n).getLast? = some c → isHighSurrogate c = false) →
      wellFormedFrom held (l.take n) = held.toList ++ l.take n
  | [], held, n, _, hwf, _ => by
    rw [List.take_nil]
    exact hwf
  | c :: rest, none, 0, _, _, _ => rfl
  | c :: rest, some h, 0, hheld, _, hlast => by
    have h1 : isHighSurrogate h = true := hheld h rfl
    have h2 : isHighSurrogate h = false := hlast h rfl
    rw [h1] at h2
    exact absurd h2 (by decide)
  | c :: rest, none, m + 1, _, hwf, hlast => by
    rw [List.take_succ_cons]
    rw [List.take_succ_cons] at hlast
    cases hhigh : isHighSurrogate c with
    | true =>
      have hwf1 : wellFormedFrom (some c) rest = (some c).toList ++ rest := by
        simpa [wellFormedFrom, hhigh] using hwf
      have ih := wellFormedFrom_take rest (some c) m
        (fun h hh => by
          have : c = h := Option.some.inj hh
          rw [← this]; exact hhigh)
        hwf1 hlast
      simpa [wellFormedFrom, hhigh] using ih
    | false =>
      cases hlow : isLowSurrogate c with
      | true =>
        exfalso
        have hc : (65533 : Nat) = c := by
          have h0 := hwf
          simp only [wellFormedFrom, hhigh, hlow] at h0
          simpa using (List.cons.inj (by simpa using h0)).1
        rw [← hc] at hlow
        exact absurd hlow (by decide)
      | false =>
        have hwf1 : wellFormedFrom none rest = (none : Option Nat).toList ++ rest := by
          have h0 := hwf
          simp only [wellFormedFrom, hhigh, hlow] at h0
          simpa using h0
        have ih := wellFormedFrom_take rest none m (fun h hh => by cases hh) hwf1
          (getLast?_tail_not_high c (rest.take m) hlast)
        simp only [wellFormedFrom, hhigh, hlow]
        simpa using ih
  | c :: rest, some h, m + 1, hheld, hwf, hlast => by
    have h1 : isHighSurrogate h = true := hheld h rfl
    rw [List.take_succ_cons]
    rw [List.take_succ_cons] at hlast
    cases hlow : isLowSurrogate c with
    | true =>
      have hwf1 : wellFormedFrom none rest = (none : Option Nat).toList ++ rest := by
        have h0 := hwf
        simp only [wellFormedFrom, hlow] at h0
        simpa using h0
      have ih := wellFormedFrom_take rest none m (fun h hh => by cases hh) hwf1
        (getLast?_tail_not_high c (rest.take m)
          (getLast?_tail_not_high h (c :: rest.take m) hlast))
      simp only [wellFormedFrom, hlow]
      simpa using ih
    | false =>
      exfalso
      have hh : (65533 : Nat) = h := by
        have h0 := hwf
        cases hhigh : isHighSurrogate c with
        | true =>
          simp only [wellFormedFrom, hlow, hhigh] at h0
          simpa using (List.cons.inj (by simpa using h0)).1
        | false =>
          simp only [wellFormedFrom, hlow, hhigh] at h0
          simpa using (List.cons.inj (by simpa using h0)).1
      rw [← hh] at h1
      exact absurd h1 (by decide)

theorem toWellFormed_take (l : JsString) (n : Nat) (hwf : toWellFormed l = l)
    (hlast : ∀ c, (l.take n).getLast? = some c → isHighSurrogate c = false) :
    toWellFormed (l.take n) = l.take n := by
  have := wellFormedFrom_take l none n (fun h hh => by cases hh) (by simpa using hwf)
    (by simpa using hlast)
  simpa using this

/-- C3: every successful `sendMessage(chatId, senderId, content)` appends exactly one
Message, whose chat is `chatId`, whose sender is `senderId` and whose content is the
trimmed content as the store keeps it (a surrogate code unit without its partner is kept
as U+FFFD), so the trimmed content itself when that is well-formed; afterwards the chat's
`lastMessage` is the first 100 code units of the trimmed content as the store keeps them:
it is at most 100 long, it is exactly those 100 code units when the trimmed content is
well-formed and the cut does not leave the first half of a surrogate pair at the end, and
it is the whole trimmed content when that is well-formed and at most 100 long; and the
chat's `lastMessageSender` is `senderId`. -/
theorem sendMessage_success_effect (s : Store) (chatId senderId : Id)
    (content : Option JsString) (now : Nat)
    (hok : (sendMessage s chatId senderId content now).status = 201) :
    ∃ text m c,
      content = some text ∧
      (sendMessage s chatId senderId content now).store.messages = s.messages ++ [m] ∧
      m.chat = chatId ∧ m.sender = senderId ∧ m.content = toWellFormed (jsTrim text) ∧
      (toWellFormed (jsTrim text) = jsTrim text → m.content = jsTrim text) ∧
      Chat.findById (sendMessage s chatId senderId content now).store chatId = some c ∧
      c.lastMessage = toWellFormed ((jsTrim text).take 100) ∧
      c.lastMessage.length ≤ 100 ∧
      (toWellFormed (jsTrim text) = jsTrim text →
        (∀ u, ((jsTrim text).take 100).getLast? = some u → isHighSurrogate u = false) →
        c.lastMessage = (jsTrim text).take 100) ∧
      (toWellFormed (jsTrim text) = jsTrim text → (jsTrim text).length ≤ 100 →
        c.lastMessage = jsTrim text) ∧
      c.lastMessageSender = some senderId := by
  obtain ⟨text, chat, hc, _, hchat, _, _, hst⟩ := sendMessage_cases s chatId senderId content now hok
  have hid : chat.id = chatId := findById_id hchat
  refine ⟨text,
    { id := s.nextId, chat := chatId, sender := senderId, content := toWellFormed (jsTrim text),
      read := false, readAt := none, createdAt := now },
    { chat with lastMessage := toWellFormed (substring0 (jsTrim text) 100), lastMessageTime := now,
                lastMessageSender := some senderId },
    hc, ?_, rfl, rfl, rfl, ?_, ?_, rfl, ?_, ?_, ?_, rfl⟩
  · rw [hst]; rfl
  · intro hwf
    exact hwf
  · rw [hst]
    have hsome : (s.chats.find? (fun d => d.id == chatId)).isSome = true := by
      have : s.chats.find? (fun d => d.id == chatId) = some chat := hchat
      rw [this]; rfl
    have := find?_replaceFirst (fun d : Chat => d.id == chatId)
      { chat with lastMessage := toWellFormed (substring0 (jsTrim text) 100), lastMessageTime := now,
                  lastMessageSender := some senderId }
      (by simp [hid]) s.chats hsome
    simpa [Chat.findById, Chat.save, hid] using this
  · show (toWellFormed ((jsTrim text).take 100)).length ≤ 100
    rw [toWellFormed_length]
    exact List.length_take_le 100 _
  · intro hwf hlast
    exact toWellFormed_take (jsTrim text) 100 hwf hlast
  · intro hwf hlen
    show toWellFormed ((jsTrim text).take 100) = jsTrim text
    rw [List.take_of_length_le hlen]
    exact hwf

set_option maxRecDepth 20000 in
theorem sendMessage_success_effect_witness :
    (sendMessage demoStore 1 10 (some (32 :: 32 :: splitPairText ++ [32])) 9).status = 201 ∧
    ∃ text m c,
      some (32 :: 32 :: splitPairText ++ [32]) = some text ∧
      (sendMessage demoStore 1 10 (some (32 :: 32 :: splitPairText ++ [32])) 9).store.messages
        = demoStore.messages ++ [m] ∧
      m.chat = 1 ∧ m.sender = 10 ∧ m.content = toWellFormed (jsTrim text) ∧
      (toWellFormed (jsTrim text) = jsTrim text → m.content = jsTrim text) ∧
      Chat.findById
          (sendMessage demoStore 1 10 (some (32 :: 32 :: splitPairText ++ [32])) 9).store 1
        = some c ∧
      c.lastMessage = toWellFormed ((jsTrim text).take 100) ∧
      c.lastMessage.length ≤ 100 ∧
      (toWellFormed (jsTrim text) = jsTrim text →
        (∀ u, ((jsTrim text).take 100).getLast? = some u → isHighSurrogate u = false) →
        c.lastMessage = (jsTrim text).take 100) ∧
      (toWellFormed (jsTrim text) = jsTrim text → (jsTrim text).length ≤ 100 →
        c.lastMessage = jsTrim text) ∧
      c.lastMessageSender = some 10 :=
  ⟨by decide,
    sendMessage_success_effect demoStore 1 10 (some (32 :: 32 :: splitPairText ++ [32])) 9
      (by decide)⟩

set_option maxRecDepth 20000 in
/-- The summary is not always the first 100 code units, nor the content always the trimmed
content. For 99 times "a", U+1F600, "bc" the request succeeds, the first 100 code units end
in the high surrogate 55357, and the chat keeps U+FFFD (65533) in its place; for a content
that is one surrogate alone the message keeps U+FFFD. -/
theorem sendMessage_summary_split_pair_refuted :
    (sendMessage demoStore 1 10 (some splitPairText) 9).status = 201 ∧
    (jsTrim splitPairText).take 100 = List.replicate 99 97 ++ [55357] ∧
    (Chat.findById (sendMessage demoStore 1 10 (some splitPairText) 9).store 1).map
      (fun c => c.lastMessage) = some (List.replicate 99 97 ++ [65533]) ∧
    (Chat.findById (sendMessage demoStore 1 10 (some splitPairText) 9).store 1).map
      (fun c => c.lastMessage) ≠ some ((jsTrim splitPairText).take 100) ∧
    (sendMessage demoStore 1 10 (some [55357]) 9).status = 201 ∧
    (sendMessage demoStore 1 10 (some [55357]) 9).store.messages
      = demoStore.messages ++ [⟨103, 1, 10, [65533], false, none, 9⟩] ∧
    jsTrim [55357] = [55357] := by
  decide

set_option maxRecDepth 20000 in
/-- A text of 120 code units with no surrogate is cut to its first 100 code units. -/
theorem sendMessage_long_summary :
    (Chat.findById (sendMessage demoStore 1 10 (some longText) 9).store 1).map
      (fun c => c.lastMessage) = some (List.replicate 100 97) ∧
    ((sendMessage demoStore 1 10 (some longText) 9).body.map (fun m => m.content))
      = some longText := by
  decide

/-- The scenario of the spec: after "Hello" is sent the chat summary reads "Hello". -/
theorem sendMessage_hello_summary :
    (Chat.findById (sendMessage demoStore 1 10 (some (JsString.ofString "Hello")) 9).store 1).map
      (fun c => c.lastMessage) = some (JsString.ofString "Hello") := by
  decide

/-! ## Listing messages -/

instance : IsTotal Message newerOrEq := ⟨fun a b => Nat.le_total b.createdAt a.createdAt⟩

instance : IsTrans Message newerOrEq :=
  ⟨fun _ _ _ hab hbc => Nat.le_trans hbc hab⟩

/-- What the query of `getMessages` returns, for a positive limit. -/
theorem getMessages_query_exec (s : Store) (chatId : Id) (limit skip : Nat)
    (hlimit : 0 < limit) :
    ((((Message.find chatId).sort (-1)).setLimit limit).setSkip skip).exec s
      = (((s.messages.filter (fun m => m.chat == chatId)).insertionSort newerOrEq).drop
          skip).take limit := by
  cases limit with
  | zero => exact absurd hlimit (Nat.lt_irrefl 0)
  | succ n =>
    simp [MessageQuery.exec, MessageQuery.setSkip, MessageQuery.setLimit, MessageQuery.sort,
      Message.find]

/-- What the query of `getMessages` returns is a contiguous part of the newest-first
sorted messages, whatever the limit. -/
theorem getMessages_query_sublist (s : Store) (chatId : Id) (limit skip : Nat) :
    List.Sublist (((((Message.find chatId).sort (-1)).setLimit limit).setSkip skip).exec s)
      ((s.messages.filter (fun m => m.chat == chatId)).insertionSort newerOrEq) := by
  cases limit with
  | zero =>
    simp only [MessageQuery.exec, MessageQuery.setSkip, MessageQuery.setLimit,
      MessageQuery.sort, Message.find]
    simpa using List.drop_sublist skip _
  | succ n =>
    rw [getMessages_query_exec s chatId (n + 1) skip (Nat.succ_pos n)]
    exact (List.take_sublist _ _).trans (List.drop_sublist _ _)

theorem getMessages_participant (s : Store) (chatId requester : Id) (chat : Chat)
    (limit skip : Option Nat)
    (hchat : Chat.findById s chatId = some chat)
    (hin : requester ∈ chat.participants) :
    getMessages s chatId requester limit skip =
      ⟨200, some (((((Message.find chatId).sort (-1)).setLimit (limit.getD 50)).setSkip
        (skip.getD 0)).exec s).reverse, s⟩ := by
  have hinc : chat.includes requester = true := by
    simp [Chat.includes, hin]
  simp [getMessages, hchat, hinc]

/-- C4: for every chat, participant requester, limit and skip (given or omitted),
`getMessages` answers 200 with a sequence in non-decreasing creation-time order. -/
theorem getMessages_oldest_first (s : Store) (chatId requester : Id) (chat : Chat)
    (limit skip : Option Nat)
    (hchat : Chat.findById s chatId = some chat)
    (hin : requester ∈ chat.participants) :
    ∃ page, (getMessages s chatId requester limit skip).status = 200 ∧
      (getMessages s chatId requester limit skip).body = some page ∧
      page.Pairwise (fun a b => a.createdAt ≤ b.createdAt) := by
  rw [getMessages_participant s chatId requester chat limit skip hchat hin]
  refine ⟨_, rfl, rfl, ?_⟩
  rw [List.pairwise_reverse]
  have hsorted : List.Pairwise newerOrEq
      ((s.messages.filter (fun m => m.chat == chatId)).insertionSort newerOrEq) :=
    List.sorted_insertionSort newerOrEq _
  exact hsorted.sublist (getMessages_query_sublist s chatId _ _)

theorem getMessages_oldest_first_witness :
    Chat.findById unorderedStore 1 = some ⟨1, [10, 11], none, [104, 105], 9, some 10⟩ ∧
    (10 ∈ [10, 11]) ∧
    (getMessages unorderedStore 1 10 none none).body =
      some [⟨101, 1, 11, [97], true, some 4, 3⟩, ⟨102, 1, 10, [98], false, none, 6⟩,
            ⟨100, 1, 10, [99], false, none, 9⟩] ∧
    (getMessages unorderedStore 1 10 (some 2) (some 1)).body =
      some [⟨101, 1, 11, [97], true, some 4, 3⟩, ⟨102, 1, 10, [98], false, none, 6⟩] ∧
    (∃ page, (getMessages unorderedStore 1 10 none none).status = 200 ∧
      (getMessages unorderedStore 1 10 none none).body = some page ∧
      page.Pairwise (fun a b => a.createdAt ≤ b.createdAt)) ∧
    ∃ page, (getMessages unorderedStore 1 10 (some 2) (some 1)).status = 200 ∧
      (getMessages unorderedStore 1 10 (some 2) (some 1)).body = some page ∧
      page.Pairwise (fun a b => a.createdAt ≤ b.createdAt) :=
  ⟨by decide, by decide, by decide, by decide,
    getMessages_oldest_first unorderedStore 1 10 ⟨1, [10, 11], none, [104, 105], 9, some 10⟩
      none none (by decide) (by decide),
    getMessages_oldest_first unorderedStore 1 10 ⟨1, [10, 11], none, [104, 105], 9, some 10⟩
      (some 2) (some 1) (by decide) (by decide)⟩

/-- C5: for every chat, participant requester, positive limit and skip, `getMessages`
returns the reverse of the chat's messages sorted newest-first with the first `skip`
dropped and then at most `limit` taken; omitted `limit` and `skip` stand for 50 and 0;
and with `skip = 0` the page holds the `limit` newest messages of the chat: together with
the messages left out it is a rearrangement of the chat's messages, it has
`min limit (number of messages)` entries, and no message left out is newer than a
returned one. -/
theorem getMessages_page (s : Store) (chatId requester : Id) (chat : Chat)
    (limit skip : Nat)
    (hchat : Chat.findById s chatId = some chat)
    (hin : requester ∈ chat.participants)
    (hlimit : 0 < limit) :
    ((getMessages s chatId requester (some limit) (some skip)).status = 200 ∧
      (getMessages s chatId requester (some limit) (some skip)).body
        = some (listMessagesSpec s chatId limit skip)) ∧
    ((getMessages s chatId requester none none).body
        = some (listMessagesSpec s chatId 50 0) ∧
      (getMessages s chatId requester (some limit) none).body
        = some (listMessagesSpec s chatId limit 0) ∧
      (getMessages s chatId requester none (some skip)).body
        = some (listMessagesSpec s chatId 50 skip)) ∧
    (∃ page rest,
      (getMessages s chatId requester (some limit) (some 0)).body = some page ∧
      List.Perm (page ++ rest) (s.messages.filter (fun m => m.chat == chatId)) ∧
      page.length = min limit (s.messages.filter (fun m => m.chat == chatId)).length ∧
      ∀ m ∈ page, ∀ r ∈ rest, r.createdAt ≤ m.createdAt) := by
  have hbody : ∀ (l k : Nat), 0 < l →
      getMessages s chatId requester (some l) (some k)
        = ⟨200, some (listMessagesSpec s chatId l k), s⟩ := by
    intro l k hl
    rw [getMessages_participant s chatId requester chat _ _ hchat hin]
    simp only [Option.getD_some, getMessages_query_exec s chatId l k hl, listMessagesSpec]
  refine ⟨?_, ⟨?_, ?_, ?_⟩, ?_⟩
  · rw [hbody limit skip hlimit]
    exact ⟨rfl, rfl⟩
  · have : getMessages s chatId requester none none
        = getMessages s chatId requester (some 50) (some 0) := rfl
    rw [this, hbody 50 0 (by decide)]
  · have : getMessages s chatId requester (some limit) none
        = getMessages s chatId requester (some limit) (some 0) := rfl
    rw [this, hbody limit 0 hlimit]
  · have : getMessages s chatId requester none (some skip)
        = getMessages s chatId requester (some 50) (some skip) := rfl
    rw [this, hbody 50 skip (by decide)]
  · refine ⟨listMessagesSpec s chatId limit 0,
      ((s.messages.filter (fun m => m.chat == chatId)).insertionSort newerOrEq).drop limit,
      ?_, ?_, ?_, ?_⟩
    · rw [hbody limit 0 hlimit]
    · have hperm := List.perm_insertionSort newerOrEq
        (s.messages.filter (fun m => m.chat == chatId))
      refine List.Perm.trans ?_ hperm
      have htd := List.take_append_drop limit
        ((s.messages.filter (fun m => m.chat == chatId)).insertionSort newerOrEq)
      conv_rhs => rw [← htd]
      exact List.Perm.append_right _ (by
        simp only [listMessagesSpec, List.drop_zero]
        exact List.reverse_perm _)
    · simp [listMessagesSpec, List.length_insertionSort]
    · intro m hm r hr
      have hsorted : List.Sorted newerOrEq
          ((s.messages.filter (fun m => m.chat == chatId)).insertionSort newerOrEq) :=
        List.sorted_insertionSort newerOrEq _
      have hm1 : m ∈ List.take limit
          ((s.messages.filter (fun m => m.chat == chatId)).insertionSort newerOrEq) := by
        simpa [listMessagesSpec] using hm
      exact hsorted.rel_of_mem_take_of_mem_drop hm1 hr

theorem getMessages_page_witness :
    Chat.findById demoStore 1 = some ⟨1, [10, 11], none, [104, 105], 7, some 11⟩ ∧
    (10 ∈ [10, 11]) ∧ 0 < 1 ∧
    ((getMessages demoStore 1 10 (some 1) (some 0)).status = 200 ∧
      (getMessages demoStore 1 10 (some 1) (some 0)).body
        = some (listMessagesSpec demoStore 1 1 0)) ∧
    ((getMessages demoStore 1 10 none none).body
        = some (listMessagesSpec demoStore 1 50 0) ∧
      (getMessages demoStore 1 10 (some 1) none).body
        = some (listMessagesSpec demoStore 1 1 0) ∧
      (getMessages demoStore 1 10 none (some 0)).body
        = some (listMessagesSpec demoStore 1 50 0)) ∧
    (∃ page rest,
      (getMessages demoStore 1 10 (some 1) (some 0)).body = some page ∧
      List.Perm (page ++ rest) (demoStore.messages.filter (fun m => m.chat == 1)) ∧
      page.length = min 1 (demoStore.messages.filter (fun m => m.chat == 1)).length ∧
      ∀ m ∈ page, ∀ r ∈ rest, r.createdAt ≤ m.createdAt) :=
  ⟨by decide, by decide, by decide,
    getMessages_page demoStore 1 10 ⟨1, [10, 11], none, [104, 105], 7, some 11⟩ 1 0
      (by decide) (by decide) (by decide)⟩

/-- With a page of one message and no skip, the newest message of chat 1 is returned,
not the oldest. -/
theorem getMessages_demo_newest :
    (getMessages demoStore 1 10 (some 1) (some 0)).body
      = some [⟨101, 1, 11, [104, 105], true, some 8, 7⟩] := by
  decide

/-! ## Marking messages as read -/

theorem markMessagesAsRead_participant (s : Store) (chatId reader : Id) (chat : Chat)
    (now : Nat) (hchat : Chat.findById s chatId = some chat)
    (hin : reader ∈ chat.participants) :
    markMessagesAsRead s chatId reader now
      = ⟨200, some (), Message.updateMany s chatId reader now⟩ := by
  have hinc : chat.includes reader = true := by
    simp [Chat.includes, hin]
  simp [markMessagesAsRead, hchat, hinc]

theorem markMessagesAsRead_ok_store (s : Store) (chatId reader : Id) (now : Nat)
    (hok : (markMessagesAsRead s chatId reader now).status = 200) :
    (markMessagesAsRead s chatId reader now).store = Message.updateMany s chatId reader now := by
  cases hchat : Chat.findById s chatId with
  | none => simp [markMessagesAsRead, hchat] at hok
  | some chat =>
    cases hinc : chat.includes reader with
    | false => simp [markMessagesAsRead, hchat, hinc] at hok
    | true => simp [markMessagesAsRead, hchat, hinc]

theorem unreadFromOthers_after_update (chatId reader : Id) (t : Nat) (m : Message) :
    unreadFromOthers chatId reader (markIfUnread chatId reader t m) = false := by
  unfold markIfUnread
  cases h : unreadFromOthers chatId reader m with
  | false => simpa using h
  | true => simp [unreadFromOthers]

theorem markIfUnread_frame (chatId reader : Id) (t : Nat) (m : Message) :
    (markIfUnread chatId reader t m).id = m.id ∧
    (markIfUnread chatId reader t m).chat = m.chat ∧
    (markIfUnread chatId reader t m).sender = m.sender := by
  unfold markIfUnread
  split <;> exact ⟨rfl, rfl, rfl⟩

theorem updateMany_updateMany (s : Store) (chatId reader : Id) (t1 t2 : Nat) :
    Message.updateMany (Message.updateMany s chatId reader t1) chatId reader t2
      = Message.updateMany s chatId reader t1 := by
  simp only [Message.updateMany, List.map_map]
  congr 1
  apply List.map_congr_left
  intro m _
  simp only [Function.comp]
  have h := unreadFromOthers_after_update chatId reader t1 m
  generalize markIfUnread chatId reader t1 m = x at h
  simp [markIfUnread, h]

/-- C7: `markMessagesAsRead` is idempotent. For every chat and participant reader, both of
two consecutive calls answer 200 and the store after the second call (the Message
collection with its read flags and read timestamps, and the Chat collection) is the store
after the first call, whatever the clock reads at the second call. -/
theorem markMessagesAsRead_idempotent (s : Store) (chatId reader : Id) (chat : Chat)
    (t1 t2 : Nat)
    (hchat : Chat.findById s chatId = some chat)
    (hin : reader ∈ chat.participants) :
    (markMessagesAsRead s chatId reader t1).status = 200 ∧
    (markMessagesAsRead (markMessagesAsRead s chatId reader t1).store chatId reader t2).status
      = 200 ∧
    (markMessagesAsRead (markMessagesAsRead s chatId reader t1).store chatId reader t2).store
      = (markMessagesAsRead s chatId reader t1).store ∧
    (markMessagesAsRead (markMessagesAsRead s chatId reader t1).store chatId reader
        t2).store.messages
      = (markMessagesAsRead s chatId reader t1).store.messages := by
  have h1 := markMessagesAsRead_participant s chatId reader chat t1 hchat hin
  have hchat1 : Chat.findById (Message.updateMany s chatId reader t1) chatId = some chat := hchat
  have h2 := markMessagesAsRead_participant (Message.updateMany s chatId reader t1) chatId
    reader chat t2 hchat1 hin
  rw [h1]
  simp only []
  rw [h2]
  simp only [updateMany_updateMany]
  exact ⟨trivial, trivial, trivial, trivial⟩

theorem markMessagesAsRead_idempotent_witness :
    Chat.findById demoStore 1 = some ⟨1, [10, 11], none, [104, 105], 7, some 11⟩ ∧
    (11 ∈ [10, 11]) ∧
    (markMessagesAsRead demoStore 1 11 20).status = 200 ∧
    (markMessagesAsRead (markMessagesAsRead demoStore 1 11 20).store 1 11 30).status = 200 ∧
    (markMessagesAsRead (markMessagesAsRead demoStore 1 11 20).store 1 11 30).store
      = (markMessagesAsRead demoStore 1 11 20).store ∧
    (markMessagesAsRead (markMessagesAsRead demoStore 1 11 20).store 1 11 30).store.messages
      = (markMessagesAsRead demoStore 1 11 20).store.messages :=
  ⟨by decide, by decide,
    markMessagesAsRead_idempotent demoStore 1 11 ⟨1, [10, 11], none, [104, 105], 7, some 11⟩
      20 30 (by decide) (by decide)⟩

theorem forall₂_map_self {α : Type} (R : α → α → Prop) (f : α → α) (h : ∀ a, R a (f a)) :
    ∀ l : List α, List.Forall₂ R l (l.map f)
  | [] => List.Forall₂.nil
  | a :: l => List.Forall₂.cons (h a) (forall₂_map_self R f h l)

/-- C8: after every successful `markMessagesAsRead(chatId, readerId)` the Message
collection holds the same messages in the same order, and for each message: it is read
afterwards exactly when it was read before or it belongs to `chatId` and was not sent by
`readerId`; a message newly marked gets the read timestamp `now`; a message sent by
`readerId`, a message of another chat and an already-read message is unchanged (read
timestamp included); identity, chat, sender, content and creation time never change. The
Chat and User collections are unchanged. -/
theorem markMessagesAsRead_effect (s : Store) (chatId readerId : Id) (now : Nat)
    (hok : (markMessagesAsRead s chatId readerId now).status = 200) :
    List.Forall₂
      (fun before after =>
        (after.read = true ↔
          (before.read = true ∨ (before.chat = chatId ∧ before.sender ≠ readerId))) ∧
        ((before.read = false ∧ before.chat = chatId ∧ before.sender ≠ readerId) →
          after.readAt = some now) ∧
        ((before.sender = readerId ∨ before.chat ≠ chatId ∨ before.read = true) →
          after = before) ∧
        (after.id = before.id ∧ after.chat = before.chat ∧ after.sender = before.sender ∧
          after.content = before.content ∧ after.createdAt = before.createdAt))
      s.messages (markMessagesAsRead s chatId readerId now).store.messages ∧
    (markMessagesAsRead s chatId readerId now).store.chats = s.chats ∧
    (markMessagesAsRead s chatId readerId now).store.users = s.users := by
  rw [markMessagesAsRead_ok_store s chatId readerId now hok]
  refine ⟨?_, rfl, rfl⟩
  simp only [Message.updateMany]
  apply forall₂_map_self
  intro m
  cases hread : m.read <;>
    by_cases hc : m.chat = chatId <;>
    by_cases hs : m.sender = readerId <;>
    simp [markIfUnread, unreadFromOthers, hread, hc, hs]

theorem markMessagesAsRead_effect_witness :
    (markMessagesAsRead demoStore 1 11 20).status = 200 ∧
    List.Forall₂
      (fun before after =>
        (after.read = true ↔
          (before.read = true ∨ (before.chat = 1 ∧ before.sender ≠ 11))) ∧
        ((before.read = false ∧ before.chat = 1 ∧ before.sender ≠ 11) →
          after.readAt = some 20) ∧
        ((before.sender = 11 ∨ before.chat ≠ 1 ∨ before.read = true) →
          after = before) ∧
        (after.id = before.id ∧ after.chat = before.chat ∧ after.sender = before.sender ∧
          after.content = before.content ∧ after.createdAt = before.createdAt))
      demoStore.messages (markMessagesAsRead demoStore 1 11 20).store.messages ∧
    (markMessagesAsRead demoStore 1 11 20).store.chats = demoStore.chats ∧
    (markMessagesAsRead demoStore 1 11 20).store.users = demoStore.users :=
  ⟨by decide, markMessagesAsRead_effect demoStore 1 11 20 (by decide)⟩

/-- In the demo store, reader 11 marks message 100 of chat 1 and nothing else. -/
theorem markMessagesAsRead_demo :
    (markMessagesAsRead demoStore 1 11 20).store.messages
      = [⟨100, 1, 10, [104, 111], true, some 20, 5⟩,
         ⟨101, 1, 11, [104, 105], true, some 8, 7⟩,
         ⟨102, 2, 12, [121, 111], false, none, 6⟩] := by
  decide

/-! ## The read-receipt scenario -/

theorem sendMessage_participant (s : Store) (chatId senderId : Id) (chat : Chat)
    (text : JsString) (now : Nat)
    (htext : isBlank text = false)
    (hchat : Chat.findById s chatId = some chat)
    (hin : senderId ∈ chat.participants)
    (hlen : chat.participants.length = 2) :
    sendMessage s chatId senderId (some text) now =
      ⟨201,
        (s.messages ++
          [(⟨s.nextId, chatId, senderId, toWellFormed (jsTrim text), false, none, now⟩ : Message)]).find?
          (fun m => m.id == s.nextId),
        Chat.save
          { s with
            messages := s.messages ++
              [{ id := s.nextId, chat := chatId, sender := senderId, content := toWellFormed (jsTrim text),
                 read := false, readAt := none, createdAt := now }],
            nextId := s.nextId + 1 }
          { chat with lastMessage := toWellFormed (substring0 (jsTrim text) 100), lastMessageTime := now,
                      lastMessageSender := some senderId }⟩ := by
  have hg := sendMessage_guard_false text htext
  have hinc : chat.includes senderId = true := by
    simp [Chat.includes, hin]
  have hrej : saveRejected chat.participants = false := by
    simp [saveRejected, chatPreSave, hlen]
  simp only [sendMessage, hg, hchat, hinc, hrej]
  simp [Chat.save]

theorem findById_save (s : Store) (chatId : Id) (chat new : Chat)
    (hchat : Chat.findById s chatId = some chat) (hid : new.id = chatId) :
    Chat.findById (Chat.save s new) chatId = some new := by
  have hsome : (s.chats.find? (fun d => d.id == chatId)).isSome = true := by
    have : s.chats.find? (fun d => d.id == chatId) = some chat := hchat
    rw [this]; rfl
  have := find?_replaceFirst (fun d : Chat => d.id == chatId) new (by simp [hid]) s.chats hsome
  simpa [Chat.findById, Chat.save, hid] using this

theorem find?_fresh_append (l : List Message) (m : Message)
    (hfresh : ∀ x ∈ l, x.id < m.id) :
    (l ++ [m]).find? (fun x => x.id == m.id) = some m := by
  have hnone : l.find? (fun x => x.id == m.id) = none := by
    rw [List.find?_eq_none]
    intro x hx
    have hlt : x.id < m.id := hfresh x hx
    simpa using Nat.ne_of_lt hlt
  simp [List.find?_append, hnone]

/-- C9 (as amended): when two different users A and B share a chat, A sends one message
and B then marks the chat read, the send answers 201 with A's message unread, the
mark-read answers 200, and the listing A asks for next answers 200 and shows A's own
message with `read = true` and the read timestamp of B's call: every listed message
carrying the identity of A's message is that message marked read, and when the chat held
no message before, the listing is exactly that one message. -/
theorem scenario_own_message_shown_read (s : Store) (chatId a b : Id) (chat : Chat)
    (text : JsString) (t1 t2 : Nat)
    (hfresh : s.FreshIds)
    (hchat : Chat.findById s chatId = some chat)
    (hpart : chat.participants = [a, b] ∨ chat.participants = [b, a])
    (hab : a ≠ b)
    (htext : isBlank text = false) :
    ((sendMessage s chatId a (some text) t1).status = 201 ∧
      (sendMessage s chatId a (some text) t1).body
        = some ⟨s.nextId, chatId, a, toWellFormed (jsTrim text), false, none, t1⟩) ∧
    (markMessagesAsRead (sendMessage s chatId a (some text) t1).store chatId b t2).status
      = 200 ∧
    (scenarioListing s chatId a b text t1 t2).status = 200 ∧
    ∃ page, (scenarioListing s chatId a b text t1 t2).body = some page ∧
      (∀ m ∈ page, m.id = s.nextId →
        m = ⟨s.nextId, chatId, a, toWellFormed (jsTrim text), true, some t2, t1⟩) ∧
      ((∀ m ∈ s.messages, m.chat ≠ chatId) →
        page = [⟨s.nextId, chatId, a, toWellFormed (jsTrim text), true, some t2, t1⟩]) := by
  have hlen : chat.participants.length = 2 := by
    rcases hpart with h | h <;> simp [h]
  have ha : a ∈ chat.participants := by
    rcases hpart with h | h <;> simp [h]
  have hb : b ∈ chat.participants := by
    rcases hpart with h | h <;> simp [h]
  have hsend := sendMessage_participant s chatId a chat text t1 htext hchat ha hlen
  have hfind := find?_fresh_append s.messages
    ⟨s.nextId, chatId, a, toWellFormed (jsTrim text), false, none, t1⟩ hfresh.2
  have hchat1 : Chat.findById (sendMessage s chatId a (some text) t1).store chatId
      = some { chat with lastMessage := toWellFormed (substring0 (jsTrim text) 100), lastMessageTime := t1,
                         lastMessageSender := some a } := by
    rw [hsend]
    exact findById_save _ chatId chat _ hchat (@findById_id s chatId chat hchat)
  have hmark := markMessagesAsRead_participant (sendMessage s chatId a (some text) t1).store
    chatId b _ t2 hchat1 hb
  have hchat2 : Chat.findById
      (markMessagesAsRead (sendMessage s chatId a (some text) t1).store chatId b t2).store
      chatId
      = some { chat with lastMessage := toWellFormed (substring0 (jsTrim text) 100), lastMessageTime := t1,
                         lastMessageSender := some a } := by
    rw [hmark]
    exact hchat1
  have hlist := getMessages_participant
    (markMessagesAsRead (sendMessage s chatId a (some text) t1).store chatId b t2).store
    chatId a _ none none hchat2 ha
  have hmsgs :
      (markMessagesAsRead (sendMessage s chatId a (some text) t1).store chatId b t2).store.messages
        = (s.messages ++ [(⟨s.nextId, chatId, a, toWellFormed (jsTrim text), false, none, t1⟩ : Message)]).map
            (markIfUnread chatId b t2) := by
    rw [hmark, hsend]
    rfl
  have hsent : markIfUnread chatId b t2 ⟨s.nextId, chatId, a, toWellFormed (jsTrim text), false, none, t1⟩
      = ⟨s.nextId, chatId, a, toWellFormed (jsTrim text), true, some t2, t1⟩ := by
    simp [markIfUnread, unreadFromOthers, hab]
  refine ⟨⟨by rw [hsend], by rw [hsend]; exact hfind⟩, by rw [hmark], ?_, ?_⟩
  · unfold scenarioListing
    rw [hlist]
  · unfold scenarioListing
    rw [hlist]
    refine ⟨_, rfl, ?_, ?_⟩
    · intro m hm hid
      rw [List.mem_reverse] at hm
      have hm1 := (getMessages_query_sublist _ chatId _ _).subset hm
      have hm2 := (List.perm_insertionSort newerOrEq _).subset hm1
      have hm3 := (List.mem_filter.mp hm2).1
      rw [hmsgs, List.mem_map] at hm3
      obtain ⟨x, hx, hxm⟩ := hm3
      have hxid : x.id = s.nextId := by
        rw [← hid, ← hxm]
        exact (markIfUnread_frame chatId b t2 x).1.symm
      rw [List.mem_append, List.mem_singleton] at hx
      rcases hx with hx | hx
      · exact absurd hxid (Nat.ne_of_lt (hfresh.2 x hx))
      · rw [← hxm, hx]
        exact hsent
    · intro hnone
      have hfilter :
          (markMessagesAsRead (sendMessage s chatId a (some text) t1).store chatId b
              t2).store.messages.filter (fun m => m.chat == chatId)
            = [⟨s.nextId, chatId, a, toWellFormed (jsTrim text), true, some t2, t1⟩] := by
        rw [hmsgs, List.map_append, List.filter_append, List.map_singleton, hsent]
        have h0 : (s.messages.map (markIfUnread chatId b t2)).filter
            (fun m => m.chat == chatId) = [] := by
          rw [List.filter_eq_nil_iff]
          intro x hx
          rw [List.mem_map] at hx
          obtain ⟨y, hy, hyx⟩ := hx
          have hyc := hnone y hy
          have hxc : x.chat = y.chat := by
            rw [← hyx]
            exact (markIfUnread_frame chatId b t2 y).2.1
          simp [hxc, hyc]
        rw [h0]
        simp
      simp only [Option.getD_none]
      rw [getMessages_query_exec _ chatId 50 0 (by decide), hfilter]
      rfl

theorem scenario_own_message_shown_read_witness :
    (accessChat scenarioUsers 10 (some 11) 0).store.FreshIds ∧
    Chat.findById (accessChat scenarioUsers 10 (some 11) 0).store 1
      = some ⟨1, [10, 11], none, [], 0, none⟩ ∧
    (([10, 11] : List Id) = [10, 11] ∨ ([10, 11] : List Id) = [11, 10]) ∧
    (10 : Id) ≠ 11 ∧
    isBlank (JsString.ofString "Hello") = false ∧
    ((sendMessage (accessChat scenarioUsers 10 (some 11) 0).store 1 10
          (some (JsString.ofString "Hello")) 5).status = 201 ∧
      (sendMessage (accessChat scenarioUsers 10 (some 11) 0).store 1 10
          (some (JsString.ofString "Hello")) 5).body
        = some ⟨(accessChat scenarioUsers 10 (some 11) 0).store.nextId, 1, 10,
            toWellFormed (jsTrim (JsString.ofString "Hello")), false, none, 5⟩) ∧
    (markMessagesAsRead (sendMessage (accessChat scenarioUsers 10 (some 11) 0).store 1 10
        (some (JsString.ofString "Hello")) 5).store 1 11 6).status = 200 ∧
    (scenarioListing (accessChat scenarioUsers 10 (some 11) 0).store 1 10 11
        (JsString.ofString "Hello") 5 6).status = 200 ∧
    ∃ page, (scenarioListing (accessChat scenarioUsers 10 (some 11) 0).store 1 10 11
        (JsString.ofString "Hello") 5 6).body = some page ∧
      (∀ m ∈ page, m.id = (accessChat scenarioUsers 10 (some 11) 0).store.nextId →
        m = ⟨(accessChat scenarioUsers 10 (some 11) 0).store.nextId, 1, 10,
              toWellFormed (jsTrim (JsString.ofString "Hello")), true, some 6, 5⟩) ∧
      ((∀ m ∈ (accessChat scenarioUsers 10 (some 11) 0).store.messages, m.chat ≠ 1) →
        page = [⟨(accessChat scenarioUsers 10 (some 11) 0).store.nextId, 1, 10,
              toWellFormed (jsTrim (JsString.ofString "Hello")), true, some 6, 5⟩]) :=
  ⟨by decide, by decide, by decide, by decide, by decide,
    scenario_own_message_shown_read (accessChat scenarioUsers 10 (some 11) 0).store 1 10 11
      ⟨1, [10, 11], none, [], 0, none⟩ (JsString.ofString "Hello") 5 6
      (by decide) (by decide) (by decide) (by decide) (by decide)⟩

/-- C9 as stated fails: in the scenario of spec section 8 (A = 10 opens the chat with
B = 11, A sends "Hello", B marks the chat read), the listing A asks for next is A's own
message with `read = true`, so it is not the case that A's message is shown unread. -/
theorem scenario_own_message_unread_refuted :
    (scenarioListing (accessChat scenarioUsers 10 (some 11) 0).store 1 10 11
        (JsString.ofString "Hello") 5 6).body
      = some [⟨2, 1, 10, JsString.ofString "Hello", true, some 6, 5⟩] ∧
    ¬ (∀ page, (scenarioListing (accessChat scenarioUsers 10 (some 11) 0).store 1 10 11
          (JsString.ofString "Hello") 5 6).body = some page →
        ∀ m ∈ page, m.sender = 10 → m.read = false) := by
  have hbody : (scenarioListing (accessChat scenarioUsers 10 (some 11) 0).store 1 10 11
        (JsString.ofString "Hello") 5 6).body
      = some [⟨2, 1, 10, JsString.ofString "Hello", true, some 6, 5⟩] := by
    decide
  refine ⟨hbody, ?_⟩
  intro hall
  have := hall _ hbody ⟨2, 1, 10, JsString.ofString "Hello", true, some 6, 5⟩
    (List.mem_singleton.mpr rfl) rfl
  exact absurd this (by decide)

/-! ## Get-or-create chat -/

theorem accessChat_query_symm (a b : Id) :
    (fun c : Chat => [b, a].all (fun p => c.participants.contains p))
      = (fun c : Chat => [a, b].all (fun p => c.participants.contains p)) := by
  funext c
  simp [Bool.and_comm]

theorem accessChat_found (s : Store) (a b : Id) (u : User) (chat : Chat) (now : Nat)
    (hu : User.findById s b = some u)
    (hfind : s.chats.find? (fun c => [a, b].all (fun p => c.participants.contains p))
      = some chat) :
    accessChat s a (some b) now = ⟨200, some chat, s⟩ := by
  simp only [accessChat, hu, hfind]

theorem accessChat_created (s : Store) (a b : Id) (u : User) (now : Nat)
    (hfresh : s.FreshIds)
    (hu : User.findById s b = some u)
    (hfind : s.chats.find? (fun c => [a, b].all (fun p => c.participants.contains p))
      = none) :
    accessChat s a (some b) now =
      ⟨201, some ⟨s.nextId, [a, b], none, [], now, none⟩,
        { s with chats := s.chats ++ [⟨s.nextId, [a, b], none, [], now, none⟩],
                 nextId := s.nextId + 1 }⟩ := by
  have hrej : saveRejected [a, b] = false := by
    simp [saveRejected, chatPreSave]
  have hnone : s.chats.find? (fun c => c.id == s.nextId) = none := by
    rw [List.find?_eq_none]
    intro x hx
    have hlt : x.id < s.nextId := hfresh.1 x hx
    simpa using Nat.ne_of_lt hlt
  simp only [accessChat, hu, hfind, hrej]
  simp [Chat.findById, List.find?_append, hnone]

/-- C10: sequential get-or-create is idempotent on the unordered pair. For every two
existing users A and B, the first `accessChat` by A naming B succeeds (200 or 201) and
returns a chat; a second call for the same pair, made by A naming B or by B naming A,
answers 200, returns that very chat (same identity) and leaves the store, hence the Chat
collection, as the first call left it. -/
theorem accessChat_idempotent (s : Store) (a b : Id) (t1 t2 : Nat)
    (hfresh : s.FreshIds)
    (ha : (User.findById s a).isSome = true)
    (hb : (User.findById s b).isSome = true) :
    ∃ chat,
      ((accessChat s a (some b) t1).status = 200 ∨
        (accessChat s a (some b) t1).status = 201) ∧
      (accessChat s a (some b) t1).body = some chat ∧
      ((accessChat (accessChat s a (some b) t1).store a (some b) t2).status = 200 ∧
        ((accessChat (accessChat s a (some b) t1).store a (some b) t2).body.map
            (fun c => c.id) = some chat.id ∧
          (accessChat (accessChat s a (some b) t1).store a (some b) t2).body = some chat) ∧
        (accessChat (accessChat s a (some b) t1).store a (some b) t2).store.chats
          = (accessChat s a (some b) t1).store.chats) ∧
      ((accessChat (accessChat s a (some b) t1).store b (some a) t2).status = 200 ∧
        ((accessChat (accessChat s a (some b) t1).store b (some a) t2).body.map
            (fun c => c.id) = some chat.id ∧
          (accessChat (accessChat s a (some b) t1).store b (some a) t2).body = some chat) ∧
        (accessChat (accessChat s a (some b) t1).store b (some a) t2).store.chats
          = (accessChat s a (some b) t1).store.chats) := by
  obtain ⟨ua, hua⟩ := Option.isSome_iff_exists.mp ha
  obtain ⟨ub, hub⟩ := Option.isSome_iff_exists.mp hb
  cases hfind : s.chats.find? (fun c => [a, b].all (fun p => c.participants.contains p)) with
  | some chat =>
    have h1 := accessChat_found s a b ub chat t1 hub hfind
    have h2 := accessChat_found s a b ub chat t2 hub hfind
    have h3 := accessChat_found s b a ua chat t2 hua (by rw [accessChat_query_symm a b]; exact hfind)
    refine ⟨chat, ?_⟩
    rw [h1]
    simp only []
    rw [h2, h3]
    simp
  | none =>
    have h1 := accessChat_created s a b ub t1 hfresh hub hfind
    have hfind1 : (s.chats ++ [(⟨s.nextId, [a, b], none, [], t1, none⟩ : Chat)]).find?
        (fun c => [a, b].all (fun p => c.participants.contains p))
          = some ⟨s.nextId, [a, b], none, [], t1, none⟩ := by
      rw [List.find?_append, hfind]
      simp
    have h2 := accessChat_found
      { s with chats := s.chats ++ [⟨s.nextId, [a, b], none, [], t1, none⟩],
               nextId := s.nextId + 1 }
      a b ub ⟨s.nextId, [a, b], none, [], t1, none⟩ t2 hub hfind1
    have h3 := accessChat_found
      { s with chats := s.chats ++ [⟨s.nextId, [a, b], none, [], t1, none⟩],
               nextId := s.nextId + 1 }
      b a ua ⟨s.nextId, [a, b], none, [], t1, none⟩ t2 hua
      (by rw [accessChat_query_symm a b]; exact hfind1)
    refine ⟨⟨s.nextId, [a, b], none, [], t1, none⟩, ?_⟩
    rw [h1]
    simp only []
    rw [h2, h3]
    simp

theorem accessChat_idempotent_witness :
    scenarioUsers.FreshIds ∧
    (User.findById scenarioUsers 10).isSome = true ∧
    (User.findById scenarioUsers 11).isSome = true ∧
    ∃ chat,
      ((accessChat scenarioUsers 10 (some 11) 3).status = 200 ∨
        (accessChat scenarioUsers 10 (some 11) 3).status = 201) ∧
      (accessChat scenarioUsers 10 (some 11) 3).body = some chat ∧
      ((accessChat (accessChat scenarioUsers 10 (some 11) 3).store 10 (some 11) 4).status = 200 ∧
        ((accessChat (accessChat scenarioUsers 10 (some 11) 3).store 10 (some 11) 4).body.map
            (fun c => c.id) = some chat.id ∧
          (accessChat (accessChat scenarioUsers 10 (some 11) 3).store 10 (some 11) 4).body
            = some chat) ∧
        (accessChat (accessChat scenarioUsers 10 (some 11) 3).store 10 (some 11) 4).store.chats
          = (accessChat scenarioUsers 10 (some 11) 3).store.chats) ∧
      ((accessChat (accessChat scenarioUsers 10 (some 11) 3).store 11 (some 10) 4).status = 200 ∧
        ((accessChat (accessChat scenarioUsers 10 (some 11) 3).store 11 (some 10) 4).body.map
            (fun c => c.id) = some chat.id ∧
          (accessChat (accessChat scenarioUsers 10 (some 11) 3).store 11 (some 10) 4).body
            = some chat) ∧
        (accessChat (accessChat scenarioUsers 10 (some 11) 3).store 11 (some 10) 4).store.chats
          = (accessChat scenarioUsers 10 (some 11) 3).store.chats) :=
  ⟨by decide, by decide, by decide,
    accessChat_idempotent scenarioUsers 10 11 3 4 (by decide) (by decide) (by decide)⟩

/-- In the scenario store the first call creates chat 1 and the second call, by the other
user, returns it without creating anything. -/
theorem accessChat_demo :
    (accessChat scenarioUsers 10 (some 11) 3).status = 201 ∧
    (accessChat (accessChat scenarioUsers 10 (some 11) 3).store 11 (some 10) 4).status = 200 ∧
    (accessChat (accessChat scenarioUsers 10 (some 11) 3).store 11 (some 10) 4).store.chats
      = [⟨1, [10, 11], none, [], 3, none⟩] := by
  decide

/-! ## Fresh identities are an invariant of the handlers -/

theorem freshIds_accessChat (s : Store) (a : Id) (userId : Option Id) (now : Nat)
    (hfresh : s.FreshIds) : (accessChat s a userId now).store.FreshIds := by
  cases userId with
  | none => exact hfresh
  | some b =>
    cases hu : User.findById s b with
    | none => simpa [accessChat, hu] using hfresh
    | some u =>
      cases hfind : s.chats.find? (fun c => [a, b].all (fun p => c.participants.contains p)) with
      | some chat => rw [accessChat_found s a b u chat now hu hfind]; exact hfresh
      | none =>
        rw [accessChat_created s a b u now hfresh hu hfind]
        refine ⟨?_, ?_⟩
        · intro c hc
          rw [List.mem_append, List.mem_singleton] at hc
          rcases hc with hc | hc
          · exact Nat.lt_succ_of_lt (hfresh.1 c hc)
          · rw [hc]; exact Nat.lt_succ_self _
        · intro m hm
          exact Nat.lt_succ_of_lt (hfresh.2 m hm)

theorem mem_replaceFirst {α : Type} (p : α → Bool) (new x : α) :
    ∀ l : List α, x ∈ replaceFirst p new l → x = new ∨ x ∈ l
  | [], h => by simp [replaceFirst] at h
  | y :: ys, h => by
    by_cases hy : p y = true
    · simp only [replaceFirst, hy, if_true, List.mem_cons] at h
      rcases h with h | h
      · exact Or.inl h
      · exact Or.inr (List.mem_cons_of_mem _ h)
    · have hy0 : p y = false := by simpa using hy
      simp only [replaceFirst, hy0, Bool.false_eq_true, if_false, List.mem_cons] at h
      rcases h with h | h
      · exact Or.inr (by rw [h]; exact List.mem_cons_self _ _)
      · rcases mem_replaceFirst p new x ys h with h1 | h1
        · exact Or.inl h1
        · exact Or.inr (List.mem_cons_of_mem _ h1)

theorem freshIds_sendMessage (s : Store) (chatId senderId : Id) (content : Option JsString)
    (now : Nat) (hfresh : s.FreshIds) :
    (sendMessage s chatId senderId content now).store.FreshIds := by
  have hmsgs : ∀ m ∈ s.messages ++
      [(⟨s.nextId, chatId, senderId, toWellFormed (jsTrim (content.getD [])), false, none, now⟩ : Message)],
      m.id < s.nextId + 1 := by
    intro m hm
    rw [List.mem_append, List.mem_singleton] at hm
    rcases hm with hm | hm
    · exact Nat.lt_succ_of_lt (hfresh.2 m hm)
    · rw [hm]; exact Nat.lt_succ_self _
  cases content with
  | none => exact hfresh
  | some text =>
    cases hg : (text.isEmpty || jsTrim text == []) with
    | true =>
      simp only [sendMessage, hg]
      exact hfresh
    | false =>
      cases hchat : Chat.findById s chatId with
      | none =>
        simp only [sendMessage, hg, hchat]
        exact hfresh
      | some chat =>
        cases hinc : chat.includes senderId with
        | false =>
          simp only [sendMessage, hg, hchat, hinc]
          exact hfresh
        | true =>
          have hidlt : chat.id < s.nextId := hfresh.1 chat (List.mem_of_find?_eq_some hchat)
          cases hrej : saveRejected chat.participants with
          | true =>
            simp only [sendMessage, hg, hchat, hinc, hrej]
            exact ⟨fun c hc => Nat.lt_succ_of_lt (hfresh.1 c hc), hmsgs⟩
          | false =>
            simp only [sendMessage, hg, hchat, hinc, hrej]
            refine ⟨?_, hmsgs⟩
            intro c hc
            rcases mem_replaceFirst _ _ c s.chats hc with h | h
            · rw [h]; exact Nat.lt_succ_of_lt hidlt
            · exact Nat.lt_succ_of_lt (hfresh.1 c h)

theorem freshIds_markMessagesAsRead (s : Store) (chatId reader : Id) (now : Nat)
    (hfresh : s.FreshIds) : (markMessagesAsRead s chatId reader now).store.FreshIds := by
  cases hchat : Chat.findById s chatId with
  | none => simpa [markMessagesAsRead, hchat] using hfresh
  | some chat =>
    cases hinc : chat.includes reader with
    | false => simpa [markMessagesAsRead, hchat, hinc] using hfresh
    | true =>
      simp only [markMessagesAsRead, hchat, hinc]
      refine ⟨hfresh.1, ?_⟩
      intro m hm
      obtain ⟨x, hx, hxm⟩ := List.mem_map.mp hm
      rw [← hxm, (markIfUnread_frame chatId reader now x).1]
      exact hfresh.2 x hx

theorem freshIds_deleteChat (s : Store) (chatId requester : Id)
    (hfresh : s.FreshIds) : (deleteChat s chatId requester).store.FreshIds := by
  cases hchat : Chat.findById s chatId with
  | none => simpa [deleteChat, hchat] using hfresh
  | some chat =>
    cases hinc : chat.includes requester with
    | false => simpa [deleteChat, hchat, hinc] using hfresh
    | true =>
      simp only [deleteChat, hchat, hinc]
      refine ⟨?_, ?_⟩
      · intro c hc
        exact hfresh.1 c ((List.eraseP_sublist _).subset hc)
      · intro m hm
        exact hfresh.2 m (List.mem_filter.mp hm).1

/-! ## Get-or-create chat: failures -/

/-- C14: `accessChat` answers 400 when no `userId` is supplied and 404 when the supplied
`userId` resolves to no user; in both cases nothing is returned, no Chat is created and
the store is exactly as it was. -/
theorem accessChat_failures (s : Store) (requester other : Id) (now : Nat)
    (hmissing : User.findById s other = none) :
    ((accessChat s requester none now).status = 400 ∧
      (accessChat s requester none now).body = none ∧
      (accessChat s requester none now).store = s) ∧
    ((accessChat s requester (some other) now).status = 404 ∧
      (accessChat s requester (some other) now).body = none ∧
      (accessChat s requester (some other) now).store = s ∧
      (accessChat s requester (some other) now).store.chats = s.chats) := by
  refine ⟨⟨rfl, rfl, rfl⟩, ?_⟩
  simp only [accessChat, hmissing]
  exact ⟨trivial, trivial, trivial, trivial⟩

theorem accessChat_failures_witness :
    User.findById demoStore 99 = none ∧
    ((accessChat demoStore 10 none 3).status = 400 ∧
      (accessChat demoStore 10 none 3).body = none ∧
      (accessChat demoStore 10 none 3).store = demoStore) ∧
    ((accessChat demoStore 10 (some 99) 3).status = 404 ∧
      (accessChat demoStore 10 (some 99) 3).body = none ∧
      (accessChat demoStore 10 (some 99) 3).store = demoStore ∧
      (accessChat demoStore 10 (some 99) 3).store.chats = demoStore.chats) :=
  ⟨by decide, accessChat_failures demoStore 10 99 3 (by decide)⟩

/-! ## Deleting a chat -/

theorem eraseP_eq_filter_of_unique (chatId : Id) :
    ∀ l : List Chat, (l.map (fun c => c.id)).Nodup →
      l.eraseP (fun d => d.id == chatId) = l.filter (fun d => !(d.id == chatId))
  | [], _ => rfl
  | x :: xs, h => by
    have hx : x.id ∉ xs.map (fun c => c.id) := (List.nodup_cons.mp h).1
    have hxs : (xs.map (fun c => c.id)).Nodup := (List.nodup_cons.mp h).2
    by_cases hid : x.id = chatId
    · have hnone : ∀ d ∈ xs, (!(d.id == chatId)) = true := by
        intro d hd
        have hne : d.id ≠ chatId := by
          intro hc
          apply hx
          rw [hid, ← hc]
          exact List.mem_map_of_mem (fun c : Chat => c.id) hd
        simpa using hne
      have hfilter : xs.filter (fun d => !(d.id == chatId)) = xs :=
        List.filter_eq_self.mpr hnone
      simp [List.eraseP_cons, List.filter_cons, hid, hfilter]
    · have ih := eraseP_eq_filter_of_unique chatId xs hxs
      simp [List.eraseP_cons, List.filter_cons, hid, ih]

theorem deleteChat_participant (s : Store) (chatId requester : Id) (chat : Chat)
    (hchat : Chat.findById s chatId = some chat)
    (hin : requester ∈ chat.participants) :
    deleteChat s chatId requester
      = ⟨200, some (), Chat.deleteOne (Message.deleteMany s chatId) chat⟩ := by
  have hinc : chat.includes requester = true := by
    simp [Chat.includes, hin]
  simp [deleteChat, hchat, hinc]

/-- C15: for every stored chat and every participant requester, `deleteChat` answers 200;
afterwards the Chat collection is the old one without that chat (every other chat is
kept, unchanged and in place), the Message collection is the old one without the messages
whose chat is that chat (every other message is kept, unchanged and in place), the chat
identity resolves to nothing, and `getMessages` on that identity answers 404 for every
caller, limit and skip. -/
theorem deleteChat_effect (s : Store) (chatId requester : Id) (chat : Chat)
    (hunique : s.UniqueChatIds)
    (hchat : Chat.findById s chatId = some chat)
    (hin : requester ∈ chat.participants) :
    (deleteChat s chatId requester).status = 200 ∧
    (deleteChat s chatId requester).store.chats
      = s.chats.filter (fun c => !(c.id == chatId)) ∧
    (deleteChat s chatId requester).store.messages
      = s.messages.filter (fun m => !(m.chat == chatId)) ∧
    (deleteChat s chatId requester).store.users = s.users ∧
    (∀ m ∈ (deleteChat s chatId requester).store.messages, m.chat ≠ chatId) ∧
    Chat.findById (deleteChat s chatId requester).store chatId = none ∧
    (∀ (caller : Id) (limit skip : Option Nat),
      (getMessages (deleteChat s chatId requester).store chatId caller limit skip).status
        = 404) := by
  have hid : chat.id = chatId := findById_id hchat
  have hchats : (deleteChat s chatId requester).store.chats
      = s.chats.filter (fun c => !(c.id == chatId)) := by
    rw [deleteChat_participant s chatId requester chat hchat hin]
    simp only [Chat.deleteOne, Message.deleteMany, hid]
    exact eraseP_eq_filter_of_unique chatId s.chats hunique
  have hnone : Chat.findById (deleteChat s chatId requester).store chatId = none := by
    unfold Chat.findById
    rw [hchats, List.find?_eq_none]
    intro c hc
    have := (List.mem_filter.mp hc).2
    simpa using this
  refine ⟨?_, hchats, ?_, ?_, ?_, hnone, ?_⟩
  · rw [deleteChat_participant s chatId requester chat hchat hin]
  · rw [deleteChat_participant s chatId requester chat hchat hin]
    rfl
  · rw [deleteChat_participant s chatId requester chat hchat hin]
    rfl
  · rw [deleteChat_participant s chatId requester chat hchat hin]
    intro m hm
    have hm1 : m ∈ s.messages.filter (fun m => !(m.chat == chatId)) := hm
    have := (List.mem_filter.mp hm1).2
    simpa using this
  · intro caller limit skip
    simp [getMessages, hnone]

theorem deleteChat_effect_witness :
    demoStore.UniqueChatIds ∧
    Chat.findById demoStore 1 = some ⟨1, [10, 11], none, [104, 105], 7, some 11⟩ ∧
    (11 ∈ [10, 11]) ∧
    (deleteChat demoStore 1 11).status = 200 ∧
    (deleteChat demoStore 1 11).store.chats
      = demoStore.chats.filter (fun c => !(c.id == 1)) ∧
    (deleteChat demoStore 1 11).store.messages
      = demoStore.messages.filter (fun m => !(m.chat == 1)) ∧
    (deleteChat demoStore 1 11).store.users = demoStore.users ∧
    (∀ m ∈ (deleteChat demoStore 1 11).store.messages, m.chat ≠ 1) ∧
    Chat.findById (deleteChat demoStore 1 11).store 1 = none ∧
    (∀ (caller : Id) (limit skip : Option Nat),
      (getMessages (deleteChat demoStore 1 11).store 1 caller limit skip).status = 404) :=
  ⟨by decide, by decide, by decide,
    deleteChat_effect demoStore 1 11 ⟨1, [10, 11], none, [104, 105], 7, some 11⟩
      (by decide) (by decide) (by decide)⟩

/-- In the demo store, deleting chat 1 leaves chat 2 and its message 102. -/
theorem deleteChat_demo :
    (deleteChat demoStore 1 11).store.chats = [⟨2, [11, 12], none, [], 0, none⟩] ∧
    (deleteChat demoStore 1 11).store.messages = [⟨102, 2, 12, [121, 111], false, none, 6⟩] := by
  decide

/-! ## Listing chats -/

instance : IsTotal Chat laterOrEq :=
  ⟨fun a b => Nat.le_total b.lastMessageTime a.lastMessageTime⟩

instance : IsTrans Chat laterOrEq :=
  ⟨fun _ _ _ hab hbc => Nat.le_trans hbc hab⟩

/-- C16: for every user, `getChats` answers 200 with a list that is a rearrangement of the
stored chats having that user among their participants (so it holds exactly those chats,
none other and none missing), ordered by `lastMessageTime` non-increasing, together with
a count equal to the length of the list; the store is unchanged. -/
theorem getChats_result (s : Store) (requester : Id) :
    ∃ chats,
      (getChats s requester).status = 200 ∧
      (getChats s requester).body = some ⟨chats.length, chats⟩ ∧
      List.Perm chats (s.chats.filter (fun c => c.participants.contains requester)) ∧
      (∀ c, c ∈ chats ↔ (c ∈ s.chats ∧ requester ∈ c.participants)) ∧
      chats.Pairwise (fun a b => b.lastMessageTime ≤ a.lastMessageTime) ∧
      (getChats s requester).store = s := by
  refine ⟨(s.chats.filter (fun c : Chat => c.participants.contains requester)).insertionSort
    laterOrEq, rfl, rfl, List.perm_insertionSort laterOrEq _, ?_, ?_, rfl⟩
  · intro c
    rw [(List.perm_insertionSort laterOrEq _).mem_iff, List.mem_filter]
    simp
  · exact List.sorted_insertionSort laterOrEq _

/-- In the demo store user 11 is in both chats; chat 1 has the later last message. -/
theorem getChats_demo :
    (getChats demoStore 11).body
      = some ⟨2, [⟨1, [10, 11], none, [104, 105], 7, some 11⟩,
                  ⟨2, [11, 12], none, [], 0, none⟩]⟩ ∧
    (getChats demoStore 10).body
      = some ⟨1, [⟨1, [10, 11], none, [104, 105], 7, some 11⟩]⟩ := by
  decide

/-! ## The two-participant rule -/

/-- Whenever the participants list does not hold exactly 2 entries, the hook invokes
`next` twice: first with the error, then with no argument. -/
theorem chatPreSave_of_length_ne (participants : List Id) (h : participants.length ≠ 2) :
    chatPreSave participants
      = [NextCall.error "A chat must have exactly 2 participants", NextCall.ok] := by
  simp [chatPreSave, h]

/-- With exactly 2 entries the hook invokes `next` once, with no argument. -/
theorem chatPreSave_of_length_eq (participants : List Id) (h : participants.length = 2) :
    chatPreSave participants = [NextCall.ok] := by
  simp [chatPreSave, h]

/-- C13: evaluation of the pre-save hook on a chat with three participants. The hook
reports the error 'A chat must have exactly 2 participants' and then also invokes the
continuation with no argument: `next` is invoked twice, not once. -/
theorem chatPreSave_three_participants :
    chatPreSave [10, 11, 12]
      = [NextCall.error "A chat must have exactly 2 participants", NextCall.ok] ∧
    (chatPreSave [10, 11, 12]).length = 2 ∧
    NextCall.ok ∈ chatPreSave [10, 11, 12] := by
  decide

/-- C12: evaluation of the Chat Service from a store with no chat and no message. After
the single request in which user 10 names themself, the stored chat has the participants
list `[10, 10]`, whose participant set has one element, not two. -/
theorem runOps_self_chat :
    scenarioUsers.chats = [] ∧ scenarioUsers.messages = [] ∧
    (runOps scenarioUsers [ChatOp.accessChat 10 (some 10) 0]).chats
      = [⟨1, [10, 10], none, [], 0, none⟩] ∧
    Chat.participantSetCard ⟨1, [10, 10], none, [], 0, none⟩ = 1 := by
  decide

/-- C11: evaluation of `accessChat` when user 10, who shares chat 1 with user 11, names
themself. The answer is 200 with chat 1, whose participants are 10 and 11: user 11 is a
participant of the returned chat though neither the requester nor the user named. -/
theorem accessChat_self_returns_shared_chat :
    (User.findById demoStore 10).isSome = true ∧
    (accessChat demoStore 10 (some 10) 3).status = 200 ∧
    (accessChat demoStore 10 (some 10) 3).body
      = some ⟨1, [10, 11], none, [104, 105], 7, some 11⟩ ∧
    ¬ (∀ chat, (accessChat demoStore 10 (some 10) 3).body = some chat →
        ∀ p, p ∈ chat.participants ↔ (p = 10 ∨ p = 10)) := by
  have hbody : (accessChat demoStore 10 (some 10) 3).body
      = some ⟨1, [10, 11], none, [104, 105], 7, some 11⟩ := by decide
  refine ⟨by decide, by decide, hbody, ?_⟩
  intro hall
  have h := (hall _ hbody 11).mp (by decide)
  exact absurd h (by decide)

/-- What `accessChat` does to the Chat collection: nothing, or one chat appended whose
participants are the requester and the user named, in that order. -/
theorem accessChat_store_chats (s : Store) (a : Id) (userId : Option Id) (now : Nat) :
    (accessChat s a userId now).store.chats = s.chats ∨
    ∃ b, userId = some b ∧
      (accessChat s a userId now).store.chats
        = s.chats ++ [⟨s.nextId, [a, b], none, [], now, none⟩] := by
  cases userId with
  | none => exact Or.inl rfl
  | some b =>
    cases hu : User.findById s b with
    | none =>
      left
      simp only [accessChat, hu]
    | some u =>
      cases hfind : s.chats.find? (fun c => [a, b].all (fun p => c.participants.contains p)) with
      | some chat =>
        left
        rw [accessChat_found s a b u chat now hu hfind]
      | none =>
        right
        have hrej : saveRejected [a, b] = false := by
          simp [saveRejected, chatPreSave]
        refine ⟨b, rfl, ?_⟩
        simp only [accessChat, hu, hfind, hrej]
        simp

theorem sendMessage_store_chats (s : Store) (chatId senderId : Id)
    (content : Option JsString) (now : Nat) :
    ∀ c ∈ (sendMessage s chatId senderId content now).store.chats,
      ∃ c0 ∈ s.chats, c.participants = c0.participants ∧ c.id = c0.id := by
  have hsame : ∀ c ∈ s.chats, ∃ c0 ∈ s.chats, c.participants = c0.participants ∧ c.id = c0.id :=
    fun c hc => ⟨c, hc, rfl, rfl⟩
  cases content with
  | none => exact hsame
  | some text =>
    cases hg : (text.isEmpty || jsTrim text == []) with
    | true =>
      simp only [sendMessage, hg]
      exact hsame
    | false =>
      cases hchat : Chat.findById s chatId with
      | none =>
        simp only [sendMessage, hg, hchat]
        exact hsame
      | some chat =>
        cases hinc : chat.includes senderId with
        | false =>
          simp only [sendMessage, hg, hchat, hinc]
          exact hsame
        | true =>
          cases hrej : saveRejected chat.participants with
          | true =>
            simp only [sendMessage, hg, hchat, hinc, hrej]
            exact hsame
          | false =>
            simp only [sendMessage, hg, hchat, hinc, hrej]
            intro c hc
            rcases mem_replaceFirst _ _ c s.chats hc with h | h
            · exact ⟨chat, List.mem_of_find?_eq_some hchat, by rw [h], by rw [h]⟩
            · exact hsame c h

theorem markMessagesAsRead_store_chats (s : Store) (chatId reader : Id) (now : Nat) :
    (markMessagesAsRead s chatId reader now).store.chats = s.chats := by
  cases hchat : Chat.findById s chatId with
  | none => simp [markMessagesAsRead, hchat]
  | some chat =>
    cases hinc : chat.includes reader with
    | false => simp [markMessagesAsRead, hchat, hinc]
    | true => simp [markMessagesAsRead, hchat, hinc, Message.updateMany]

theorem deleteChat_store_chats (s : Store) (chatId requester : Id) :
    ∀ c ∈ (deleteChat s chatId requester).store.chats, c ∈ s.chats := by
  cases hchat : Chat.findById s chatId with
  | none => simp [deleteChat, hchat]
  | some chat =>
    cases hinc : chat.includes requester with
    | false => simp [deleteChat, hchat, hinc]
    | true =>
      simp only [deleteChat, hchat, hinc]
      intro c hc
      exact (List.eraseP_sublist _).subset hc

/-- Every request keeps the rule the hook enforces: each stored chat has a participants
list of exactly 2 entries. -/
theorem apply_two_entries (s : Store) (op : ChatOp)
    (h : ∀ c ∈ s.chats, c.participants.length = 2) :
    ∀ c ∈ (op.apply s).chats, c.participants.length = 2 := by
  cases op with
  | accessChat requester userId now =>
    intro c hc
    rcases accessChat_store_chats s requester userId now with h1 | ⟨b, _, h1⟩
    · exact h c (by rw [← h1]; exact hc)
    · have hc1 : c ∈ s.chats ++ [(⟨s.nextId, [requester, b], none, [], now, none⟩ : Chat)] := by
        rw [← h1]; exact hc
      rw [List.mem_append, List.mem_singleton] at hc1
      rcases hc1 with hc1 | hc1
      · exact h c hc1
      · rw [hc1]; rfl
  | getChats requester => exact h
  | getMessages chatId requester limit skip =>
    intro c hc
    have hs : (getMessages s chatId requester limit skip).store = s := by
      unfold getMessages
      split
      · rfl
      · split <;> rfl
    exact h c (by
      have hc1 : c ∈ (getMessages s chatId requester limit skip).store.chats := hc
      rw [hs] at hc1
      exact hc1)
  | sendMessage chatId requester content now =>
    intro c hc
    obtain ⟨c0, hc0, hp, _⟩ := sendMessage_store_chats s chatId requester content now c hc
    rw [hp]
    exact h c0 hc0
  | markMessagesAsRead chatId requester now =>
    intro c hc
    have hc1 : c ∈ (markMessagesAsRead s chatId requester now).store.chats := hc
    rw [markMessagesAsRead_store_chats] at hc1
    exact h c hc1
  | deleteChat chatId requester =>
    intro c hc
    exact h c (deleteChat_store_chats s chatId requester c hc)

/-- After any sequence of requests served from a store with no chat, every stored chat has
a participants list of exactly 2 entries (which may name the same user twice). -/
theorem runOps_two_entries (ops : List ChatOp) :
    ∀ s : Store, (∀ c ∈ s.chats, c.participants.length = 2) →
      ∀ c ∈ (runOps s ops).chats, c.participants.length = 2 := by
  induction ops with
  | nil => intro s h; exact h
  | cons op ops ih =>
    intro s h
    exact ih (op.apply s) (apply_two_entries s op h)

/-- When the requester names another user, and every stored chat has 2 participants, the
chat `accessChat` returns has exactly the requester and the user named as participants. -/
theorem accessChat_pair_of_distinct (s : Store) (a b : Id) (u : User) (now : Nat)
    (hfresh : s.FreshIds)
    (htwo : ∀ c ∈ s.chats, c.participants.length = 2)
    (hab : a ≠ b)
    (hu : User.findById s b = some u) :
    ∃ chat, (accessChat s a (some b) now).body = some chat ∧
      ∀ p, p ∈ chat.participants ↔ (p = a ∨ p = b) := by
  cases hfind : s.chats.find? (fun c => [a, b].all (fun p => c.participants.contains p)) with
  | some chat =>
    rw [accessChat_found s a b u chat now hu hfind]
    refine ⟨chat, rfl, ?_⟩
    have hmem := List.mem_of_find?_eq_some hfind
    have hp := List.find?_some hfind
    obtain ⟨x, y, hxy⟩ := List.length_eq_two.mp (htwo chat hmem)
    rw [hxy] at hp ⊢
    have ha : a = x ∨ a = y := by simpa using (by simpa using hp : _ ∧ _).1
    have hb : b = x ∨ b = y := by simpa using (by simpa using hp : _ ∧ _).2
    intro p
    simp only [List.mem_cons, List.mem_singleton, List.not_mem_nil, or_false]
    rcases ha with ha | ha <;> rcases hb with hb | hb
    · exact absurd (ha.trans hb.symm) hab
    · rw [ha, hb]
    · rw [ha, hb]; exact or_comm
    · exact absurd (ha.trans hb.symm) hab
  | none =>
    rw [accessChat_created s a b u now hfresh hu hfind]
    exact ⟨_, rfl, fun p => by simp⟩

/-! ## The relay: broadcasting -/

theorem connected_socket {r : Relay} {sock : Nat} {emitter : Socket}
    (hconn : r.sockets.find? (fun c => c.id == sock) = some emitter) :
    emitter ∈ r.sockets ∧ emitter.id = sock := by
  refine ⟨List.mem_of_find?_eq_some hconn, ?_⟩
  have := List.find?_some hconn
  simpa using this

theorem mem_ioToEmit (r : Relay) (room : Id) (event : ServerEvent) (d : Delivery) :
    d ∈ ioToEmit r room event ↔
      ∃ c ∈ r.sockets, room ∈ c.rooms ∧ d = ⟨c.id, event⟩ := by
  unfold ioToEmit
  rw [List.mem_map]
  constructor
  · rintro ⟨c, hc, hd⟩
    rw [List.mem_filter] at hc
    exact ⟨c, hc.1, by simpa using hc.2, hd.symm⟩
  · rintro ⟨c, hc, hroom, hd⟩
    exact ⟨c, List.mem_filter.mpr ⟨hc, by simpa using hroom⟩, hd.symm⟩

theorem mem_socketToEmit (r : Relay) (sock : Nat) (room : Id) (event : ServerEvent)
    (d : Delivery) :
    d ∈ socketToEmit r sock room event ↔
      ∃ c ∈ r.sockets, room ∈ c.rooms ∧ c.id ≠ sock ∧ d = ⟨c.id, event⟩ := by
  unfold socketToEmit
  rw [List.mem_map]
  constructor
  · rintro ⟨c, hc, hd⟩
    rw [List.mem_filter] at hc
    have h2 : room ∈ c.rooms ∧ c.id ≠ sock := by simpa using hc.2
    exact ⟨c, hc.1, h2.1, h2.2, hd.symm⟩
  · rintro ⟨c, hc, hroom, hne, hd⟩
    exact ⟨c, List.mem_filter.mpr ⟨hc, by simpa using And.intro hroom hne⟩, hd.symm⟩

/-- C17 (as amended): when a connected socket emits `send_message({chatId, message})`, the
relay hands `receive_message` to every connected socket subscribed to the chat's room,
the emitting socket itself included when it is subscribed, and to no socket outside the
room; the relay's subscriptions are unchanged. -/
theorem send_message_delivery (r : Relay) (sock : Nat) (chatId : Id) (message : JsObject)
    (emitter : Socket)
    (hconn : r.sockets.find? (fun c => c.id == sock) = some emitter) :
    (Relay.on r sock (ClientEvent.send_message chatId message)).1 = r ∧
    (∀ c ∈ r.sockets, chatId ∈ c.rooms →
      (⟨c.id, ServerEvent.receive_message (message.spreadWith "sender" (senderOf emitter))⟩ :
        Delivery) ∈ (Relay.on r sock (ClientEvent.send_message chatId message)).2) ∧
    (chatId ∈ emitter.rooms →
      (⟨sock, ServerEvent.receive_message (message.spreadWith "sender" (senderOf emitter))⟩ :
        Delivery) ∈ (Relay.on r sock (ClientEvent.send_message chatId message)).2) ∧
    (∀ d ∈ (Relay.on r sock (ClientEvent.send_message chatId message)).2,
      d.event = ServerEvent.receive_message (message.spreadWith "sender" (senderOf emitter)) ∧
      ∃ c ∈ r.sockets, c.id = d.socket ∧ chatId ∈ c.rooms) := by
  have hon : Relay.on r sock (ClientEvent.send_message chatId message)
      = (r, ioToEmit r chatId
          (ServerEvent.receive_message (message.spreadWith "sender" (senderOf emitter)))) := by
    simp only [Relay.on, hconn]
  obtain ⟨hmem, hid⟩ := connected_socket hconn
  rw [hon]
  refine ⟨rfl, ?_, ?_, ?_⟩
  · intro c hc hroom
    exact (mem_ioToEmit r chatId _ _).mpr ⟨c, hc, hroom, rfl⟩
  · intro hroom
    exact (mem_ioToEmit r chatId _ _).mpr ⟨emitter, hmem, hroom, by rw [hid]⟩
  · intro d hd
    obtain ⟨c, hc, hroom, hdc⟩ := (mem_ioToEmit r chatId _ _).mp hd
    rw [hdc]
    exact ⟨rfl, c, hc, rfl, hroom⟩

theorem send_message_delivery_witness :
    demoRelay.sockets.find? (fun c => c.id == 1) = some ⟨1, 10, [65], [10, 1]⟩ ∧
    (Relay.on demoRelay 1 (ClientEvent.send_message 1 demoMessage)).1 = demoRelay ∧
    (∀ c ∈ demoRelay.sockets, 1 ∈ c.rooms →
      (⟨c.id, ServerEvent.receive_message
          (demoMessage.spreadWith "sender" (senderOf ⟨1, 10, [65], [10, 1]⟩))⟩ :
        Delivery) ∈ (Relay.on demoRelay 1 (ClientEvent.send_message 1 demoMessage)).2) ∧
    (1 ∈ (⟨1, 10, [65], [10, 1]⟩ : Socket).rooms →
      (⟨1, ServerEvent.receive_message
          (demoMessage.spreadWith "sender" (senderOf ⟨1, 10, [65], [10, 1]⟩))⟩ :
        Delivery) ∈ (Relay.on demoRelay 1 (ClientEvent.send_message 1 demoMessage)).2) ∧
    (∀ d ∈ (Relay.on demoRelay 1 (ClientEvent.send_message 1 demoMessage)).2,
      d.event = ServerEvent.receive_message
        (demoMessage.spreadWith "sender" (senderOf ⟨1, 10, [65], [10, 1]⟩)) ∧
      ∃ c ∈ demoRelay.sockets, c.id = d.socket ∧ 1 ∈ c.rooms) :=
  ⟨by decide,
    send_message_delivery demoRelay 1 1 demoMessage ⟨1, 10, [65], [10, 1]⟩ (by decide)⟩

/-- C17 as stated fails: sockets 1 and 2 are both in chat room 1; when socket 1 emits
`send_message` for chat 1, `receive_message` is handed to sockets 1 and 2, so the emitting
socket receives it too. -/
theorem send_message_echo_refuted :
    (Relay.on demoRelay 1 (ClientEvent.send_message 1 demoMessage)).2.map (fun d => d.socket)
      = [1, 2] ∧
    ¬ (∀ d ∈ (Relay.on demoRelay 1 (ClientEvent.send_message 1 demoMessage)).2,
        d.socket ≠ 1) := by
  have hsockets :
      (Relay.on demoRelay 1 (ClientEvent.send_message 1 demoMessage)).2.map
        (fun d => d.socket) = [1, 2] := by
    decide
  refine ⟨hsockets, ?_⟩
  intro hall
  have hmem : (1 : Nat) ∈
      (Relay.on demoRelay 1 (ClientEvent.send_message 1 demoMessage)).2.map
        (fun d => d.socket) := by
    rw [hsockets]
    decide
  obtain ⟨d, hd, hd1⟩ := List.mem_map.mp hmem
  exact hall d hd hd1

/-- C18: when a connected socket emits `typing(chatId)` (respectively
`stop_typing(chatId)`), the relay hands `user_typing` (respectively
`user_stopped_typing`), carrying the emitter's `userId` and the `chatId`, to every other
connected socket subscribed to the chat's room, to no socket outside the room and never
to the emitting socket; the relay's subscriptions are unchanged. -/
theorem typing_delivery (r : Relay) (sock : Nat) (chatId : Id) (emitter : Socket)
    (hconn : r.sockets.find? (fun c => c.id == sock) = some emitter) :
    ((Relay.on r sock (ClientEvent.typing chatId)).1 = r ∧
      (∀ c ∈ r.sockets, c.id ≠ sock → chatId ∈ c.rooms →
        (⟨c.id, ServerEvent.user_typing emitter.userId emitter.userName chatId⟩ : Delivery)
          ∈ (Relay.on r sock (ClientEvent.typing chatId)).2) ∧
      (∀ d ∈ (Relay.on r sock (ClientEvent.typing chatId)).2,
        d.socket ≠ sock ∧
        d.event = ServerEvent.user_typing emitter.userId emitter.userName chatId ∧
        ∃ c ∈ r.sockets, c.id = d.socket ∧ chatId ∈ c.rooms)) ∧
    ((Relay.on r sock (ClientEvent.stop_typing chatId)).1 = r ∧
      (∀ c ∈ r.sockets, c.id ≠ sock → chatId ∈ c.rooms →
        (⟨c.id, ServerEvent.user_stopped_typing emitter.userId chatId⟩ : Delivery)
          ∈ (Relay.on r sock (ClientEvent.stop_typing chatId)).2) ∧
      (∀ d ∈ (Relay.on r sock (ClientEvent.stop_typing chatId)).2,
        d.socket ≠ sock ∧
        d.event = ServerEvent.user_stopped_typing emitter.userId chatId ∧
        ∃ c ∈ r.sockets, c.id = d.socket ∧ chatId ∈ c.rooms)) := by
  have hon1 : Relay.on r sock (ClientEvent.typing chatId)
      = (r, socketToEmit r sock chatId
          (ServerEvent.user_typing emitter.userId emitter.userName chatId)) := by
    simp only [Relay.on, hconn]
  have hon2 : Relay.on r sock (ClientEvent.stop_typing chatId)
      = (r, socketToEmit r sock chatId
          (ServerEvent.user_stopped_typing emitter.userId chatId)) := by
    simp only [Relay.on, hconn]
  rw [hon1, hon2]
  refine ⟨⟨rfl, ?_, ?_⟩, ⟨rfl, ?_, ?_⟩⟩
  · intro c hc hne hroom
    exact (mem_socketToEmit r sock chatId _ _).mpr ⟨c, hc, hroom, hne, rfl⟩
  · intro d hd
    obtain ⟨c, hc, hroom, hne, hdc⟩ := (mem_socketToEmit r sock chatId _ _).mp hd
    rw [hdc]
    exact ⟨hne, rfl, c, hc, rfl, hroom⟩
  · intro c hc hne hroom
    exact (mem_socketToEmit r sock chatId _ _).mpr ⟨c, hc, hroom, hne, rfl⟩
  · intro d hd
    obtain ⟨c, hc, hroom, hne, hdc⟩ := (mem_socketToEmit r sock chatId _ _).mp hd
    rw [hdc]
    exact ⟨hne, rfl, c, hc, rfl, hroom⟩

theorem typing_delivery_witness :
    demoRelay.sockets.find? (fun c => c.id == 1) = some ⟨1, 10, [65], [10, 1]⟩ ∧
    ((Relay.on demoRelay 1 (ClientEvent.typing 1)).1 = demoRelay ∧
      (∀ c ∈ demoRelay.sockets, c.id ≠ 1 → 1 ∈ c.rooms →
        (⟨c.id, ServerEvent.user_typing (⟨1, 10, [65], [10, 1]⟩ : Socket).userId
            (⟨1, 10, [65], [10, 1]⟩ : Socket).userName 1⟩ : Delivery)
          ∈ (Relay.on demoRelay 1 (ClientEvent.typing 1)).2) ∧
      (∀ d ∈ (Relay.on demoRelay 1 (ClientEvent.typing 1)).2,
        d.socket ≠ 1 ∧
        d.event = ServerEvent.user_typing (⟨1, 10, [65], [10, 1]⟩ : Socket).userId
            (⟨1, 10, [65], [10, 1]⟩ : Socket).userName 1 ∧
        ∃ c ∈ demoRelay.sockets, c.id = d.socket ∧ 1 ∈ c.rooms)) ∧
    ((Relay.on demoRelay 1 (ClientEvent.stop_typing 1)).1 = demoRelay ∧
      (∀ c ∈ demoRelay.sockets, c.id ≠ 1 → 1 ∈ c.rooms →
        (⟨c.id, ServerEvent.user_stopped_typing (⟨1, 10, [65], [10, 1]⟩ : Socket).userId 1⟩ :
          Delivery) ∈ (Relay.on demoRelay 1 (ClientEvent.stop_typing 1)).2) ∧
      (∀ d ∈ (Relay.on demoRelay 1 (ClientEvent.stop_typing 1)).2,
        d.socket ≠ 1 ∧
        d.event = ServerEvent.user_stopped_typing (⟨1, 10, [65], [10, 1]⟩ : Socket).userId 1 ∧
        ∃ c ∈ demoRelay.sockets, c.id = d.socket ∧ 1 ∈ c.rooms)) :=
  ⟨by decide, typing_delivery demoRelay 1 1 ⟨1, 10, [65], [10, 1]⟩ (by decide)⟩

/-- In the demo relay a typing notice from socket 1 for chat 1 reaches socket 2 only. -/
theorem typing_demo :
    (Relay.on demoRelay 1 (ClientEvent.typing 1)).2.map (fun d => d.socket) = [2] ∧
    (Relay.on demoRelay 1 (ClientEvent.stop_typing 1)).2.map (fun d => d.socket) = [2] := by
  decide

/-! ## The relay: the sender written into `receive_message` -/

theorem find?_map_overwrite (key other : String) (v : JsValue) (o : JsObject) :
    (o.map (fun kv => if kv.1 == key then (key, v) else kv)).find? (fun kv => kv.1 == other)
      = (o.find? (fun kv => kv.1 == other)).map
          (fun kv => if kv.1 == key then (key, v) else kv) := by
  have hcomp : ((fun kv : String × JsValue => kv.1 == other) ∘
      (fun kv : String × JsValue => if kv.1 == key then (key, v) else kv))
        = (fun kv : String × JsValue => kv.1 == other) := by
    funext kv
    by_cases hk : kv.1 = key
    · simp [Function.comp, hk]
    · simp [Function.comp, hk]
  rw [List.find?_map, hcomp]

theorem get_map_overwrite_self (key : String) (v : JsValue) (o : JsObject)
    (hany : o.any (fun kv => kv.1 == key) = true) :
    JsObject.get (o.map (fun kv => if kv.1 == key then (key, v) else kv)) key = some v := by
  unfold JsObject.get
  rw [find?_map_overwrite]
  cases hfind : o.find? (fun kv => kv.1 == key) with
  | none =>
    rw [List.find?_eq_none] at hfind
    obtain ⟨kv, hkv, hk⟩ := List.any_eq_true.mp hany
    exact absurd hk (hfind kv hkv)
  | some x =>
    have hx : (x.1 == key) = true := by
      have h0 := List.find?_some hfind
      exact h0
    simp only [Option.map_some', hx, if_true]

theorem get_map_overwrite_other (key other : String) (v : JsValue) (hne : other ≠ key)
    (o : JsObject) :
    JsObject.get (o.map (fun kv => if kv.1 == key then (key, v) else kv)) other
      = JsObject.get o other := by
  unfold JsObject.get
  rw [find?_map_overwrite]
  cases hfind : o.find? (fun kv => kv.1 == other) with
  | none => rfl
  | some x =>
    have hx : (x.1 == other) = true := by
      have h0 := List.find?_some hfind
      exact h0
    have hx1 : x.1 = other := by simpa using hx
    have hxk : (x.1 == key) = false := by
      rw [hx1]
      simpa using hne
    simp only [Option.map_some', hxk, Bool.false_eq_true, if_false]

theorem get_spreadWith_self (o : JsObject) (key : String) (v : JsValue) :
    (o.spreadWith key v).get key = some v := by
  unfold JsObject.spreadWith
  cases hany : o.any (fun kv => kv.1 == key) with
  | true =>
    simp only [if_true]
    exact get_map_overwrite_self key v o hany
  | false =>
    have hnone : o.find? (fun kv => kv.1 == key) = none := by
      rw [List.find?_eq_none]
      intro kv hkv
      have := List.any_eq_false.mp hany kv hkv
      simpa using this
    simp [JsObject.get, List.find?_append, hnone]

theorem get_spreadWith_other (o : JsObject) (key other : String) (v : JsValue)
    (hne : other ≠ key) :
    (o.spreadWith key v).get other = o.get other := by
  unfold JsObject.spreadWith
  cases hany : o.any (fun kv => kv.1 == key) with
  | true =>
    simp only [if_true]
    exact get_map_overwrite_other key other v hne o
  | false =>
    have h1 : ¬ key = other := fun h => hne h.symm
    simp [JsObject.get, List.find?_append, h1]

/-- C19: for every `send_message` event from a connected socket, every `receive_message`
handed out carries one payload whose `sender` field is `{ _id, name }` built from the
`userId` and `userName` the middleware stored on the emitting socket, whatever `sender`
the client put in the message, and whose every other field reads as in the client's
message. -/
theorem receive_message_sender (r : Relay) (sock : Nat) (chatId : Id) (message : JsObject)
    (emitter : Socket)
    (hconn : r.sockets.find? (fun c => c.id == sock) = some emitter) :
    ∃ payload,
      (∀ d ∈ (Relay.on r sock (ClientEvent.send_message chatId message)).2,
        d.event = ServerEvent.receive_message payload) ∧
      payload.get "sender"
        = some (JsValue.obj [("_id", JsValue.oid emitter.userId),
                             ("name", JsValue.str emitter.userName)]) ∧
      (∀ key, key ≠ "sender" → payload.get key = message.get key) ∧
      payload.length = (if (message.get "sender").isSome then message.length
        else message.length + 1) := by
  have hon : Relay.on r sock (ClientEvent.send_message chatId message)
      = (r, ioToEmit r chatId
          (ServerEvent.receive_message (message.spreadWith "sender" (senderOf emitter)))) := by
    simp only [Relay.on, hconn]
  refine ⟨message.spreadWith "sender" (senderOf emitter), ?_, ?_, ?_, ?_⟩
  · intro d hd
    rw [hon] at hd
    obtain ⟨c, _, _, hdc⟩ := (mem_ioToEmit r chatId _ _).mp hd
    rw [hdc]
  · exact get_spreadWith_self message "sender" (senderOf emitter)
  · intro key hkey
    exact get_spreadWith_other message "sender" key (senderOf emitter) hkey
  · unfold JsObject.spreadWith JsObject.get
    cases hany : message.any (fun kv => kv.1 == "sender") with
    | true =>
      have hsome : (message.find? (fun kv => kv.1 == "sender")).isSome = true := by
        rw [List.find?_isSome]
        simpa using hany
      simp [hsome]
    | false =>
      have hnone : message.find? (fun kv => kv.1 == "sender") = none := by
        rw [List.find?_eq_none]
        intro kv hkv
        have := List.any_eq_false.mp hany kv hkv
        simpa using this
      simp [hnone]

theorem receive_message_sender_witness :
    demoRelay.sockets.find? (fun c => c.id == 1) = some ⟨1, 10, [65], [10, 1]⟩ ∧
    ∃ payload,
      (∀ d ∈ (Relay.on demoRelay 1 (ClientEvent.send_message 1 demoMessage)).2,
        d.event = ServerEvent.receive_message payload) ∧
      payload.get "sender"
        = some (JsValue.obj [("_id", JsValue.oid (⟨1, 10, [65], [10, 1]⟩ : Socket).userId),
                             ("name", JsValue.str (⟨1, 10, [65], [10, 1]⟩ : Socket).userName)]) ∧
      (∀ key, key ≠ "sender" → payload.get key = demoMessage.get key) ∧
      payload.length = (if (demoMessage.get "sender").isSome then demoMessage.length
        else demoMessage.length + 1) :=
  ⟨by decide,
    receive_message_sender demoRelay 1 1 demoMessage ⟨1, 10, [65], [10, 1]⟩ (by decide)⟩

/-- The forged sender 12 of the demo message is replaced by the emitter, user 10 ("A"),
in place; the other fields are those of the message. -/
theorem receive_message_demo :
    demoMessage.spreadWith "sender" (senderOf ⟨1, 10, [65], [10, 1]⟩)
      = [("_id", JsValue.oid 100), ("chat", JsValue.oid 1),
         ("sender", JsValue.obj [("_id", JsValue.oid 10), ("name", JsValue.str [65])]),
         ("content", JsValue.str [104, 111]), ("read", JsValue.bool false)] := by
  rfl

/-! ## The relay: accepting connections -/

/-- The middleware lets a handshake through exactly when it carries a non-empty token that
verifies to an identity resolving to a user; otherwise it passes one of its three errors
to `next`. -/
theorem authenticate_cases (verifyToken : JsString → VerifyResult) (s : Store)
    (h : Handshake) :
    (∃ token id user, h.token = some token ∧ token ≠ [] ∧
        verifyToken token = VerifyResult.decoded (some id) ∧
        User.findById s id = some user ∧
        authenticate verifyToken s h = Except.ok (user.id, user.name)) ∨
    ((¬ ∃ token id user, h.token = some token ∧ token ≠ [] ∧
        verifyToken token = VerifyResult.decoded (some id) ∧
        User.findById s id = some user) ∧
      ∃ msg, authenticate verifyToken s h = Except.error msg ∧
        (msg = "Authentication error" ∨ msg = "Invalid token" ∨ msg = "User not found")) := by
  obtain ⟨tok⟩ := h
  cases tok with
  | none =>
    right
    exact ⟨by simp, "Authentication error", rfl, Or.inl rfl⟩
  | some token =>
    cases token with
    | nil =>
      right
      exact ⟨by simp, "Authentication error", rfl, Or.inl rfl⟩
    | cons x xs =>
      cases hv : verifyToken (x :: xs) with
      | throws =>
        right
        refine ⟨by simp [hv], "Authentication error", ?_, Or.inl rfl⟩
        simp [authenticate, hv]
      | null =>
        right
        refine ⟨by simp [hv], "Invalid token", ?_, Or.inr (Or.inl rfl)⟩
        simp [authenticate, hv]
      | decoded id =>
        cases id with
        | none =>
          right
          refine ⟨by simp [hv], "User not found", ?_, Or.inr (Or.inr rfl)⟩
          simp [authenticate, hv]
        | some id =>
          cases hu : User.findById s id with
          | none =>
            right
            refine ⟨by simp [hv, hu], "User not found", ?_, Or.inr (Or.inr rfl)⟩
            simp [authenticate, hv, hu]
          | some user =>
            left
            refine ⟨x :: xs, id, user, rfl, by simp, hv, hu, ?_⟩
            simp [authenticate, hv, hu]

/-- C20: a connection is accepted if and only if its handshake carries a (non-empty)
token, the token verifies and the decoded id resolves to an existing user. A refused
connection gets one of the middleware's errors, the relay is left as it was, and, the
socket not being connected, no handler answers any event it emits. An accepted connection
becomes a connected socket carrying that user's id and name and subscribed to the room
keyed by its own user id. -/
theorem connect_accepted_iff (verifyToken : JsString → VerifyResult) (s : Store)
    (r : Relay) (sock : Nat) (h : Handshake) :
    ((Relay.connect verifyToken s r sock h).error = none ↔
      ∃ token id user, h.token = some token ∧ token ≠ [] ∧
        verifyToken token = VerifyResult.decoded (some id) ∧
        User.findById s id = some user) ∧
    (∀ msg, (Relay.connect verifyToken s r sock h).error = some msg →
      (msg = "Authentication error" ∨ msg = "Invalid token" ∨ msg = "User not found") ∧
      (Relay.connect verifyToken s r sock h).relay = r ∧
      (r.sockets.find? (fun c => c.id == sock) = none →
        ∀ event, Relay.on (Relay.connect verifyToken s r sock h).relay sock event
          = ((Relay.connect verifyToken s r sock h).relay, []))) ∧
    ((Relay.connect verifyToken s r sock h).error = none →
      ∃ token id user, h.token = some token ∧
        verifyToken token = VerifyResult.decoded (some id) ∧
        User.findById s id = some user ∧
        (Relay.connect verifyToken s r sock h).relay.sockets
          = r.sockets ++ [⟨sock, user.id, user.name, [user.id]⟩] ∧
        user.id ∈ (⟨sock, user.id, user.name, [user.id]⟩ : Socket).rooms) := by
  rcases authenticate_cases verifyToken s h with
    ⟨token, id, user, htok, hne, hv, hu, hauth⟩ | ⟨hnot, msg, hauth, hmsg⟩
  · have hc : Relay.connect verifyToken s r sock h
        = ⟨none, { sockets := r.sockets ++ [⟨sock, user.id, user.name, [user.id]⟩] }⟩ := by
      simp only [Relay.connect, hauth]
    rw [hc]
    refine ⟨⟨fun _ => ⟨token, id, user, htok, hne, hv, hu⟩, fun _ => rfl⟩, ?_, ?_⟩
    · intro msg hmsg
      simp at hmsg
    · intro _
      exact ⟨token, id, user, htok, hv, hu, rfl, by simp⟩
  · have hc : Relay.connect verifyToken s r sock h = ⟨some msg, r⟩ := by
      simp only [Relay.connect, hauth]
    rw [hc]
    refine ⟨⟨fun habs => by simp at habs, fun hex => absurd hex hnot⟩, ?_, ?_⟩
    · intro msg1 hmsg1
      have hm : msg = msg1 := by simpa using hmsg1
      rw [← hm]
      refine ⟨hmsg, rfl, ?_⟩
      intro hfree event
      simp only [Relay.on, hfree]
    · intro habs
      simp at habs

/-- In the demo: token "a" of user 10 is accepted and socket 7 joins room 10; a missing
token, an invalid token, a throwing verification and a token of an unknown user are
refused, each with the middleware's error, and the relay stays as it was. -/
theorem connect_demo :
    Relay.connect demoVerify demoStore demoRelay 7 ⟨some [97]⟩
      = ⟨none, { sockets := demoRelay.sockets ++ [⟨7, 10, [65], [10]⟩] }⟩ ∧
    Relay.connect demoVerify demoStore demoRelay 7 ⟨none⟩
      = ⟨some "Authentication error", demoRelay⟩ ∧
    Relay.connect demoVerify demoStore demoRelay 7 ⟨some []⟩
      = ⟨some "Authentication error", demoRelay⟩ ∧
    Relay.connect demoVerify demoStore demoRelay 7 ⟨some [98]⟩
      = ⟨some "Invalid token", demoRelay⟩ ∧
    Relay.connect demoVerify demoStore demoRelay 7 ⟨some [116]⟩
      = ⟨some "Authentication error", demoRelay⟩ ∧
    Relay.connect demoVerify demoStore demoRelay 7 ⟨some [122]⟩
      = ⟨some "User not found", demoRelay⟩ := by
  decide

/-! ## Unique chat identities are an invariant of the requests -/

theorem map_id_replaceFirst (c : Chat) :
    ∀ l : List Chat,
      (replaceFirst (fun d => d.id == c.id) c l).map (fun d => d.id) = l.map (fun d => d.id)
  | [] => rfl
  | x :: xs => by
    by_cases hx : x.id = c.id
    · simp [replaceFirst, hx]
    · simp [replaceFirst, hx, map_id_replaceFirst c xs]

theorem sendMessage_chat_ids (s : Store) (chatId senderId : Id) (content : Option JsString)
    (now : Nat) :
    (sendMessage s chatId senderId content now).store.chats.map (fun d => d.id)
      = s.chats.map (fun d => d.id) := by
  cases content with
  | none => rfl
  | some text =>
    cases hg : (text.isEmpty || jsTrim text == []) with
    | true => simp only [sendMessage, hg]; rfl
    | false =>
      cases hchat : Chat.findById s chatId with
      | none => simp only [sendMessage, hg, hchat]; rfl
      | some chat =>
        cases hinc : chat.includes senderId with
        | false => simp only [sendMessage, hg, hchat, hinc]; rfl
        | true =>
          cases hrej : saveRejected chat.participants with
          | true => simp only [sendMessage, hg, hchat, hinc, hrej]; rfl
          | false =>
            simp only [sendMessage, hg, hchat, hinc, hrej]
            exact map_id_replaceFirst
              { chat with lastMessage := toWellFormed (substring0 (jsTrim text) 100), lastMessageTime := now,
                          lastMessageSender := some senderId } s.chats

/-- The store stays well formed under every request: identities stay below the next fresh
one and no two chats share an identity. -/
theorem apply_wellFormed (s : Store) (op : ChatOp)
    (hfresh : s.FreshIds) (hunique : s.UniqueChatIds) :
    (op.apply s).FreshIds ∧ (op.apply s).UniqueChatIds := by
  cases op with
  | accessChat requester userId now =>
    refine ⟨freshIds_accessChat s requester userId now hfresh, ?_⟩
    show ((accessChat s requester userId now).store.chats.map (fun c => c.id)).Nodup
    rcases accessChat_store_chats s requester userId now with h1 | ⟨b, _, h1⟩
    · rw [h1]; exact hunique
    · rw [h1, List.map_append, List.map_singleton]
      refine List.Nodup.append hunique (List.nodup_singleton _) ?_
      intro x hx hx1
      rw [List.mem_singleton] at hx1
      obtain ⟨c, hc, hcx⟩ := List.mem_map.mp hx
      have hlt : c.id < s.nextId := hfresh.1 c hc
      rw [hcx, hx1] at hlt
      exact Nat.lt_irrefl _ hlt
  | getChats requester => exact ⟨hfresh, hunique⟩
  | getMessages chatId requester limit skip =>
    have hs : (getMessages s chatId requester limit skip).store = s := by
      unfold getMessages
      split
      · rfl
      · split <;> rfl
    show (getMessages s chatId requester limit skip).store.FreshIds ∧
      (getMessages s chatId requester limit skip).store.UniqueChatIds
    rw [hs]
    exact ⟨hfresh, hunique⟩
  | sendMessage chatId requester content now =>
    refine ⟨freshIds_sendMessage s chatId requester content now hfresh, ?_⟩
    show ((sendMessage s chatId requester content now).store.chats.map (fun c => c.id)).Nodup
    rw [sendMessage_chat_ids]
    exact hunique
  | markMessagesAsRead chatId requester now =>
    refine ⟨freshIds_markMessagesAsRead s chatId requester now hfresh, ?_⟩
    show ((markMessagesAsRead s chatId requester now).store.chats.map (fun c => c.id)).Nodup
    rw [markMessagesAsRead_store_chats]
    exact hunique
  | deleteChat chatId requester =>
    refine ⟨freshIds_deleteChat s chatId requester hfresh, ?_⟩
    show ((deleteChat s chatId requester).store.chats.map (fun c => c.id)).Nodup
    cases hchat : Chat.findById s chatId with
    | none =>
      simp only [deleteChat, hchat]
      exact hunique
    | some chat =>
      cases hinc : chat.includes requester with
      | false =>
        simp only [deleteChat, hchat, hinc]
        exact hunique
      | true =>
        simp only [deleteChat, hchat, hinc]
        exact List.Nodup.sublist ((List.eraseP_sublist _).map _) hunique

/-- After any sequence of requests served from a store with no chat and no message, the
store is well formed. -/
theorem runOps_wellFormed (ops : List ChatOp) :
    ∀ s : Store, s.FreshIds → s.UniqueChatIds →
      (runOps s ops).FreshIds ∧ (runOps s ops).UniqueChatIds := by
  induction ops with
  | nil => intro s h1 h2; exact ⟨h1, h2⟩
  | cons op ops ih =>
    intro s h1 h2
    have h := apply_wellFormed s op h1 h2
    exact ih (op.apply s) h.1 h.2

/-! ## The relay: joining a room -/

/-- After `socket.join(room)` each socket keeps its connection identity, its user and the
rooms it had, and the joining socket is in the room. -/
theorem socketJoin_mem (r : Relay) (sock : Nat) (room : Id) (c : Socket)
    (hc : c ∈ r.sockets) :
    ∃ c1 ∈ (socketJoin r sock room).sockets,
      c1.id = c.id ∧ c1.userId = c.userId ∧ c1.userName = c.userName ∧
      (∀ x ∈ c.rooms, x ∈ c1.rooms) ∧ (c.id = sock → room ∈ c1.rooms) := by
  by_cases hcond : (c.id == sock && !c.rooms.contains room) = true
  · refine ⟨{ c with rooms := c.rooms ++ [room] }, ?_, rfl, rfl, rfl, ?_, ?_⟩
    · unfold socketJoin
      exact List.mem_map.mpr ⟨c, hc, by simp only [hcond, if_true]⟩
    · intro x hx
      exact List.mem_append_left _ hx
    · intro _
      exact List.mem_append_right _ (List.mem_singleton.mpr rfl)
  · refine ⟨c, ?_, rfl, rfl, rfl, fun x hx => hx, ?_⟩
    · unfold socketJoin
      exact List.mem_map.mpr ⟨c, hc, by simp only [hcond]; rfl⟩
    · intro hid
      have h1 : (c.id == sock) = true := by simpa using hid
      have h2 : (c.rooms.contains room) = true := by
        cases hcont : c.rooms.contains room with
        | true => rfl
        | false =>
          exfalso
          apply hcond
          rw [h1, hcont]
          rfl
      simpa using h2

/-- A socket connected before `socket.join(room)` is connected afterwards, with the same
user. -/
theorem socketJoin_connected (r : Relay) (sock : Nat) (room : Id) (other : Nat)
    (emitter : Socket)
    (hconn : r.sockets.find? (fun c => c.id == other) = some emitter) :
    ∃ emitter1, (socketJoin r sock room).sockets.find? (fun c => c.id == other)
        = some emitter1 ∧
      emitter1.userId = emitter.userId ∧ emitter1.userName = emitter.userName := by
  have hcomp : ((fun c : Socket => c.id == other) ∘
      (fun c : Socket =>
        if c.id == sock && !c.rooms.contains room then { c with rooms := c.rooms ++ [room] }
        else c)) = (fun c : Socket => c.id == other) := by
    funext c
    simp only [Function.comp]
    split <;> rfl
  unfold socketJoin
  simp only []
  rw [List.find?_map, hcomp, hconn]
  simp only [Option.map_some']
  refine ⟨_, rfl, ?_, ?_⟩ <;> split <;> rfl

/-- C21: the relay performs no participation check on join. Whatever the chats stored,
once a connected socket has emitted `join_chat(chatId)` it is handed the
`receive_message` of every `send_message` and the `user_typing` of every `typing` that
another connected socket then emits for that room; nothing in the handler looks at the
participants of the chat. -/
theorem join_chat_unchecked (r : Relay) (joiner other : Nat) (chatId : Id)
    (message : JsObject) (c emitter : Socket)
    (hjoiner : r.sockets.find? (fun x => x.id == joiner) = some c)
    (hother : r.sockets.find? (fun x => x.id == other) = some emitter)
    (hne : joiner ≠ other) :
    (Relay.on r joiner (ClientEvent.join_chat chatId)).2 = [] ∧
    (∃ d ∈ (Relay.on (Relay.on r joiner (ClientEvent.join_chat chatId)).1 other
          (ClientEvent.send_message chatId message)).2,
      d.socket = joiner ∧
      d.event = ServerEvent.receive_message (message.spreadWith "sender" (senderOf emitter))) ∧
    (∃ d ∈ (Relay.on (Relay.on r joiner (ClientEvent.join_chat chatId)).1 other
          (ClientEvent.typing chatId)).2,
      d.socket = joiner ∧
      d.event = ServerEvent.user_typing emitter.userId emitter.userName chatId) := by
  have hjoin : Relay.on r joiner (ClientEvent.join_chat chatId)
      = (socketJoin r joiner chatId, []) := by
    simp only [Relay.on, hjoiner]
  obtain ⟨hcmem, hcid⟩ := connected_socket hjoiner
  obtain ⟨c1, hc1, hc1id, _, _, _, hroom⟩ := socketJoin_mem r joiner chatId c hcmem
  obtain ⟨e1, he1, he1u, he1n⟩ := socketJoin_connected r joiner chatId other emitter hother
  have hsender : senderOf e1 = senderOf emitter := by
    simp only [senderOf, he1u, he1n]
  rw [hjoin]
  refine ⟨rfl, ?_, ?_⟩
  · have hon : Relay.on (socketJoin r joiner chatId) other
          (ClientEvent.send_message chatId message)
        = (socketJoin r joiner chatId, ioToEmit (socketJoin r joiner chatId) chatId
            (ServerEvent.receive_message (message.spreadWith "sender" (senderOf e1)))) := by
      simp only [Relay.on, he1]
    rw [hon, hsender]
    refine ⟨⟨c1.id, _⟩, (mem_ioToEmit _ chatId _ _).mpr ⟨c1, hc1, hroom hcid, rfl⟩, ?_, rfl⟩
    exact hc1id.trans hcid
  · have hon : Relay.on (socketJoin r joiner chatId) other (ClientEvent.typing chatId)
        = (socketJoin r joiner chatId, socketToEmit (socketJoin r joiner chatId) other chatId
            (ServerEvent.user_typing e1.userId e1.userName chatId)) := by
      simp only [Relay.on, he1]
    rw [hon, he1u, he1n]
    refine ⟨⟨c1.id, _⟩,
      (mem_socketToEmit _ other chatId _ _).mpr ⟨c1, hc1, hroom hcid, ?_, rfl⟩, ?_, rfl⟩
    · rw [hc1id, hcid]; exact hne
    · exact hc1id.trans hcid

theorem join_chat_unchecked_witness :
    (Chat.findById demoStore 1 = some ⟨1, [10, 11], none, [104, 105], 7, some 11⟩ ∧
      (12 : Id) ∉ [10, 11]) ∧
    demoRelay.sockets.find? (fun x => x.id == 3) = some ⟨3, 12, [67], [12]⟩ ∧
    demoRelay.sockets.find? (fun x => x.id == 1) = some ⟨1, 10, [65], [10, 1]⟩ ∧
    (3 : Nat) ≠ 1 ∧
    (Relay.on demoRelay 3 (ClientEvent.join_chat 1)).2 = [] ∧
    (∃ d ∈ (Relay.on (Relay.on demoRelay 3 (ClientEvent.join_chat 1)).1 1
          (ClientEvent.send_message 1 demoMessage)).2,
      d.socket = 3 ∧
      d.event = ServerEvent.receive_message
        (demoMessage.spreadWith "sender" (senderOf ⟨1, 10, [65], [10, 1]⟩))) ∧
    (∃ d ∈ (Relay.on (Relay.on demoRelay 3 (ClientEvent.join_chat 1)).1 1
          (ClientEvent.typing 1)).2,
      d.socket = 3 ∧
      d.event = ServerEvent.user_typing (⟨1, 10, [65], [10, 1]⟩ : Socket).userId
        (⟨1, 10, [65], [10, 1]⟩ : Socket).userName 1) :=
  ⟨⟨by decide, by decide⟩, by decide, by decide, by decide,
    join_chat_unchecked demoRelay 3 1 1 demoMessage ⟨3, 12, [67], [12]⟩
      ⟨1, 10, [65], [10, 1]⟩ (by decide) (by decide) (by decide)⟩

/-- In the demo, socket 3 of user 12, who is in no chat with users 10 and 11, receives
nothing from room 1 before joining and everything after. -/
theorem join_chat_demo :
    (Relay.on demoRelay 1 (ClientEvent.send_message 1 demoMessage)).2.map (fun d => d.socket)
      = [1, 2] ∧
    (Relay.on (Relay.on demoRelay 3 (ClientEvent.join_chat 1)).1 1
        (ClientEvent.send_message 1 demoMessage)).2.map (fun d => d.socket) = [1, 2, 3] ∧
    (Relay.on (Relay.on demoRelay 3 (ClientEvent.join_chat 1)).1 1
        (ClientEvent.typing 1)).2.map (fun d => d.socket) = [2, 3] := by
  decide

/-- C28: chat rooms and personal rooms share one key space and joining is unchecked. For
a user `u` whose sockets are in their personal room, once a connected socket has emitted
`join_chat(u)`, a `swap_request_sent` naming `recipientId = u` emitted by any connected
socket hands `swap_request_notification` to the joining socket as well as to every socket
of `u`. -/
theorem join_personal_room (r : Relay) (joiner other : Nat) (u : Id)
    (swapRequest : JsObject) (c emitter : Socket)
    (hjoiner : r.sockets.find? (fun x => x.id == joiner) = some c)
    (hother : r.sockets.find? (fun x => x.id == other) = some emitter)
    (hpersonal : ∀ x ∈ r.sockets, x.userId = u → u ∈ x.rooms) :
    (⟨joiner, ServerEvent.swap_request_notification swapRequest⟩ : Delivery)
      ∈ (Relay.on (Relay.on r joiner (ClientEvent.join_chat u)).1 other
          (ClientEvent.swap_request_sent u swapRequest)).2 ∧
    (∀ x ∈ r.sockets, x.userId = u →
      (⟨x.id, ServerEvent.swap_request_notification swapRequest⟩ : Delivery)
        ∈ (Relay.on (Relay.on r joiner (ClientEvent.join_chat u)).1 other
            (ClientEvent.swap_request_sent u swapRequest)).2) := by
  have hjoin : Relay.on r joiner (ClientEvent.join_chat u) = (socketJoin r joiner u, []) := by
    simp only [Relay.on, hjoiner]
  obtain ⟨hcmem, hcid⟩ := connected_socket hjoiner
  obtain ⟨e1, he1, _, _⟩ := socketJoin_connected r joiner u other emitter hother
  have hon : Relay.on (socketJoin r joiner u) other (ClientEvent.swap_request_sent u swapRequest)
      = (socketJoin r joiner u, ioToEmit (socketJoin r joiner u) u
          (ServerEvent.swap_request_notification swapRequest)) := by
    simp only [Relay.on, he1]
  rw [hjoin, hon]
  refine ⟨?_, ?_⟩
  · obtain ⟨c1, hc1, hc1id, _, _, _, hroom⟩ := socketJoin_mem r joiner u c hcmem
    exact (mem_ioToEmit _ u _ _).mpr ⟨c1, hc1, hroom hcid, by rw [hc1id, hcid]⟩
  · intro x hx hxu
    obtain ⟨x1, hx1, hx1id, _, _, hrooms, _⟩ := socketJoin_mem r joiner u x hx
    exact (mem_ioToEmit _ u _ _).mpr ⟨x1, hx1, hrooms u (hpersonal x hx hxu), by rw [hx1id]⟩

theorem join_personal_room_witness :
    demoRelay.sockets.find? (fun x => x.id == 3) = some ⟨3, 12, [67], [12]⟩ ∧
    demoRelay.sockets.find? (fun x => x.id == 1) = some ⟨1, 10, [65], [10, 1]⟩ ∧
    (∀ x ∈ demoRelay.sockets, x.userId = 11 → (11 : Id) ∈ x.rooms) ∧
    (⟨3, ServerEvent.swap_request_notification demoMessage⟩ : Delivery)
      ∈ (Relay.on (Relay.on demoRelay 3 (ClientEvent.join_chat 11)).1 1
          (ClientEvent.swap_request_sent 11 demoMessage)).2 ∧
    (∀ x ∈ demoRelay.sockets, x.userId = 11 →
      (⟨x.id, ServerEvent.swap_request_notification demoMessage⟩ : Delivery)
        ∈ (Relay.on (Relay.on demoRelay 3 (ClientEvent.join_chat 11)).1 1
            (ClientEvent.swap_request_sent 11 demoMessage)).2) :=
  ⟨by decide, by decide, by decide,
    join_personal_room demoRelay 3 1 11 demoMessage ⟨3, 12, [67], [12]⟩
      ⟨1, 10, [65], [10, 1]⟩ (by decide) (by decide) (by decide)⟩

/-- In the demo, a notification for user 11 reaches socket 2 only; after socket 3 of user
12 joins room 11 it reaches sockets 2 and 3. -/
theorem join_personal_room_demo :
    (Relay.on demoRelay 1 (ClientEvent.swap_request_sent 11 demoMessage)).2.map
      (fun d => d.socket) = [2] ∧
    (Relay.on (Relay.on demoRelay 3 (ClientEvent.join_chat 11)).1 1
        (ClientEvent.swap_request_sent 11 demoMessage)).2.map (fun d => d.socket) = [2, 3] := by
  decide

/-! ## The client: merging relay messages -/

theorem handleReceiveMessage_append (selectedChat : Id) (prev : List JsObject)
    (message : JsObject)
    (hchat : message.oidAt "chat" = some selectedChat)
    (hnew : ∀ m ∈ prev, m.oidAt "_id" ≠ message.oidAt "_id") :
    handleReceiveMessage selectedChat prev message = prev ++ [message] := by
  have hany : prev.any (fun m => m.oidAt "_id" == message.oidAt "_id") = false := by
    rw [List.any_eq_false]
    intro m hm
    simpa using hnew m hm
  simp [handleReceiveMessage, hchat, hany]

theorem handleReceiveMessage_present (selectedChat : Id) (prev : List JsObject)
    (message m : JsObject) (hm : m ∈ prev)
    (hid : m.oidAt "_id" = message.oidAt "_id") :
    handleReceiveMessage selectedChat prev message = prev := by
  have hany : prev.any (fun m => m.oidAt "_id" == message.oidAt "_id") = true := by
    rw [List.any_eq_true]
    exact ⟨m, hm, by simpa using hid⟩
  simp [handleReceiveMessage, hany]

theorem handleReceiveMessage_other_chat (selectedChat : Id) (prev : List JsObject)
    (message : JsObject) (hchat : message.oidAt "chat" ≠ some selectedChat) :
    handleReceiveMessage selectedChat prev message = prev := by
  simp [handleReceiveMessage, hchat]

/-- C22: the client's merge of a `receive_message` event. For every local list and
incoming message the result is the list itself or the list with the message appended, and
it is appended exactly when the message belongs to the active chat and no listed message
has its `_id`; merging the same message a second time changes nothing; and a list with
pairwise distinct `_id`s keeps pairwise distinct `_id`s. -/
theorem handleReceiveMessage_idempotent (selectedChat : Id) (prev : List JsObject)
    (message : JsObject) :
    (handleReceiveMessage selectedChat prev message = prev ∨
      handleReceiveMessage selectedChat prev message = prev ++ [message]) ∧
    (handleReceiveMessage selectedChat prev message = prev ++ [message] ↔
      (message.oidAt "chat" = some selectedChat ∧
        ∀ m ∈ prev, m.oidAt "_id" ≠ message.oidAt "_id")) ∧
    handleReceiveMessage selectedChat (handleReceiveMessage selectedChat prev message) message
      = handleReceiveMessage selectedChat prev message ∧
    ((prev.map (fun m => m.oidAt "_id")).Nodup →
      ((handleReceiveMessage selectedChat prev message).map (fun m => m.oidAt "_id")).Nodup) := by
  have hlen : prev ≠ prev ++ [message] := by
    intro h
    have := congrArg List.length h
    simp at this
  by_cases hchat : message.oidAt "chat" = some selectedChat
  · by_cases hnew : ∀ m ∈ prev, m.oidAt "_id" ≠ message.oidAt "_id"
    · have happ := handleReceiveMessage_append selectedChat prev message hchat hnew
      refine ⟨Or.inr happ, ⟨fun _ => ⟨hchat, hnew⟩, fun _ => happ⟩, ?_, ?_⟩
      · rw [happ]
        exact handleReceiveMessage_present selectedChat _ message message
          (List.mem_append_right _ (List.mem_singleton.mpr rfl)) rfl
      · intro hnodup
        rw [happ, List.map_append, List.map_singleton]
        refine List.Nodup.append hnodup (List.nodup_singleton _) ?_
        intro x hx hx1
        rw [List.mem_singleton] at hx1
        obtain ⟨m, hm, hmx⟩ := List.mem_map.mp hx
        exact hnew m hm (hmx.trans hx1)
    · have hex : ∃ m ∈ prev, m.oidAt "_id" = message.oidAt "_id" := by
        by_contra hcon
        apply hnew
        intro m hm heq
        exact hcon ⟨m, hm, heq⟩
      obtain ⟨m, hm, hid⟩ := hex
      have hsame := handleReceiveMessage_present selectedChat prev message m hm hid
      refine ⟨Or.inl hsame, ⟨fun h => ?_, fun h => absurd h.2 hnew⟩, ?_, ?_⟩
      · rw [hsame] at h
        exact absurd h hlen
      · rw [hsame, hsame]
      · intro hnodup
        rw [hsame]
        exact hnodup
  · have hsame := handleReceiveMessage_other_chat selectedChat prev message hchat
    refine ⟨Or.inl hsame, ⟨fun h => ?_, fun h => absurd h.1 hchat⟩, ?_, ?_⟩
    · rw [hsame] at h
      exact absurd h hlen
    · rw [hsame, hsame]
    · intro hnodup
      rw [hsame]
      exact hnodup

/-- In the demo, message 100 of chat 1 is appended once; a second copy, a message already
listed and a message of another chat change nothing. -/
theorem handleReceiveMessage_demo :
    (handleReceiveMessage 1 demoClient.messages demoMessage).length = 2 ∧
    (handleReceiveMessage 1 (handleReceiveMessage 1 demoClient.messages demoMessage)
      demoMessage).length = 2 ∧
    (handleReceiveMessage 1 demoClient.messages
      [("_id", JsValue.oid 101), ("chat", JsValue.oid 1)]).length = 1 ∧
    (handleReceiveMessage 2 demoClient.messages demoMessage).length = 1 := by
  decide

/-! ## The client: sending a message -/

theorem handleSendMessageStart_ready (st : ClientState) (chatId : Id)
    (hchat : st.selectedChat = some chatId)
    (hdraft : isBlank st.newMessage = false)
    (hidle : st.sending = false) :
    handleSendMessageStart st
      = some ({ st with sending := true, newMessage := [] }, chatId, jsTrim st.newMessage) := by
  have hne : jsTrim st.newMessage ≠ [] := by
    intro hc
    rw [(jsTrim_eq_nil_iff st.newMessage).mp hc] at hdraft
    exact absurd hdraft (by decide)
  have hempty : (jsTrim st.newMessage).isEmpty = false := by
    cases h : jsTrim st.newMessage with
    | nil => exact absurd h hne
    | cons x xs => rfl
  simp only [handleSendMessageStart, hchat, hempty, hidle]
  rfl

/-- C26: on a failed send the draft is lost. When a chat is selected, the draft is not
blank and no send is under way, `handleSendMessage` issues the POST from a state whose
input is already empty and whose `sending` flag is set; when the POST then fails, the
input is empty, the message list and the events emitted on the socket are as before the
call, the failure is alerted and `sending` is back to false. -/
theorem handleSendMessage_failure (st : ClientState)
    (post : Id → JsString → Option JsObject) (chatId : Id)
    (hchat : st.selectedChat = some chatId)
    (hdraft : isBlank st.newMessage = false)
    (hidle : st.sending = false)
    (hfail : post chatId (jsTrim st.newMessage) = none) :
    (∃ st1, handleSendMessageStart st = some (st1, chatId, jsTrim st.newMessage) ∧
      st1.newMessage = [] ∧ st1.sending = true ∧ st1.messages = st.messages) ∧
    (handleSendMessage st post).newMessage = [] ∧
    (handleSendMessage st post).messages = st.messages ∧
    (handleSendMessage st post).emitted = st.emitted ∧
    (handleSendMessage st post).sending = false ∧
    (handleSendMessage st post).alerts = st.alerts ++ ["Failed to send message"] ∧
    (handleSendMessage st post).fetchChats = st.fetchChats := by
  have hstart := handleSendMessageStart_ready st chatId hchat hdraft hidle
  refine ⟨⟨_, hstart, rfl, rfl, rfl⟩, ?_⟩
  simp only [handleSendMessage, hstart, hfail, handleSendMessageSettle]
  exact ⟨trivial, trivial, trivial, trivial, trivial, trivial⟩

theorem handleSendMessage_failure_witness :
    demoClient.selectedChat = some 1 ∧
    isBlank demoClient.newMessage = false ∧
    demoClient.sending = false ∧
    (fun (_ : Id) (_ : JsString) => (none : Option JsObject)) 1 (jsTrim demoClient.newMessage)
      = none ∧
    (∃ st1, handleSendMessageStart demoClient = some (st1, 1, jsTrim demoClient.newMessage) ∧
      st1.newMessage = [] ∧ st1.sending = true ∧ st1.messages = demoClient.messages) ∧
    (handleSendMessage demoClient (fun _ _ => none)).newMessage = [] ∧
    (handleSendMessage demoClient (fun _ _ => none)).messages = demoClient.messages ∧
    (handleSendMessage demoClient (fun _ _ => none)).emitted = demoClient.emitted ∧
    (handleSendMessage demoClient (fun _ _ => none)).sending = false ∧
    (handleSendMessage demoClient (fun _ _ => none)).alerts
      = demoClient.alerts ++ ["Failed to send message"] ∧
    (handleSendMessage demoClient (fun _ _ => none)).fetchChats = demoClient.fetchChats :=
  ⟨rfl, by decide, rfl, rfl,
    handleSendMessage_failure demoClient (fun _ _ => none) 1 rfl (by decide) rfl rfl⟩

theorem handleSendMessage_success (st : ClientState)
    (post : Id → JsString → Option JsObject) (chatId : Id) (message : JsObject)
    (hchat : st.selectedChat = some chatId)
    (hdraft : isBlank st.newMessage = false)
    (hidle : st.sending = false)
    (hsocket : st.socket = true)
    (hpost : post chatId (jsTrim st.newMessage) = some message) :
    (handleSendMessage st post).messages = st.messages ++ [message] ∧
    (handleSendMessage st post).emitted
      = st.emitted ++ [ClientEvent.send_message chatId message, ClientEvent.stop_typing chatId] ∧
    (handleSendMessage st post).newMessage = [] ∧
    (handleSendMessage st post).sending = false := by
  have hstart := handleSendMessageStart_ready st chatId hchat hdraft hidle
  simp [handleSendMessage, hstart, hpost, handleSendMessageSettle, hsocket]

/-- C27: the sender's own view shows a sent message exactly once. When the POST answers
with a stored message whose `_id` is not yet listed, the page appends it and emits
`send_message` with it; the relay, the sender's socket being in the chat's room, hands
`receive_message` back to that socket; merging that payload leaves the list as it is, and
the list holds exactly one entry with that `_id`. -/
theorem own_message_shown_once (st : ClientState)
    (post : Id → JsString → Option JsObject) (chatId mid : Id) (message : JsObject)
    (r : Relay) (sock : Nat) (emitter : Socket)
    (hchat : st.selectedChat = some chatId)
    (hdraft : isBlank st.newMessage = false)
    (hidle : st.sending = false)
    (hsocket : st.socket = true)
    (hpost : post chatId (jsTrim st.newMessage) = some message)
    (hmid : message.oidAt "_id" = some mid)
    (hnew : ∀ m ∈ st.messages, m.oidAt "_id" ≠ some mid)
    (hconn : r.sockets.find? (fun c => c.id == sock) = some emitter)
    (hroom : chatId ∈ emitter.rooms) :
    (handleSendMessage st post).messages = st.messages ++ [message] ∧
    ClientEvent.send_message chatId message ∈ (handleSendMessage st post).emitted ∧
    (∃ d ∈ (Relay.on r sock (ClientEvent.send_message chatId message)).2, d.socket = sock) ∧
    (∀ d ∈ (Relay.on r sock (ClientEvent.send_message chatId message)).2,
      ∀ payload, d.event = ServerEvent.receive_message payload →
        handleReceiveMessage chatId (handleSendMessage st post).messages payload
          = (handleSendMessage st post).messages) ∧
    ((handleSendMessage st post).messages.filter
      (fun m => m.oidAt "_id" == some mid)).length = 1 := by
  obtain ⟨hmsgs, hemit, _, _⟩ :=
    handleSendMessage_success st post chatId message hchat hdraft hidle hsocket hpost
  have hon : Relay.on r sock (ClientEvent.send_message chatId message)
      = (r, ioToEmit r chatId
          (ServerEvent.receive_message (message.spreadWith "sender" (senderOf emitter)))) := by
    simp only [Relay.on, hconn]
  obtain ⟨hemem, heid⟩ := connected_socket hconn
  have hpid : (message.spreadWith "sender" (senderOf emitter)).oidAt "_id"
      = message.oidAt "_id" := by
    unfold JsObject.oidAt
    rw [get_spreadWith_other message "sender" "_id" (senderOf emitter) (by decide)]
  refine ⟨hmsgs, ?_, ?_, ?_, ?_⟩
  · rw [hemit]
    exact List.mem_append_right _ (List.mem_cons_self _ _)
  · rw [hon]
    exact ⟨⟨emitter.id, _⟩, (mem_ioToEmit r chatId _ _).mpr ⟨emitter, hemem, hroom, rfl⟩, heid⟩
  · intro d hd payload hpayload
    rw [hon] at hd
    obtain ⟨c, _, _, hdc⟩ := (mem_ioToEmit r chatId _ _).mp hd
    rw [hdc] at hpayload
    have hp : payload = message.spreadWith "sender" (senderOf emitter) := by
      injection hpayload with h
      exact h.symm
    rw [hmsgs, hp]
    exact handleReceiveMessage_present chatId _ _ message
      (List.mem_append_right _ (List.mem_singleton.mpr rfl)) hpid.symm
  · rw [hmsgs, List.filter_append]
    have h0 : st.messages.filter (fun m => m.oidAt "_id" == some mid) = [] := by
      rw [List.filter_eq_nil_iff]
      intro m hm
      simpa using hnew m hm
    rw [h0]
    simp [hmid]

theorem own_message_shown_once_witness :
    demoClient.selectedChat = some 1 ∧
    isBlank demoClient.newMessage = false ∧
    demoClient.sending = false ∧
    demoClient.socket = true ∧
    (fun (_ : Id) (_ : JsString) => some demoMessage) 1 (jsTrim demoClient.newMessage)
      = some demoMessage ∧
    demoMessage.oidAt "_id" = some 100 ∧
    (∀ m ∈ demoClient.messages, m.oidAt "_id" ≠ some 100) ∧
    demoRelay.sockets.find? (fun c => c.id == 1) = some ⟨1, 10, [65], [10, 1]⟩ ∧
    (1 : Id) ∈ (⟨1, 10, [65], [10, 1]⟩ : Socket).rooms ∧
    (handleSendMessage demoClient (fun _ _ => some demoMessage)).messages
      = demoClient.messages ++ [demoMessage] ∧
    ClientEvent.send_message 1 demoMessage
      ∈ (handleSendMessage demoClient (fun _ _ => some demoMessage)).emitted ∧
    (∃ d ∈ (Relay.on demoRelay 1 (ClientEvent.send_message 1 demoMessage)).2, d.socket = 1) ∧
    (∀ d ∈ (Relay.on demoRelay 1 (ClientEvent.send_message 1 demoMessage)).2,
      ∀ payload, d.event = ServerEvent.receive_message payload →
        handleReceiveMessage 1
            (handleSendMessage demoClient (fun _ _ => some demoMessage)).messages payload
          = (handleSendMessage demoClient (fun _ _ => some demoMessage)).messages) ∧
    ((handleSendMessage demoClient (fun _ _ => some demoMessage)).messages.filter
      (fun m => m.oidAt "_id" == some 100)).length = 1 :=
  ⟨rfl, by decide, rfl, rfl, rfl, by decide, by decide, by decide, by decide,
    own_message_shown_once demoClient (fun _ _ => some demoMessage) 1 100 demoMessage
      demoRelay 1 ⟨1, 10, [65], [10, 1]⟩ rfl (by decide) rfl rfl rfl (by decide)
      (by decide) (by decide) (by decide)⟩

/-! ## The client: the typing debounce -/

theorem tidy_init : TypingState.init.Tidy :=
  ⟨Nat.one_pos, Or.inl rfl⟩

theorem tidy_runTimers (st : TypingState) (now : Nat) (h : st.Tidy) :
    (runTimers st now).Tidy := by
  refine ⟨h.1, ?_⟩
  rcases h.2 with h0 | ⟨tm, htm, href, hid⟩
  · left
    simp [runTimers, h0]
  · by_cases hdue : now < tm.due
    · right
      exact ⟨tm, by simp [runTimers, htm, hdue], href, hid⟩
    · left
      simp [runTimers, htm, hdue]

/-- A keystroke with a socket and a chat selected emits `typing` and leaves exactly one
pending timer, the new one, due 2000 ms later. -/
theorem handleTyping_tidy (st : TypingState) (now : Nat) (chatId : Id) (h : st.Tidy) :
    (handleTyping st now true (some chatId)).emitted
      = st.emitted ++ [(now, ClientEvent.typing chatId)] ∧
    (handleTyping st now true (some chatId)).timers
      = [⟨st.nextTimerId, now + 2000, chatId⟩] ∧
    (handleTyping st now true (some chatId)).typingTimeoutRef = some st.nextTimerId ∧
    (handleTyping st now true (some chatId)).nextTimerId = st.nextTimerId + 1 := by
  refine ⟨rfl, ?_, rfl, rfl⟩
  rcases h.2 with h0 | ⟨tm, htm, href, hid⟩
  · simp only [handleTyping, h0, clearTimeout]
    cases st.typingTimeoutRef with
    | none => rfl
    | some handle => by_cases hh : handle = 0 <;> simp [hh]
  · have hne : (tm.id != 0) = true := by simpa using hid
    simp [handleTyping, htm, href, clearTimeout, hne]

theorem tidy_handleTyping (st : TypingState) (now : Nat) (socket : Bool)
    (selectedChat : Option Id) (h : st.Tidy) :
    (handleTyping st now socket selectedChat).Tidy := by
  cases socket with
  | false => simpa [handleTyping] using h
  | true =>
    cases selectedChat with
    | none => simpa [handleTyping] using h
    | some chatId =>
      obtain ⟨_, htimers, href, hnext⟩ := handleTyping_tidy st now chatId h
      refine ⟨by rw [hnext]; exact Nat.succ_pos _, Or.inr ⟨_, htimers, href, ?_⟩⟩
      exact Nat.pos_iff_ne_zero.mp h.1

theorem tidy_runTyping (steps : List TypingStep) :
    ∀ st : TypingState, st.Tidy → (runTyping st steps).Tidy := by
  induction steps with
  | nil => intro st h; exact h
  | cons step steps ih =>
    intro st h
    apply ih
    cases step with
    | keystroke now socket selectedChat =>
      exact tidy_handleTyping _ now socket selectedChat (tidy_runTimers st now h)
    | wait now => exact tidy_runTimers st now h

theorem tidy_length (st : TypingState) (h : st.Tidy) : st.timers.length ≤ 1 := by
  rcases h.2 with h0 | ⟨tm, htm, _, _⟩
  · rw [h0]; exact Nat.zero_le 1
  · rw [htm]; exact Nat.le_refl 1

/-- A burst going on: while each keystroke comes less than 2000 ms after the one before,
no timer runs, and after the burst the only pending timer is due 2000 ms after its last
keystroke. -/
theorem burst_keeps_one_timer (chatId : Id) :
    ∀ (rest : List Nat) (st : TypingState) (t handle : Nat),
      st.timers = [⟨handle, t + 2000, chatId⟩] → st.typingTimeoutRef = some handle →
      handle ≠ 0 → 0 < st.nextTimerId →
      List.Chain (fun a b => a ≤ b ∧ b < a + 2000) t rest →
      ∃ last, (runTyping st (keystrokesAt chatId rest)).timers
          = [⟨last, lastKeystroke t rest + 2000, chatId⟩] ∧
        (runTyping st (keystrokesAt chatId rest)).emitted
          = st.emitted ++ rest.map (fun k => (k, ClientEvent.typing chatId)) := by
  intro rest
  induction rest with
  | nil =>
    intro st t handle htimers _ _ _ _
    exact ⟨handle, htimers, by simp [keystrokesAt, runTyping]⟩
  | cons k ks ih =>
    intro st t handle htimers href hid hnext hchain
    obtain ⟨hk, hrest⟩ := List.chain_cons.mp hchain
    have hkeep : k < t + 2000 := hk.2
    have hnot : ¬ t + 2000 ≤ k := Nat.not_le.mpr hkeep
    have hrun : runTimers st k = st := by
      cases st with
      | mk ref timers next emitted =>
        simp only at htimers
        simp [runTimers, htimers, hkeep, hnot]
    have htidy : st.Tidy := ⟨hnext, Or.inr ⟨_, htimers, href, hid⟩⟩
    obtain ⟨hemit, htm, href1, hnext1⟩ := handleTyping_tidy st k chatId htidy
    have hstep : runTyping st (keystrokesAt chatId (k :: ks))
        = runTyping (handleTyping st k true (some chatId)) (keystrokesAt chatId ks) := by
      simp [keystrokesAt, runTyping, TypingStep.apply, hrun]
    obtain ⟨last, hl1, hl2⟩ := ih (handleTyping st k true (some chatId)) k st.nextTimerId
      htm href1 (Nat.pos_iff_ne_zero.mp hnext) (by rw [hnext1]; exact Nat.succ_pos _) hrest
    rw [hstep]
    refine ⟨last, hl1, ?_⟩
    rw [hl2, hemit]
    simp

/-- C23: the typing debounce, with times in milliseconds and each timer running at its
due time. Every keystroke with a socket and an active chat emits `typing` and leaves the
new 2000 ms timer as the only pending one; whatever the keystrokes and waits, at most one
stop timer is pending; and for a burst of keystrokes each less than 2000 ms after the one
before, what is emitted up to any time at least 2000 ms after the last keystroke is one
`typing` per keystroke and then exactly one `stop_typing`, 2000 ms after the last
keystroke, with no timer left pending. -/
theorem typing_debounce (chatId : Id) (t0 : Nat) (rest : List Nat) (later : Nat)
    (hburst : List.Chain (fun a b => a ≤ b ∧ b < a + 2000) t0 rest)
    (hlater : lastKeystroke t0 rest + 2000 ≤ later) :
    (∀ (steps : List TypingStep) (now : Nat),
      (handleTyping (runTyping TypingState.init steps) now true (some chatId)).emitted
        = (runTyping TypingState.init steps).emitted ++ [(now, ClientEvent.typing chatId)] ∧
      (handleTyping (runTyping TypingState.init steps) now true (some chatId)).timers
        = [⟨(runTyping TypingState.init steps).nextTimerId, now + 2000, chatId⟩]) ∧
    (∀ steps : List TypingStep, (runTyping TypingState.init steps).timers.length ≤ 1) ∧
    (runTyping TypingState.init
        (keystrokesAt chatId (t0 :: rest) ++ [TypingStep.wait later])).emitted
      = (t0 :: rest).map (fun k => (k, ClientEvent.typing chatId))
          ++ [(lastKeystroke t0 rest + 2000, ClientEvent.stop_typing chatId)] ∧
    (runTyping TypingState.init
        (keystrokesAt chatId (t0 :: rest) ++ [TypingStep.wait later])).timers = [] := by
  refine ⟨?_, ?_, ?_⟩
  · intro steps now
    obtain ⟨h1, h2, _, _⟩ := handleTyping_tidy (runTyping TypingState.init steps) now chatId
      (tidy_runTyping steps _ tidy_init)
    exact ⟨h1, h2⟩
  · intro steps
    exact tidy_length _ (tidy_runTyping steps _ tidy_init)
  · have hfirst : runTyping TypingState.init (keystrokesAt chatId (t0 :: rest))
        = runTyping (handleTyping TypingState.init t0 true (some chatId))
            (keystrokesAt chatId rest) := by
      simp [keystrokesAt, runTyping, TypingStep.apply, runTimers, TypingState.init]
    obtain ⟨hemit, htm, href, hnext⟩ := handleTyping_tidy TypingState.init t0 chatId tidy_init
    obtain ⟨last, hl1, hl2⟩ := burst_keeps_one_timer chatId rest
      (handleTyping TypingState.init t0 true (some chatId)) t0 TypingState.init.nextTimerId
      htm href (by decide) (by rw [hnext]; exact Nat.succ_pos _) hburst
    have hsplit : runTyping TypingState.init
          (keystrokesAt chatId (t0 :: rest) ++ [TypingStep.wait later])
        = runTimers (runTyping (handleTyping TypingState.init t0 true (some chatId))
            (keystrokesAt chatId rest)) later := by
      rw [← hfirst]
      simp [runTyping, List.foldl_append, TypingStep.apply]
    have hnot : ¬ later < lastKeystroke t0 rest + 2000 := Nat.not_lt.mpr hlater
    rw [hsplit]
    constructor
    · simp only [runTimers, hl1, hl2, hemit]
      simp [hlater, TypingState.init]
    · simp only [runTimers, hl1]
      simp [hnot]

theorem typing_debounce_witness :
    List.Chain (fun a b => a ≤ b ∧ b < a + 2000) 0 [500, 2400] ∧
    lastKeystroke 0 [500, 2400] + 2000 ≤ 5000 ∧
    (∀ (steps : List TypingStep) (now : Nat),
      (handleTyping (runTyping TypingState.init steps) now true (some 1)).emitted
        = (runTyping TypingState.init steps).emitted ++ [(now, ClientEvent.typing 1)] ∧
      (handleTyping (runTyping TypingState.init steps) now true (some 1)).timers
        = [⟨(runTyping TypingState.init steps).nextTimerId, now + 2000, 1⟩]) ∧
    (∀ steps : List TypingStep, (runTyping TypingState.init steps).timers.length ≤ 1) ∧
    (runTyping TypingState.init
        (keystrokesAt 1 (0 :: [500, 2400]) ++ [TypingStep.wait 5000])).emitted
      = (0 :: [500, 2400]).map (fun k => (k, ClientEvent.typing 1))
          ++ [(lastKeystroke 0 [500, 2400] + 2000, ClientEvent.stop_typing 1)] ∧
    (runTyping TypingState.init
        (keystrokesAt 1 (0 :: [500, 2400]) ++ [TypingStep.wait 5000])).timers = [] :=
  have hburst : List.Chain (fun a b => a ≤ b ∧ b < a + 2000) 0 [500, 2400] :=
    List.Chain.cons ⟨by decide, by decide⟩
      (List.Chain.cons ⟨by decide, by decide⟩ List.Chain.nil)
  ⟨hburst, by decide, typing_debounce 1 0 [500, 2400] 5000 hburst (by decide)⟩

/-- Three keystrokes at 0, 500 and 2400 ms: three `typing` and one `stop_typing` at
4400 ms. With a pause of 2000 ms or more between keystrokes the timer runs in between. -/
theorem typing_debounce_demo :
    (runTyping TypingState.init
        (keystrokesAt 1 [0, 500, 2400] ++ [TypingStep.wait 5000])).emitted.map
      (fun e => e.1) = [0, 500, 2400, 4400] ∧
    (runTyping TypingState.init
        (keystrokesAt 1 [0, 2000] ++ [TypingStep.wait 5000])).emitted.map
      (fun e => e.1) = [0, 2000, 2000, 4000] := by
  decide

/-! ## Swap requests: updating the status -/

theorem swapRequest_findById_id {s : SwapStore} {id : Id} {r : SwapRequest}
    (h : SwapRequest.findById s id = some r) : r.id = id := by
  have := List.find?_some h
  simpa using this

theorem withStatus_validate (r : SwapRequest) (t : String) (now : Nat)
    (hvalid : r.validate = true)
    (ht : t = "accepted" ∨ t = "rejected" ∨ t = "completed") :
    (r.withStatus t now).validate = true := by
  simp only [SwapRequest.validate, Bool.and_eq_true] at hvalid
  obtain ⟨⟨⟨h1, h2⟩, h3⟩, _⟩ := hvalid
  simp only [SwapRequest.validate, SwapRequest.withStatus, Bool.and_eq_true]
  refine ⟨⟨⟨h1, h2⟩, h3⟩, ?_⟩
  rcases ht with h | h | h <;> rw [h] <;> decide

theorem update_guard_passes (t : String)
    (ht : t = "accepted" ∨ t = "rejected" ∨ t = "completed") :
    (t.isEmpty || !(["accepted", "rejected", "completed"].contains t)) = false := by
  rcases ht with h | h | h <;> rw [h] <;> decide

/-- The first authorisation test of `updateSwapRequest` fails the caller exactly when the
target is accepted or rejected and the caller is not the recipient. -/
theorem update_test_recipient (t : String) (requester : Id) (r : SwapRequest)
    (ht : t = "accepted" ∨ t = "rejected" ∨ t = "completed") :
    ((t == "accepted" || t == "rejected") && r.toUser != requester)
      = (!(t == "completed") && !authorisedFor t requester r) := by
  rcases ht with h | h | h <;> subst h <;> simp [authorisedFor, bne]

/-- The second authorisation test fails the caller exactly when the target is completed
and the caller is neither the sender nor the recipient. -/
theorem update_test_party (t : String) (requester : Id) (r : SwapRequest)
    (ht : t = "accepted" ∨ t = "rejected" ∨ t = "completed") :
    (t == "completed" && r.fromUser != requester && r.toUser != requester)
      = (t == "completed" && !authorisedFor t requester r) := by
  rcases ht with h | h | h <;> subst h <;> simp [authorisedFor, bne]

/-- What `updateSwapRequest` does when the target status is valid, the request exists and
the caller passes both authorisation tests. -/
theorem updateSwapRequest_pass (s : SwapStore) (id requester : Id) (now : Nat)
    (r : SwapRequest) (t : String)
    (hfind : SwapRequest.findById s id = some r)
    (hvalid : r.validate = true)
    (ht : t = "accepted" ∨ t = "rejected" ∨ t = "completed")
    (hauth : authorisedFor t requester r = true) :
    (updateSwapRequest s id requester (some t) now).status = 200 ∧
    (updateSwapRequest s id requester (some t) now).body = some (r.withStatus t now) ∧
    (updateSwapRequest s id requester (some t) now).store.swapRequests
      = replaceFirst (fun x => x.id == r.id) (r.withStatus t now) s.swapRequests ∧
    (updateSwapRequest s id requester (some t) now).store.users = s.users ∧
    (updateSwapRequest s id requester (some t) now).store.nextId = s.nextId := by
  have hv := withStatus_validate r t now hvalid ht
  simp only [updateSwapRequest, update_guard_passes t ht, hfind,
    update_test_recipient t requester r ht, update_test_party t requester r ht, hauth, hv]
  simp
  rfl

/-- What `updateSwapRequest` answers when the caller fails the authorisation test. -/
theorem updateSwapRequest_forbidden (s : SwapStore) (id requester : Id) (now : Nat)
    (r : SwapRequest) (t : String)
    (hfind : SwapRequest.findById s id = some r)
    (ht : t = "accepted" ∨ t = "rejected" ∨ t = "completed")
    (hauth : authorisedFor t requester r = false) :
    updateSwapRequest s id requester (some t) now = ⟨403, none, s⟩ := by
  simp only [updateSwapRequest, update_guard_passes t ht, hfind,
    update_test_recipient t requester r ht, update_test_party t requester r ht, hauth]
  rcases ht with h | h | h <;> subst h <;> simp

/-- Every answer of `updateSwapRequest` other than 200 leaves the store as it was. -/
theorem updateSwapRequest_refused (s : SwapStore) (id requester : Id)
    (status : Option String) (now : Nat) :
    (updateSwapRequest s id requester status now).status = 200 ∨
    (updateSwapRequest s id requester status now).store = s := by
  unfold updateSwapRequest
  split
  · exact Or.inr rfl
  · split
    · exact Or.inr rfl
    · split
      · exact Or.inr rfl
      · split
        · exact Or.inr rfl
        · split
          · exact Or.inr rfl
          · dsimp only
            split
            · exact Or.inr rfl
            · exact Or.inl rfl

/-- C24: `updateSwapRequest` on an existing (schema-valid) request. A target of accepted
or rejected is answered 200 if and only if the caller is the request's recipient; a target
of completed is answered 200 if and only if the caller is the request's sender or its
recipient; a missing status or one outside accepted, rejected, completed is answered 400;
and whenever the answer is not 200 the store, hence the stored request, is unchanged. -/
theorem updateSwapRequest_authorisation (s : SwapStore) (id requester : Id) (now : Nat)
    (r : SwapRequest)
    (hfind : SwapRequest.findById s id = some r)
    (hvalid : r.validate = true) :
    (∀ t, t = "accepted" ∨ t = "rejected" →
      ((updateSwapRequest s id requester (some t) now).status = 200 ↔
        requester = r.toUser)) ∧
    ((updateSwapRequest s id requester (some "completed") now).status = 200 ↔
      (requester = r.fromUser ∨ requester = r.toUser)) ∧
    (∀ status, (∀ t, status = some t → t ≠ "accepted" ∧ t ≠ "rejected" ∧ t ≠ "completed") →
      (updateSwapRequest s id requester status now).status = 400) ∧
    (∀ status, (updateSwapRequest s id requester status now).status ≠ 200 →
      (updateSwapRequest s id requester status now).store = s ∧
      SwapRequest.findById (updateSwapRequest s id requester status now).store id = some r) := by
  refine ⟨?_, ?_, ?_, ?_⟩
  · intro t ht
    have ht3 : t = "accepted" ∨ t = "rejected" ∨ t = "completed" := by
      rcases ht with h | h
      · exact Or.inl h
      · exact Or.inr (Or.inl h)
    have hauth : authorisedFor t requester r = true ↔ r.toUser = requester := by
      rcases ht with h | h <;> subst h <;> simp [authorisedFor]
    by_cases hreq : r.toUser = requester
    · have ha : authorisedFor t requester r = true := hauth.mpr hreq
      exact ⟨fun _ => hreq.symm,
        fun _ => (updateSwapRequest_pass s id requester now r t hfind hvalid ht3 ha).1⟩
    · have ha : authorisedFor t requester r = false :=
        Bool.eq_false_iff.mpr (fun h => hreq (hauth.mp h))
      rw [updateSwapRequest_forbidden s id requester now r t hfind ht3 ha]
      exact ⟨fun h => by simp at h, fun h => absurd h.symm hreq⟩
  · have ht3 : ("completed" : String) = "accepted" ∨ ("completed" : String) = "rejected" ∨
        ("completed" : String) = "completed" := Or.inr (Or.inr rfl)
    have hauth : authorisedFor "completed" requester r = true ↔
        (r.fromUser = requester ∨ r.toUser = requester) := by
      simp [authorisedFor]
    by_cases hreq : r.fromUser = requester ∨ r.toUser = requester
    · have ha : authorisedFor "completed" requester r = true := hauth.mpr hreq
      refine ⟨fun _ => ?_,
        fun _ => (updateSwapRequest_pass s id requester now r _ hfind hvalid ht3 ha).1⟩
      rcases hreq with h | h
      · exact Or.inl h.symm
      · exact Or.inr h.symm
    · have ha : authorisedFor "completed" requester r = false :=
        Bool.eq_false_iff.mpr (fun h => hreq (hauth.mp h))
      rw [updateSwapRequest_forbidden s id requester now r _ hfind ht3 ha]
      refine ⟨fun h => by simp at h, fun h => absurd ?_ hreq⟩
      rcases h with h | h
      · exact Or.inl h.symm
      · exact Or.inr h.symm
  · intro status hout
    cases status with
    | none => rfl
    | some t =>
      obtain ⟨h1, h2, h3⟩ := hout t rfl
      have hguard : (t.isEmpty || !(["accepted", "rejected", "completed"].contains t)) = true := by
        simp [h1, h2, h3]
      simp only [updateSwapRequest, hguard]
      rfl
  · intro status hne
    rcases updateSwapRequest_refused s id requester status now with h | h
    · exact absurd h hne
    · rw [h]
      exact ⟨rfl, hfind⟩

theorem updateSwapRequest_authorisation_witness :
    SwapRequest.findById demoSwaps 1
      = some ⟨1, 10, 11, [99], [106], [], "pending", none, none, 5⟩ ∧
    (⟨1, 10, 11, [99], [106], [], "pending", none, none, 5⟩ : SwapRequest).validate = true ∧
    (∀ t, t = "accepted" ∨ t = "rejected" →
      ((updateSwapRequest demoSwaps 1 10 (some t) 20).status = 200 ↔
        (10 : Id) = (⟨1, 10, 11, [99], [106], [], "pending", none, none, 5⟩ : SwapRequest).toUser)) ∧
    ((updateSwapRequest demoSwaps 1 10 (some "completed") 20).status = 200 ↔
      ((10 : Id) = (⟨1, 10, 11, [99], [106], [], "pending", none, none, 5⟩ : SwapRequest).fromUser ∨
        (10 : Id) = (⟨1, 10, 11, [99], [106], [], "pending", none, none, 5⟩ : SwapRequest).toUser)) ∧
    (∀ status, (∀ t, status = some t → t ≠ "accepted" ∧ t ≠ "rejected" ∧ t ≠ "completed") →
      (updateSwapRequest demoSwaps 1 10 status 20).status = 400) ∧
    (∀ status, (updateSwapRequest demoSwaps 1 10 status 20).status ≠ 200 →
      (updateSwapRequest demoSwaps 1 10 status 20).store = demoSwaps ∧
      SwapRequest.findById (updateSwapRequest demoSwaps 1 10 status 20).store 1
        = some ⟨1, 10, 11, [99], [106], [], "pending", none, none, 5⟩) :=
  ⟨by decide, by decide,
    updateSwapRequest_authorisation demoSwaps 1 10 20
      ⟨1, 10, 11, [99], [106], [], "pending", none, none, 5⟩ (by decide) (by decide)⟩

/-- In the demo, the sender 10 of request 1 may complete it but not accept it, the
recipient 11 may accept it, user 12 may do neither, and "pending" is no valid target. -/
theorem updateSwapRequest_demo :
    (updateSwapRequest demoSwaps 1 10 (some "accepted") 20).status = 403 ∧
    (updateSwapRequest demoSwaps 1 10 (some "completed") 20).status = 200 ∧
    (updateSwapRequest demoSwaps 1 11 (some "accepted") 20).status = 200 ∧
    (updateSwapRequest demoSwaps 1 12 (some "completed") 20).status = 403 ∧
    (updateSwapRequest demoSwaps 1 11 (some "pending") 20).status = 400 ∧
    (updateSwapRequest demoSwaps 9 11 (some "accepted") 20).status = 404 := by
  decide

/-- C29: `updateSwapRequest` does not look at the current status. For every existing
(schema-valid) request, whichever of the four statuses it has, and every target among
accepted, rejected, completed asked for by a caller authorised for it, the answer is 200
and the stored request then has the target status, its parties unchanged; and no answer
of 200, from any store, leaves the updated request pending. -/
theorem updateSwapRequest_ignores_current (s : SwapStore) (id requester : Id) (now : Nat)
    (r : SwapRequest) (t : String)
    (hfind : SwapRequest.findById s id = some r)
    (hvalid : r.validate = true)
    (ht : t = "accepted" ∨ t = "rejected" ∨ t = "completed")
    (hauth : authorisedFor t requester r = true) :
    (updateSwapRequest s id requester (some t) now).status = 200 ∧
    (∃ updated,
      (updateSwapRequest s id requester (some t) now).body = some updated ∧
      SwapRequest.findById (updateSwapRequest s id requester (some t) now).store id
        = some updated ∧
      updated.status = t ∧ updated.id = r.id ∧ updated.fromUser = r.fromUser ∧
      updated.toUser = r.toUser) ∧
    (∀ (s1 : SwapStore) (id1 requester1 : Id) (status1 : Option String) (now1 : Nat),
      (updateSwapRequest s1 id1 requester1 status1 now1).status = 200 →
      ∃ updated,
        (updateSwapRequest s1 id1 requester1 status1 now1).body = some updated ∧
        SwapRequest.findById (updateSwapRequest s1 id1 requester1 status1 now1).store id1
          = some updated ∧
        updated.status ≠ "pending" ∧
        (updated.status = "accepted" ∨ updated.status = "rejected" ∨
          updated.status = "completed")) := by
  have hstored : ∀ (s1 : SwapStore) (id1 : Id) (r1 : SwapRequest) (t1 : String) (now1 : Nat),
      SwapRequest.findById s1 id1 = some r1 →
      (replaceFirst (fun x => x.id == r1.id) (r1.withStatus t1 now1) s1.swapRequests).find?
        (fun x => x.id == id1) = some (r1.withStatus t1 now1) := by
    intro s1 id1 r1 t1 now1 h1
    have hid : r1.id = id1 := swapRequest_findById_id h1
    have hsome : (s1.swapRequests.find? (fun x => x.id == id1)).isSome = true := by
      have : s1.swapRequests.find? (fun x => x.id == id1) = some r1 := h1
      rw [this]; rfl
    rw [hid]
    exact find?_replaceFirst (fun x : SwapRequest => x.id == id1) (r1.withStatus t1 now1)
      (by simp [SwapRequest.withStatus, hid]) s1.swapRequests hsome
  obtain ⟨h200, hbody, hreqs, _, _⟩ :=
    updateSwapRequest_pass s id requester now r t hfind hvalid ht hauth
  refine ⟨h200, ⟨r.withStatus t now, hbody, ?_, rfl, rfl, rfl, rfl⟩, ?_⟩
  · unfold SwapRequest.findById
    rw [hreqs]
    exact hstored s id r t now hfind
  · intro s1 id1 requester1 status1 now1 hok
    cases status1 with
    | none => simp [updateSwapRequest] at hok
    | some t1 =>
      cases hg : (t1.isEmpty || !(["accepted", "rejected", "completed"].contains t1)) with
      | true =>
        simp only [updateSwapRequest, hg] at hok
        simp at hok
      | false =>
        have ht1 : t1 = "accepted" ∨ t1 = "rejected" ∨ t1 = "completed" := by
          have hc : (["accepted", "rejected", "completed"].contains t1) = true := by
            cases hcc : (["accepted", "rejected", "completed"].contains t1) with
            | true => rfl
            | false =>
              rw [hcc, Bool.not_false, Bool.or_true] at hg
              exact absurd hg (by decide)
          simpa using hc
        cases hfind1 : SwapRequest.findById s1 id1 with
        | none =>
          simp only [updateSwapRequest, hg, hfind1] at hok
          simp at hok
        | some r1 =>
          cases ha : authorisedFor t1 requester1 r1 with
          | false =>
            rw [updateSwapRequest_forbidden s1 id1 requester1 now1 r1 t1 hfind1 ht1 ha] at hok
            simp at hok
          | true =>
            cases hv : (r1.withStatus t1 now1).validate with
            | false =>
              simp only [updateSwapRequest, hg, hfind1,
                update_test_recipient t1 requester1 r1 ht1,
                update_test_party t1 requester1 r1 ht1, ha, hv] at hok
              simp at hok
            | true =>
              have hb : (updateSwapRequest s1 id1 requester1 (some t1) now1).body
                  = some (r1.withStatus t1 now1) := by
                simp only [updateSwapRequest, hg, hfind1,
                  update_test_recipient t1 requester1 r1 ht1,
                  update_test_party t1 requester1 r1 ht1, ha, hv]
                simp
              have hs : (updateSwapRequest s1 id1 requester1 (some t1) now1).store.swapRequests
                  = replaceFirst (fun x => x.id == r1.id) (r1.withStatus t1 now1)
                      s1.swapRequests := by
                simp only [updateSwapRequest, hg, hfind1,
                  update_test_recipient t1 requester1 r1 ht1,
                  update_test_party t1 requester1 r1 ht1, ha, hv]
                simp
                rfl
              refine ⟨r1.withStatus t1 now1, hb, ?_, ?_, ht1⟩
              · unfold SwapRequest.findById
                rw [hs]
                exact hstored s1 id1 r1 t1 now1 hfind1
              · show t1 ≠ "pending"
                rcases ht1 with h | h | h <;> rw [h] <;> decide

theorem updateSwapRequest_ignores_current_witness :
    SwapRequest.findById demoSwaps 2
      = some ⟨2, 11, 12, [106], [99], [], "rejected", some 8, none, 6⟩ ∧
    (⟨2, 11, 12, [106], [99], [], "rejected", some 8, none, 6⟩ : SwapRequest).validate = true ∧
    (("accepted" : String) = "accepted" ∨ ("accepted" : String) = "rejected" ∨
      ("accepted" : String) = "completed") ∧
    authorisedFor "accepted" 12 ⟨2, 11, 12, [106], [99], [], "rejected", some 8, none, 6⟩ = true ∧
    (updateSwapRequest demoSwaps 2 12 (some "accepted") 20).status = 200 ∧
    (∃ updated,
      (updateSwapRequest demoSwaps 2 12 (some "accepted") 20).body = some updated ∧
      SwapRequest.findById (updateSwapRequest demoSwaps 2 12 (some "accepted") 20).store 2
        = some updated ∧
      updated.status = "accepted" ∧
      updated.id = (⟨2, 11, 12, [106], [99], [], "rejected", some 8, none, 6⟩ : SwapRequest).id ∧
      updated.fromUser
        = (⟨2, 11, 12, [106], [99], [], "rejected", some 8, none, 6⟩ : SwapRequest).fromUser ∧
      updated.toUser
        = (⟨2, 11, 12, [106], [99], [], "rejected", some 8, none, 6⟩ : SwapRequest).toUser) ∧
    (∀ (s1 : SwapStore) (id1 requester1 : Id) (status1 : Option String) (now1 : Nat),
      (updateSwapRequest s1 id1 requester1 status1 now1).status = 200 →
      ∃ updated,
        (updateSwapRequest s1 id1 requester1 status1 now1).body = some updated ∧
        SwapRequest.findById (updateSwapRequest s1 id1 requester1 status1 now1).store id1
          = some updated ∧
        updated.status ≠ "pending" ∧
        (updated.status = "accepted" ∨ updated.status = "rejected" ∨
          updated.status = "completed")) :=
  ⟨by decide, by decide, Or.inl rfl, by decide,
    updateSwapRequest_ignores_current demoSwaps 2 12 20
      ⟨2, 11, 12, [106], [99], [], "rejected", some 8, none, 6⟩ "accepted"
      (by decide) (by decide) (Or.inl rfl) (by decide)⟩

/-- In the demo, the rejected request 2 becomes accepted and the completed request 3
becomes rejected. -/
theorem updateSwapRequest_reopen_demo :
    (updateSwapRequest demoSwaps 2 12 (some "accepted") 20).body
      = some ⟨2, 11, 12, [106], [99], [], "accepted", some 20, none, 6⟩ ∧
    (updateSwapRequest demoSwaps 3 10 (some "rejected") 20).body
      = some ⟨3, 12, 10, [99], [114], [], "rejected", some 20, some 12, 7⟩ := by
  decide

/-! ## Swap requests: one pending request per ordered pair -/

/-- What `createSwapRequest` does to the store: nothing, or one pending request appended,
from the caller to an existing user for whom the caller had no pending request; the
recipient is the identity the string given casts to, and that string is not the caller's
`req.user.id`. -/
theorem createSwapRequest_store (s : SwapStore) (requester : Id) (toId : Option JsString)
    (fromSkill toSkill message : Option JsString) (now : Nat) :
    ((createSwapRequest s requester toId fromSkill toSkill message now).status ≠ 201 ∧
      (createSwapRequest s requester toId fromSkill toSkill message now).body = none ∧
      (createSwapRequest s requester toId fromSkill toSkill message now).store = s) ∨
    (∃ doc toStr,
      (createSwapRequest s requester toId fromSkill toSkill message now).status = 201 ∧
      (createSwapRequest s requester toId fromSkill toSkill message now).store
        = { s with swapRequests := s.swapRequests ++ [doc], nextId := s.nextId + 1 } ∧
      doc.fromUser = requester ∧ toId = some toStr ∧ castObjectId toStr = some doc.toUser ∧
      toHexString requester ≠ toStr ∧ doc.status = "pending" ∧
      (s.findUser doc.toUser).isSome = true ∧
      s.swapRequests.find? (isPendingFor requester doc.toUser) = none) := by
  cases toId with
  | none => exact Or.inl ⟨by simp [createSwapRequest], rfl, rfl⟩
  | some toStr =>
    cases fromSkill with
    | none => exact Or.inl ⟨by simp [createSwapRequest], rfl, rfl⟩
    | some fromSkill =>
      cases toSkill with
      | none => exact Or.inl ⟨by simp [createSwapRequest], rfl, rfl⟩
      | some toSkill =>
        cases hg : (toStr.isEmpty || fromSkill.isEmpty || toSkill.isEmpty) with
        | true =>
          left
          simp only [createSwapRequest, hg]
          simp
        | false =>
          cases hself : (toHexString requester == toStr) with
          | true =>
            left
            simp only [createSwapRequest, hg, hself]
            simp
          | false =>
            cases hcast : castObjectId toStr with
            | none =>
              left
              simp only [createSwapRequest, hg, hself, hcast]
              simp
            | some recipient =>
              cases hu : s.findUser recipient with
              | none =>
                left
                simp only [createSwapRequest, hg, hself, hcast, hu]
                simp
              | some u =>
                cases hp : s.swapRequests.find? (isPendingFor requester recipient) with
                | some existing =>
                  left
                  simp only [createSwapRequest, hg, hself, hcast, hu, hp]
                  simp
                | none =>
                  cases hv : (SwapRequest.validate
                      ⟨s.nextId, requester, recipient, jsTrim fromSkill, jsTrim toSkill,
                        message.getD [], "pending", none, none, now⟩) with
                  | false =>
                    left
                    simp only [createSwapRequest, hg, hself, hcast, hu, hp, hv]
                    simp
                  | true =>
                    right
                    refine ⟨SwapRequest.persisted
                      ⟨s.nextId, requester, recipient, jsTrim fromSkill, jsTrim toSkill,
                        message.getD [], "pending", none, none, now⟩, toStr,
                      ?_, ?_, rfl, rfl, hcast, ?_, rfl, ?_, hp⟩
                    · simp only [createSwapRequest, hg, hself, hcast, hu, hp, hv]
                      simp
                    · simp only [createSwapRequest, hg, hself, hcast, hu, hp, hv]
                      simp
                    · intro hc
                      rw [hc] at hself
                      simp at hself
                    · show (s.findUser recipient).isSome = true
                      rw [hu]; rfl

/-- What `updateSwapRequest` does to the store: nothing, or the request found is replaced
by itself with a status among accepted, rejected, completed. -/
theorem updateSwapRequest_store (s : SwapStore) (id requester : Id)
    (status : Option String) (now : Nat) :
    (updateSwapRequest s id requester status now).store = s ∨
    (∃ r t, r ∈ s.swapRequests ∧ (t = "accepted" ∨ t = "rejected" ∨ t = "completed") ∧
      (updateSwapRequest s id requester status now).store
        = { s with swapRequests :=
              replaceFirst (fun x => x.id == r.id) (r.withStatus t now) s.swapRequests }) := by
  cases status with
  | none => exact Or.inl rfl
  | some t =>
    cases hg : (t.isEmpty || !(["accepted", "rejected", "completed"].contains t)) with
    | true =>
      left
      simp only [updateSwapRequest, hg]
      rfl
    | false =>
      have ht : t = "accepted" ∨ t = "rejected" ∨ t = "completed" := by
        have hc : (["accepted", "rejected", "completed"].contains t) = true := by
          cases hcc : (["accepted", "rejected", "completed"].contains t) with
          | true => rfl
          | false =>
            rw [hcc, Bool.not_false, Bool.or_true] at hg
            exact absurd hg (by decide)
        simpa using hc
      cases hfind : SwapRequest.findById s id with
      | none =>
        left
        simp only [updateSwapRequest, hg, hfind]
        rfl
      | some r =>
        cases ha : authorisedFor t requester r with
        | false =>
          left
          rw [updateSwapRequest_forbidden s id requester now r t hfind ht ha]
        | true =>
          cases hv : (r.withStatus t now).validate with
          | false =>
            left
            simp only [updateSwapRequest, hg, hfind, update_test_recipient t requester r ht,
              update_test_party t requester r ht, ha, hv]
            simp
          | true =>
            right
            refine ⟨r, t, List.mem_of_find?_eq_some hfind, ht, ?_⟩
            simp only [updateSwapRequest, hg, hfind, update_test_recipient t requester r ht,
              update_test_party t requester r ht, ha, hv]
            simp
            rfl

theorem deleteSwapRequest_store (s : SwapStore) (id requester : Id) :
    (deleteSwapRequest s id requester).store.users = s.users ∧
    List.Sublist (deleteSwapRequest s id requester).store.swapRequests s.swapRequests := by
  unfold deleteSwapRequest
  split
  · exact ⟨rfl, List.Sublist.refl _⟩
  · split
    · exact ⟨rfl, List.Sublist.refl _⟩
    · exact ⟨rfl, List.eraseP_sublist _⟩

theorem getSwapRequestById_store (s : SwapStore) (id requester : Id) :
    (getSwapRequestById s id requester).store = s := by
  unfold getSwapRequestById
  repeat' split
  all_goals rfl

theorem countP_replaceFirst_le {α : Type} (p q : α → Bool) (new : α) (hnew : p new = false) :
    ∀ l : List α, (replaceFirst q new l).countP p ≤ l.countP p
  | [] => Nat.le_refl _
  | x :: xs => by
    by_cases hq : q x = true
    · simp only [replaceFirst, hq, if_true, List.countP_cons, hnew]
      simp
    · have hq0 : q x = false := by simpa using hq
      simp only [replaceFirst, hq0, Bool.false_eq_true, if_false, List.countP_cons]
      exact Nat.add_le_add_right (countP_replaceFirst_le p q new hnew xs) _

theorem sound_of_no_requests (s : SwapStore) (h : s.swapRequests = []) : s.Sound := by
  unfold SwapStore.Sound
  rw [h]
  simp

theorem sound_of_sublist (s s1 : SwapStore) (h : s.Sound) (husers : s1.users = s.users)
    (hsub : List.Sublist s1.swapRequests s.swapRequests) : s1.Sound := by
  refine ⟨fun a b => Nat.le_trans (hsub.countP_le _) (h.1 a b), ?_⟩
  intro r hr
  have := h.2 r (hsub.subset hr)
  simpa [SwapStore.findUser, husers] using this

/-- Every swap request keeps the store sound. -/
theorem apply_sound (s : SwapStore) (op : SwapOp) (h : s.Sound) : (op.apply s).Sound := by
  cases op with
  | create requester toId fromSkill toSkill message now =>
    show (createSwapRequest s requester toId fromSkill toSkill message now).store.Sound
    rcases createSwapRequest_store s requester toId fromSkill toSkill message now with
      ⟨_, _, hs⟩ | ⟨doc, toStr, _, hs, hfrom, _, _, _, hstatus, huser, hnone⟩
    · rw [hs]; exact h
    · rw [hs]
      refine ⟨?_, ?_⟩
      · intro a b
        show (s.swapRequests ++ [doc]).countP (isPendingFor a b) ≤ 1
        rw [List.countP_append]
        by_cases hab : isPendingFor a b doc = true
        · have ha : a = requester := by
            have : doc.fromUser = a := by
              simp only [isPendingFor, Bool.and_eq_true] at hab
              simpa using hab.1.1
            rw [← this, hfrom]
          have hb : b = doc.toUser := by
            simp only [isPendingFor, Bool.and_eq_true] at hab
            have : doc.toUser = b := by simpa using hab.1.2
            exact this.symm
          have hzero : s.swapRequests.countP (isPendingFor a b) = 0 := by
            rw [List.countP_eq_zero, ha, hb]
            intro x hx
            exact List.find?_eq_none.mp hnone x hx
          rw [hzero]
          simp [List.countP_cons, hab]
        · have hab0 : isPendingFor a b doc = false := by simpa using hab
          have : [doc].countP (isPendingFor a b) = 0 := by
            simp [List.countP_cons, hab0]
          rw [this]
          exact h.1 a b
      · intro r hr
        rw [List.mem_append, List.mem_singleton] at hr
        rcases hr with hr | hr
        · exact h.2 r hr
        · rw [hr]; exact huser
  | list requester type status => exact h
  | get id requester =>
    show (getSwapRequestById s id requester).store.Sound
    rw [getSwapRequestById_store]
    exact h
  | update id requester status now =>
    show (updateSwapRequest s id requester status now).store.Sound
    rcases updateSwapRequest_store s id requester status now with hs | ⟨r, t, hr, ht, hs⟩
    · rw [hs]; exact h
    · rw [hs]
      have hnotp : ∀ a b, isPendingFor a b (r.withStatus t now) = false := by
        intro a b
        have : ((r.withStatus t now).status == "pending") = false := by
          show (t == "pending") = false
          rcases ht with h1 | h1 | h1 <;> rw [h1] <;> decide
        simp [isPendingFor, this]
      refine ⟨?_, ?_⟩
      · intro a b
        exact Nat.le_trans (countP_replaceFirst_le _ _ _ (hnotp a b) s.swapRequests)
          (h.1 a b)
      · intro x hx
        rcases mem_replaceFirst _ _ x s.swapRequests hx with hx1 | hx1
        · rw [hx1]; exact h.2 r hr
        · exact h.2 x hx1
  | delete id requester =>
    obtain ⟨husers, hsub⟩ := deleteSwapRequest_store s id requester
    exact sound_of_sublist s _ h husers hsub

theorem runSwapOps_sound (ops : List SwapOp) :
    ∀ s : SwapStore, s.Sound → (runSwapOps s ops).Sound := by
  induction ops with
  | nil => intro s h; exact h
  | cons op ops ih =>
    intro s h
    exact ih (op.apply s) (apply_sound s op h)

/-- What the swap requests do keep, from a store holding no request: each ordered pair of
users has at most one pending request; a request whose `to` is the caller's own
`req.user.id` is refused with 400; and so is one whose `to` casts to a recipient for whom
the caller has a pending request. Nothing is created in either case. -/
theorem runSwapOps_pending_unique (s0 : SwapStore) (ops : List SwapOp)
    (hempty : s0.swapRequests = []) :
    (∀ a b, (runSwapOps s0 ops).swapRequests.countP (isPendingFor a b) ≤ 1) ∧
    (∀ (requester : Id) (fromSkill toSkill message : Option JsString) (now : Nat),
      (createSwapRequest (runSwapOps s0 ops) requester (some (toHexString requester))
        fromSkill toSkill message now).status = 400 ∧
      (createSwapRequest (runSwapOps s0 ops) requester (some (toHexString requester))
        fromSkill toSkill message now).body = none ∧
      (createSwapRequest (runSwapOps s0 ops) requester (some (toHexString requester))
        fromSkill toSkill message now).store = runSwapOps s0 ops) ∧
    (∀ (requester recipient : Id) (toStr : JsString)
        (fromSkill toSkill message : Option JsString) (now : Nat),
      castObjectId toStr = some recipient →
      (∃ r ∈ (runSwapOps s0 ops).swapRequests, isPendingFor requester recipient r = true) →
      (createSwapRequest (runSwapOps s0 ops) requester (some toStr) fromSkill toSkill
        message now).status = 400 ∧
      (createSwapRequest (runSwapOps s0 ops) requester (some toStr) fromSkill toSkill
        message now).body = none ∧
      (createSwapRequest (runSwapOps s0 ops) requester (some toStr) fromSkill toSkill
        message now).store = runSwapOps s0 ops) := by
  have hsound := runSwapOps_sound ops s0 (sound_of_no_requests s0 hempty)
  refine ⟨hsound.1, ?_, ?_⟩
  · intro requester fromSkill toSkill message now
    cases fromSkill with
    | none => exact ⟨rfl, rfl, rfl⟩
    | some fromSkill =>
      cases toSkill with
      | none => exact ⟨rfl, rfl, rfl⟩
      | some toSkill =>
        cases hg : ((toHexString requester).isEmpty || fromSkill.isEmpty || toSkill.isEmpty) with
        | true =>
          simp only [createSwapRequest, hg]
          simp
        | false =>
          simp only [createSwapRequest, hg]
          simp
  · intro requester recipient toStr fromSkill toSkill message now hcast hex
    obtain ⟨r, hr, hp⟩ := hex
    have hrto : r.toUser = recipient := by
      simp only [isPendingFor, Bool.and_eq_true] at hp
      simpa using hp.1.2
    cases fromSkill with
    | none => exact ⟨rfl, rfl, rfl⟩
    | some fromSkill =>
      cases toSkill with
      | none => exact ⟨rfl, rfl, rfl⟩
      | some toSkill =>
        cases hg : (toStr.isEmpty || fromSkill.isEmpty || toSkill.isEmpty) with
        | true =>
          simp only [createSwapRequest, hg]
          simp
        | false =>
          cases hself : (toHexString requester == toStr) with
          | true =>
            simp only [createSwapRequest, hg, hself]
            simp
          | false =>
            have huser := hsound.2 r hr
            rw [hrto] at huser
            obtain ⟨u, hu⟩ := Option.isSome_iff_exists.mp huser
            have hsome : ((runSwapOps s0 ops).swapRequests.find?
                (isPendingFor requester recipient)).isSome = true := by
              rw [List.find?_isSome]
              exact ⟨r, hr, hp⟩
            obtain ⟨existing, hexisting⟩ := Option.isSome_iff_exists.mp hsome
            simp only [createSwapRequest, hg, hself, hcast, hu, hexisting]
            simp

/-- In the demo, the first request from 10 to 11 is created, the second is refused with
400 and creates nothing, a request of 10 to their own `req.user.id` is refused with 400,
and a `to` that is no `ObjectId` is answered with 500. -/
theorem createSwapRequest_demo :
    toHexString 10 = lowerTen ∧ toHexString 11 = lowerEleven ∧
    castObjectId lowerEleven = some 11 ∧
    (createSwapRequest emptySwaps 10 (some lowerEleven) (some [99]) (some [106]) none 5).status
      = 201 ∧
    (runSwapOps emptySwaps
      [SwapOp.create 10 (some lowerEleven) (some [99]) (some [106]) none 5,
       SwapOp.create 10 (some lowerEleven) (some [99]) (some [106]) none 6]).swapRequests
      = [⟨1, 10, 11, [99], [106], [], "pending", none, none, 5⟩] ∧
    (createSwapRequest demoSwaps 10 (some lowerEleven) (some [99]) (some [106]) none 6).status
      = 400 ∧
    (createSwapRequest demoSwaps 10 (some lowerTen) (some [99]) (some [106]) none 6).status
      = 400 ∧
    (createSwapRequest demoSwaps 10 (some [120]) (some [99]) (some [106]) none 6).status
      = 500 ∧
    (createSwapRequest demoSwaps 11 (some (toHexString 12)) (some [99]) (some [106]) none
      6).status = 201 := by
  decide

/-- C30: the self-check of `createSwapRequest` compares strings, and the string is cast
afterwards. The caller is user 10, whose `req.user.id` is `'00000000000000000000000a'`;
the body is `{to: '00000000000000000000000A', fromSkill: 'c', toSkill: 'j'}`. The string
given differs from `req.user.id` and casts to 10, and from the store without requests the
answer is 201: the store then holds the pending request 1 from user 10 to user 10, a
request whose sender is its recipient. The same body with `to` in lower case is refused
with 400 and creates nothing. -/
theorem createSwapRequest_self_upper_case :
    toHexString 10 = lowerTen ∧
    upperTen ≠ toHexString 10 ∧
    castObjectId upperTen = some 10 ∧
    (createSwapRequest emptySwaps 10 (some upperTen) (some [99]) (some [106]) none 5).status
      = 201 ∧
    (createSwapRequest emptySwaps 10 (some upperTen) (some [99]) (some [106]) none 5).body
      = some ⟨1, 10, 10, [99], [106], [], "pending", none, none, 5⟩ ∧
    (runSwapOps emptySwaps
      [SwapOp.create 10 (some upperTen) (some [99]) (some [106]) none 5]).swapRequests
      = [⟨1, 10, 10, [99], [106], [], "pending", none, none, 5⟩] ∧
    (∃ r ∈ (runSwapOps emptySwaps
        [SwapOp.create 10 (some upperTen) (some [99]) (some [106]) none 5]).swapRequests,
      r.fromUser = r.toUser) ∧
    (createSwapRequest emptySwaps 10 (some lowerTen) (some [99]) (some [106]) none 5).status
      = 400 ∧
    (createSwapRequest emptySwaps 10 (some lowerTen) (some [99]) (some [106]) none 5).store
      = emptySwaps := by
  refine ⟨by decide, by decide, by decide, by decide, by decide, by decide, ?_, by decide,
    by decide⟩
  exact ⟨⟨1, 10, 10, [99], [106], [], "pending", none, none, 5⟩, by decide, rfl⟩

/-! ## Recommendations: the fallback ranking -/

theorem length_mapWithIndex {α β : Type} (f : α → Nat → β) :
    ∀ (l : List α) (start : Nat), (mapWithIndex f start l).length = l.length
  | [], _ => rfl
  | _ :: xs, start => by
    simp only [mapWithIndex, List.length_cons, length_mapWithIndex f xs (start + 1)]

theorem getElem?_mapWithIndex {α β : Type} (f : α → Nat → β) :
    ∀ (l : List α) (start i : Nat),
      (mapWithIndex f start l)[i]? = (l[i]?).map (fun x => f x (start + i))
  | [], _, _ => by simp [mapWithIndex]
  | x :: xs, start, 0 => by simp [mapWithIndex]
  | x :: xs, start, i + 1 => by
    simp only [mapWithIndex, List.getElem?_cons_succ]
    rw [getElem?_mapWithIndex f xs (start + 1) i]
    have : start + 1 + i = start + (i + 1) := by omega
    rw [this]

/-- Among profiles with pairwise distinct names, looking a listed profile up by its name
finds that very profile. -/
theorem find?_by_name (u : Profile) :
    ∀ l : List Profile, (l.map (fun x => x.name)).Nodup → u ∈ l →
      l.find? (fun x => x.name == u.name) = some u
  | [], _, h => absurd h (List.not_mem_nil u)
  | x :: xs, hnodup, h => by
    have hx : x.name ∉ xs.map (fun y => y.name) := (List.nodup_cons.mp hnodup).1
    have hxs : (xs.map (fun y => y.name)).Nodup := (List.nodup_cons.mp hnodup).2
    rcases List.mem_cons.mp h with hux | hux
    · rw [hux]
      simp
    · have hne : ¬ x.name = u.name := by
        intro heq
        apply hx
        rw [heq]
        exact List.mem_map_of_mem (fun y : Profile => y.name) hux
      have hne0 : (x.name == u.name) = false := by simpa using hne
      rw [List.find?_cons, hne0]
      exact find?_by_name u xs hxs hux

/-- Merging the fallback entries built from some potential matches gives each of them its
fallback recommendation, in order, when looking up by name finds each of them. -/
theorem merge_fallback (potential : List Profile) :
    ∀ (l : List Profile) (start : Nat),
      (∀ u ∈ l, potential.find? (fun x => x.name == u.name) = some u) →
      mergeRecommendations potential
        (mapWithIndex (fun (m : MatchData) (i : Nat) =>
          (⟨m.name, 90 - (i : Int) * 10,
            JsString.ofString "Can teach " ++ m.teaches ++
              JsString.ofString " which matches your learning goals"⟩ : AiRec)) start
          (l.map (fun user =>
            (⟨user.name, joinComma user.skillsToTeach, joinComma user.skillsToLearn⟩ :
              MatchData))))
        = mapWithIndex fallbackFor start l
  | [], _, _ => rfl
  | u :: us, start, h => by
    have hu := h u (List.mem_cons_self _ _)
    have ih := merge_fallback potential us (start + 1)
      (fun v hv => h v (List.mem_cons_of_mem _ hv))
    unfold mergeRecommendations at ih ⊢
    simp only [List.map_cons, mapWithIndex, List.filterMap_cons, hu, Option.map_some']
    rw [ih]
    rfl

/-- C25: when the generative model answers with text that `JSON.parse` rejects and the
potential matches `m_0 .. m_k` (there is at least one) have pairwise distinct names,
`getRecommendations` answers 200 with `min(5, k+1)` recommendations, the `i`-th of which
has score `90 - 10*i` and carries `m_i` as its user, in the order of the potential
matches. -/
theorem getRecommendations_fallback (toLowerCase : JsString → JsString)
    (jsonParse : JsString → Option (Option (List AiRec))) (simple : RecResponse)
    (profiles : List Profile) (requester : Id) (textResponse : JsString)
    (currentUser : Profile) (potential : List Profile)
    (hme : profiles.find? (fun u => u.id == requester) = some currentUser)
    (hpotential : potentialMatches toLowerCase currentUser
        (profiles.filter (fun u => u.id != requester)) = potential)
    (hsome : potential ≠ [])
    (hnames : (potential.map (fun u => u.name)).Nodup)
    (hparse : jsonParse textResponse = none) :
    ∃ recs,
      getRecommendations toLowerCase jsonParse simple profiles requester
        (ModelOutcome.text textResponse) = ⟨200, some recs⟩ ∧
      recs.length = min 5 potential.length ∧
      (∀ i, i < min 5 potential.length →
        ∃ m, potential[i]? = some m ∧ recs[i]? = some (fallbackFor m i)) ∧
      (∀ (i : Nat) (rec : Recommendation), recs[i]? = some rec →
        rec.score = 90 - 10 * (i : Int) ∧ potential[i]? = some rec.user ∧
        rec.name = rec.user.name) := by
  have hlearn : currentUser.skillsToLearn.isEmpty = false := by
    cases hl : currentUser.skillsToLearn with
    | cons x xs => rfl
    | nil =>
      exfalso
      apply hsome
      rw [← hpotential]
      simp [potentialMatches, hl]
  have hall : (profiles.filter (fun u => u.id != requester)).isEmpty = false := by
    cases ha : profiles.filter (fun u => u.id != requester) with
    | cons x xs => rfl
    | nil =>
      exfalso
      apply hsome
      rw [← hpotential, ha]
      rfl
  have hpot : potential.isEmpty = false := by
    cases hp : potential with
    | cons x xs => rfl
    | nil => exact absurd hp hsome
  have hmerge : mergeRecommendations potential (fallbackRecommendations (matchesData potential))
      = mapWithIndex fallbackFor 0 (potential.take 5) := by
    unfold fallbackRecommendations matchesData
    exact merge_fallback potential (potential.take 5) 0
      (fun u hu => find?_by_name u potential hnames (List.mem_of_mem_take hu))
  refine ⟨mapWithIndex fallbackFor 0 (potential.take 5), ?_, ?_, ?_, ?_⟩
  · simp only [getRecommendations, hme, hlearn, hall, hpotential, hpot, hparse]
    simp [hmerge]
  · rw [length_mapWithIndex, List.length_take]
  · intro i hi
    have hi5 : i < 5 := Nat.lt_of_lt_of_le hi (Nat.min_le_left _ _)
    have hil : i < potential.length := Nat.lt_of_lt_of_le hi (Nat.min_le_right _ _)
    refine ⟨potential[i], List.getElem?_eq_getElem hil, ?_⟩
    rw [getElem?_mapWithIndex, List.getElem?_take_of_lt hi5, List.getElem?_eq_getElem hil]
    simp
  · intro i rec hrec
    rw [getElem?_mapWithIndex] at hrec
    cases hget : (potential.take 5)[i]? with
    | none => rw [hget] at hrec; simp at hrec
    | some m =>
      rw [hget] at hrec
      simp only [Option.map_some', Option.some.injEq, Nat.zero_add] at hrec
      have hi5 : i < 5 := by
        by_contra hcon
        have hlen : (potential.take 5).length ≤ i := by
          rw [List.length_take]
          exact Nat.le_trans (Nat.min_le_left _ _) (Nat.not_lt.mp hcon)
        rw [List.getElem?_eq_none hlen] at hget
        exact absurd hget (by simp)
      rw [List.getElem?_take_of_lt hi5] at hget
      rw [← hrec]
      refine ⟨?_, hget, rfl⟩
      show (90 : Int) - (i : Int) * 10 = 90 - 10 * (i : Int)
      omega

theorem getRecommendations_fallback_witness :
    demoProfiles.find? (fun u => u.id == 10) = some ⟨10, [65], [[99]], [[103, 111]]⟩ ∧
    potentialMatches id ⟨10, [65], [[99]], [[103, 111]]⟩
        (demoProfiles.filter (fun u => u.id != 10))
      = [⟨11, [66], [[103, 111]], []⟩, ⟨12, [67], [[103, 111]], []⟩,
         ⟨13, [68], [[103, 111]], []⟩, ⟨14, [69], [[103, 111]], []⟩,
         ⟨15, [70], [[103, 111]], []⟩, ⟨16, [71], [[103, 111]], []⟩,
         ⟨17, [72], [[103, 111]], []⟩] ∧
    ∃ recs,
      getRecommendations id (fun _ => none) ⟨200, some []⟩ demoProfiles 10
        (ModelOutcome.text [111, 107]) = ⟨200, some recs⟩ ∧
      recs.length = min 5
        ([⟨11, [66], [[103, 111]], []⟩, ⟨12, [67], [[103, 111]], []⟩,
          ⟨13, [68], [[103, 111]], []⟩, ⟨14, [69], [[103, 111]], []⟩,
          ⟨15, [70], [[103, 111]], []⟩, ⟨16, [71], [[103, 111]], []⟩,
          ⟨17, [72], [[103, 111]], []⟩] : List Profile).length ∧
      (∀ i, i < min 5
          ([⟨11, [66], [[103, 111]], []⟩, ⟨12, [67], [[103, 111]], []⟩,
            ⟨13, [68], [[103, 111]], []⟩, ⟨14, [69], [[103, 111]], []⟩,
            ⟨15, [70], [[103, 111]], []⟩, ⟨16, [71], [[103, 111]], []⟩,
            ⟨17, [72], [[103, 111]], []⟩] : List Profile).length →
        ∃ m, ([⟨11, [66], [[103, 111]], []⟩, ⟨12, [67], [[103, 111]], []⟩,
            ⟨13, [68], [[103, 111]], []⟩, ⟨14, [69], [[103, 111]], []⟩,
            ⟨15, [70], [[103, 111]], []⟩, ⟨16, [71], [[103, 111]], []⟩,
            ⟨17, [72], [[103, 111]], []⟩] : List Profile)[i]? = some m ∧
          recs[i]? = some (fallbackFor m i)) ∧
      (∀ (i : Nat) (rec : Recommendation), recs[i]? = some rec →
        rec.score = 90 - 10 * (i : Int) ∧
        ([⟨11, [66], [[103, 111]], []⟩, ⟨12, [67], [[103, 111]], []⟩,
          ⟨13, [68], [[103, 111]], []⟩, ⟨14, [69], [[103, 111]], []⟩,
          ⟨15, [70], [[103, 111]], []⟩, ⟨16, [71], [[103, 111]], []⟩,
          ⟨17, [72], [[103, 111]], []⟩] : List Profile)[i]? = some rec.user ∧
        rec.name = rec.user.name) :=
  ⟨by decide, by decide,
    getRecommendations_fallback id (fun _ => none) ⟨200, some []⟩ demoProfiles 10 [111, 107]
      ⟨10, [65], [[99]], [[103, 111]]⟩ _ (by decide) (by decide) (by decide) (by decide) rfl⟩

/-- In the demo seven users match; the fallback ranks the first five with scores 90, 80,
70, 60 and 50. -/
theorem getRecommendations_demo :
    ((getRecommendations id (fun _ => none) ⟨200, some []⟩ demoProfiles 10
      (ModelOutcome.text [111, 107])).recommendations.map
        (fun recs => recs.map (fun rec => (rec.user.id, rec.score))))
      = some [(11, 90), (12, 80), (13, 70), (14, 60), (15, 50)] := by
  decide

end SkillSwap
